import Mathlib

/-!
# ptarmigan: the commitment transaction engine of `ln_script.c`

A shallow embedding of the fee calculator, the commitment transaction builder and the
obscured commitment number of `ucoin/src/ln/ln_script.c`, with the properties the
specification states about them.

Conventions of the embedding.

* A buffer (`ucoin_buf_t`, `uint8_t[]`) is a list of bytes.
* `uint64_t` arithmetic is arithmetic on `Nat` reduced modulo `2 ^ 64` (`u64`, `u64_sub`);
  the cast `(uint8_t)lp` is a reduction modulo `256`.
* An array with its element count (`ppHtlcInfo`, `Num`) is a list.
* A function that writes through a pointer returns the written value.
* Constants and primitives that live outside `ln_script.c` are collected in `Env`.
-/

namespace Ptarmigan

/-! ## Machine integers and buffers -/

/-- One `uint8_t`. -/
abbrev Byte := Fin 256

/-- The contents of a `ucoin_buf_t` or of a `uint8_t` array. -/
abbrev Bytes := List Byte

/-- The value a `uint64_t` holds after it is assigned the natural number `n`. -/
def u64 (n : Nat) : Nat := n % 2 ^ 64

/-- The `uint64_t` difference `a - b`: it wraps around when `b` exceeds `a`. -/
def u64_sub (a b : Nat) : Nat := (u64 a + 2 ^ 64 - u64 b) % 2 ^ 64

/-! ## Constants of `ln_script.c` -/

/-- Weight of an HTLC-success transaction (`#define M_FEE_HTLCSUCCESS (703ULL)`). -/
def M_FEE_HTLCSUCCESS : Nat := 703

/-- Weight of an HTLC-timeout transaction (`#define M_FEE_HTLCTIMEOUT (663ULL)`). -/
def M_FEE_HTLCTIMEOUT : Nat := 663

/-- Weight one HTLC output adds to the commitment transaction
(`#define M_FEE_COMMIT_HTLC (172ULL)`). -/
def M_FEE_COMMIT_HTLC : Nat := 172

/-- Number of hash bytes that make the obscured commitment number
(`#define M_OBSCURED_TX_LEN (6)`). -/
def M_OBSCURED_TX_LEN : Nat := 6

/-- Modelled from the spec: the constant `UCOIN_SZ_PUBKEY` of `ucoin.h`, which is not among
the sources; base points and keys are 33-byte compressed public keys. -/
def UCOIN_SZ_PUBKEY : Nat := 33

/-- Modelled from the spec: the macro `LN_MSAT2SATOSHI` of `ln.h`, which is not among the
sources; HTLC amounts are kept in millisatoshi and `amount_sat` is the amount in whole
satoshi. -/
def LN_MSAT2SATOSHI (msat : Nat) : Nat := msat / 1000

/-- Modelled from the spec: the macro `LN_SEQUENCE` of `ln_local.h`, which is not among the
sources; the funding input sequence is `0x80` followed by the upper three bytes of the
48-bit obscured commitment number. -/
def LN_SEQUENCE (obs : Nat) : Nat := (0x80000000 ||| ((obs >>> 24) &&& 0xffffff)) % 2 ^ 32

/-- Modelled from the spec: the macro `LN_LOCKTIME` of `ln_local.h`, which is not among the
sources; the lock time is `0x20` followed by the lower three bytes of the 48-bit obscured
commitment number. -/
def LN_LOCKTIME (obs : Nat) : Nat := (0x20000000 ||| (obs &&& 0xffffff)) % 2 ^ 32

/-! ## Data model -/

/-- Direction of an HTLC (`ln_htlctype_t`). -/
inductive ln_htlctype_t where
  | LN_HTLCTYPE_NONE
  | LN_HTLCTYPE_OFFERED
  | LN_HTLCTYPE_RECEIVED
  deriving DecidableEq, Repr

open ln_htlctype_t

/-- One HTLC of a commitment (`ln_htlcinfo_t`), with the fields `ln_script.c` uses. -/
structure ln_htlcinfo_t where
  type : ln_htlctype_t
  expiry : Nat
  amount_msat : Nat
  preimage_hash : Bytes
  script : Bytes
  deriving DecidableEq, Repr

/-- Fee snapshot of a commitment (`ln_feeinfo_t`): `feerate_per_kw` and
`dust_limit_satoshi` are inputs, the three fees are filled by `ln_fee_calc`. -/
structure ln_feeinfo_t where
  feerate_per_kw : Nat
  dust_limit_satoshi : Nat
  htlc_success : Nat
  htlc_timeout : Nat
  commit : Nat
  deriving DecidableEq, Repr

/-- Signing keys (`ucoin_util_keys_t`). -/
structure ucoin_util_keys_t where
  priv : Bytes
  pub : Bytes
  deriving DecidableEq, Repr

/-- One transaction input (`ucoin_vin_t`). -/
structure ucoin_vin_t where
  txid : Bytes
  index : Nat
  sequence : Nat
  witness : List Bytes
  deriving DecidableEq, Repr

/-- One transaction output (`ucoin_vout_t`); `opt` is the one-byte role tag. -/
structure ucoin_vout_t where
  value : Nat
  script : Bytes
  opt : Nat
  deriving DecidableEq, Repr

/-- A transaction under construction (`ucoin_tx_t`). -/
structure ucoin_tx_t where
  vin : List ucoin_vin_t
  vout : List ucoin_vout_t
  locktime : Nat
  deriving DecidableEq, Repr

/-- The funding part of a commit context (`pCmt->fund`). -/
structure ln_tx_cmt_fund_t where
  txid : Bytes
  txid_index : Nat
  satoshi : Nat
  p_script : Bytes
  p_keys : ucoin_util_keys_t
  deriving DecidableEq, Repr

/-- The local part of a commit context (`pCmt->local`). -/
structure ln_tx_cmt_local_t where
  satoshi : Nat
  p_script : Bytes
  deriving DecidableEq, Repr

/-- The remote part of a commit context (`pCmt->remote`). -/
structure ln_tx_cmt_remote_t where
  satoshi : Nat
  pubkey : Bytes
  deriving DecidableEq, Repr

/-- The commit context (`ln_tx_cmt_t`). The member `local` is spelled `local_`, and
`pp_htlcinfo` with `htlcinfo_num` is one list. -/
structure ln_tx_cmt_t where
  fund : ln_tx_cmt_fund_t
  local_ : ln_tx_cmt_local_t
  remote : ln_tx_cmt_remote_t
  obscured : Nat
  p_feeinfo : ln_feeinfo_t
  pp_htlcinfo : List ln_htlcinfo_t
  deriving DecidableEq, Repr

/-- What `ln_script.c` takes from the rest of the repository and from the hash and
signature libraries: the constants of the headers that are not among the sources, and the
primitives as functions. -/
structure Env where
  /-- Base weight of a commitment transaction (`LN_FEE_COMMIT_BASE`). -/
  LN_FEE_COMMIT_BASE : Nat
  /-- Role tag of the to-local output (`VOUT_OPT_TOLOCAL`). -/
  VOUT_OPT_TOLOCAL : Nat
  /-- Role tag of the to-remote output (`VOUT_OPT_TOREMOTE`). -/
  VOUT_OPT_TOREMOTE : Nat
  /-- SHA-256 of a message (`mbedtls_sha256_*`, `ucoin_util_sha256`). -/
  sha256 : Bytes → Bytes
  /-- A SHA-256 digest has 32 bytes. -/
  sha256_length : ∀ msg, (sha256 msg).length = 32
  /-- RIPEMD160 of SHA-256 (`ucoin_util_hash160`). -/
  hash160 : Bytes → Bytes
  /-- BIP-143 signature hash of one input (`ucoin_util_sign_p2wsh_1`): transaction, input
  index, value of the spent output, witness script. -/
  sign_p2wsh_1 : ucoin_tx_t → Nat → Nat → Bytes → Bytes
  /-- Signature over a signature hash (`ucoin_util_sign_p2wsh_2`); `none` when signing
  fails. -/
  sign_p2wsh_2 : Bytes → ucoin_util_keys_t → Option Bytes
  /-- RIPEMD160 of a message (`ucoin_util_ripemd160`). -/
  ripemd160 : Bytes → Bytes
  /-- A RIPEMD160 digest has 20 bytes. -/
  ripemd160_length : ∀ msg, (ripemd160 msg).length = 20
  /-- HASH160 is RIPEMD160 of SHA-256. -/
  hash160_eq : ∀ msg, hash160 msg = ripemd160 (sha256 msg)
  /-- The bytes `ucoin_push_value` writes for a number: its push in a script. -/
  push_value : Nat → Bytes
  /-- The `uint8_t` value of an enumerator of `ln_htlctype_t`. -/
  htlctype : ln_htlctype_t → Nat
  /-- Different enumerators have different values. -/
  htlctype_inj : Function.Injective htlctype
  /-- Check of a signature against a signature hash and a public key
  (`ucoin_tx_verify`): signature, hash, public key. -/
  tx_verify : Bytes → Bytes → Bytes → Bool

/-! ## Transaction helpers of the `ucoin` library -/

/-- The transaction without input and output that the callers pass in, as left by
`ucoin_tx_init`. -/
def ucoin_tx_empty : ucoin_tx_t := { vin := [], vout := [], locktime := 0 }

/-- Modelled from the spec: `ucoin_tx_add_vin` of `ucoin_tx.c`, which is not among the
sources; it appends one input spending output `index` of `txid`. The new input starts with
the final sequence number and no witness; every caller in `ln_script.c` overwrites the
sequence. -/
def ucoin_tx_add_vin (tx : ucoin_tx_t) (txid : Bytes) (index : Nat) : ucoin_tx_t :=
  { tx with vin := tx.vin ++ [{ txid := txid, index := index, sequence := 0xffffffff,
                                witness := [] }] }

/-- Modelled from the spec: `ucoin_sw_add_vout_p2wpkh_pub` of `ucoin_sw.c`, which is not
among the sources; it appends a P2WPKH output (`OP_0 20 <HASH160(pubkey)>`) of the given
value. -/
def ucoin_sw_add_vout_p2wpkh_pub (E : Env) (tx : ucoin_tx_t) (value : Nat) (pubkey : Bytes) :
    ucoin_tx_t :=
  { tx with vout := tx.vout ++ [{ value := value, script := 0x00 :: 0x14 :: E.hash160 pubkey,
                                  opt := 0 }] }

/-- Modelled from the spec: `ucoin_sw_add_vout_p2wsh` of `ucoin_sw.c`, which is not among
the sources; it appends a P2WSH output (`OP_0 32 <SHA256(witness script)>`) of the given
value. -/
def ucoin_sw_add_vout_p2wsh (E : Env) (tx : ucoin_tx_t) (value : Nat) (wscript : Bytes) :
    ucoin_tx_t :=
  { tx with vout := tx.vout ++ [{ value := value, script := 0x00 :: 0x20 :: E.sha256 wscript,
                                  opt := 0 }] }

/-- The assignment `pTx->vout[i].opt = tag`. -/
def vout_set_opt (tx : ucoin_tx_t) (i : Nat) (tag : Nat) : ucoin_tx_t :=
  { tx with vout := tx.vout.modify (fun o => { o with opt := tag }) i }

/-- The assignment `pTx->vin[i].sequence = seq`. -/
def vin_set_sequence (tx : ucoin_tx_t) (i : Nat) (seq : Nat) : ucoin_tx_t :=
  { tx with vin := tx.vin.modify (fun v => { v with sequence := seq }) i }

/-- Lexicographic order on byte strings, as a boolean. -/
def bytes_le : Bytes → Bytes → Bool
  | [], _ => true
  | _ :: _, [] => false
  | a :: as, b :: bs => a.val < b.val || (a.val == b.val && bytes_le as bs)

/-- The BIP-69 order on outputs: ascending value, ties by scriptPubKey bytes. -/
def vout_le (a b : ucoin_vout_t) : Bool :=
  a.value < b.value || (a.value == b.value && bytes_le a.script b.script)

/-- Modelled from the spec: `ucoin_util_sort_bip69` of `ucoin_util.c`, which is not among
the sources; it sorts the outputs ascending by value with ties broken by the scriptPubKey
bytes, each output keeping its tag. The spec words the order of the outputs only, and a
commitment transaction has a single input. -/
def ucoin_util_sort_bip69 (tx : ucoin_tx_t) : ucoin_tx_t :=
  { tx with vout := tx.vout.insertionSort (fun a b => vout_le a b = true) }

/-! ## `ln_calc_obscured_txnum` -/

/-- The loop of `ln_calc_obscured_txnum` over `lp = 0 .. M_OBSCURED_TX_LEN - 1`:
`obs <<= 8; obs |= base[sizeof(base) - M_OBSCURED_TX_LEN + lp]` on a `uint64_t`. -/
def ln_calc_obscured_txnum_loop (base : Bytes) : List Nat → Nat → Nat
  | [], obs => obs
  | lp :: rest, obs =>
    ln_calc_obscured_txnum_loop base rest
      (u64 (obs <<< 8) ||| ((base.getD (32 - M_OBSCURED_TX_LEN + lp) 0).val))

/-- The function `ln_calc_obscured_txnum`: SHA-256 over the first `UCOIN_SZ_PUBKEY` bytes of the local
and of the remote base point, then the last six digest bytes read big-endian. -/
def ln_calc_obscured_txnum (E : Env) (pLocalBasePt pRemoteBasePt : Bytes) : Nat :=
  let base := E.sha256 (pLocalBasePt.take UCOIN_SZ_PUBKEY ++ pRemoteBasePt.take UCOIN_SZ_PUBKEY)
  ln_calc_obscured_txnum_loop base (List.range M_OBSCURED_TX_LEN) 0

/-! ## `ln_fee_calc` -/

/-- The loop of `ln_fee_calc` over the HTLC list; the state is
(`pFeeInfo->commit`, `dusts`), both `uint64_t`. -/
def ln_fee_calc_loop (fi : ln_feeinfo_t) : List ln_htlcinfo_t → Nat × Nat → Nat × Nat
  | [], acc => acc
  | h :: rest, (commit, dusts) =>
    match h.type with
    | LN_HTLCTYPE_OFFERED =>
      if LN_MSAT2SATOSHI h.amount_msat ≥ u64 (fi.dust_limit_satoshi + fi.htlc_timeout) then
        ln_fee_calc_loop fi rest (u64 (commit + M_FEE_COMMIT_HTLC), dusts)
      else
        ln_fee_calc_loop fi rest (commit, u64 (dusts + LN_MSAT2SATOSHI h.amount_msat))
    | LN_HTLCTYPE_RECEIVED =>
      if LN_MSAT2SATOSHI h.amount_msat ≥ u64 (fi.dust_limit_satoshi + fi.htlc_success) then
        ln_fee_calc_loop fi rest (u64 (commit + M_FEE_COMMIT_HTLC), dusts)
      else
        ln_fee_calc_loop fi rest (commit, u64 (dusts + LN_MSAT2SATOSHI h.amount_msat))
    | LN_HTLCTYPE_NONE => ln_fee_calc_loop fi rest (commit, dusts)

/-- The function `ln_fee_calc`: fills `htlc_success`, `htlc_timeout` and `commit` of the fee info and
returns `pFeeInfo->commit + dusts`. The result is the updated fee info and the returned
`uint64_t`. -/
def ln_fee_calc (E : Env) (pFeeInfo : ln_feeinfo_t) (ppHtlcInfo : List ln_htlcinfo_t) :
    ln_feeinfo_t × Nat :=
  let fi1 : ln_feeinfo_t :=
    { pFeeInfo with
      htlc_success := u64 (M_FEE_HTLCSUCCESS * pFeeInfo.feerate_per_kw) / 1000
      htlc_timeout := u64 (M_FEE_HTLCTIMEOUT * pFeeInfo.feerate_per_kw) / 1000
      commit := u64 E.LN_FEE_COMMIT_BASE }
  let st := ln_fee_calc_loop fi1 ppHtlcInfo (fi1.commit, 0)
  let fi2 : ln_feeinfo_t := { fi1 with commit := u64 (st.1 * fi1.feerate_per_kw) / 1000 }
  (fi2, u64 (fi2.commit + st.2))

/-! ## `ln_create_commit_tx` -/

/-- The fee share of the local side (`fee_local`): the commit fee when `Local`. -/
def fee_local (pCmt : ln_tx_cmt_t) (Local : Bool) : Nat :=
  if Local then pCmt.p_feeinfo.commit else 0

/-- The fee share of the remote side (`fee_remote`): the commit fee unless `Local`. -/
def fee_remote (pCmt : ln_tx_cmt_t) (Local : Bool) : Nat :=
  if Local then 0 else pCmt.p_feeinfo.commit

/-- The step `P2WPKH - remote` of `ln_create_commit_tx`. -/
def ln_create_commit_tx_remote (E : Env) (pTx : ucoin_tx_t) (pCmt : ln_tx_cmt_t)
    (Local : Bool) : ucoin_tx_t :=
  if pCmt.remote.satoshi ≥ u64 (pCmt.p_feeinfo.dust_limit_satoshi + fee_remote pCmt Local) then
    let tx1 := ucoin_sw_add_vout_p2wpkh_pub E pTx
      (u64_sub pCmt.remote.satoshi (fee_remote pCmt Local)) pCmt.remote.pubkey
    vout_set_opt tx1 (tx1.vout.length - 1) E.VOUT_OPT_TOREMOTE
  else pTx

/-- The step `P2WSH - local` of `ln_create_commit_tx`. -/
def ln_create_commit_tx_local (E : Env) (pTx : ucoin_tx_t) (pCmt : ln_tx_cmt_t)
    (Local : Bool) : ucoin_tx_t :=
  if pCmt.local_.satoshi ≥ u64 (pCmt.p_feeinfo.dust_limit_satoshi + fee_local pCmt Local) then
    let tx1 := ucoin_sw_add_vout_p2wsh E pTx
      (u64_sub pCmt.local_.satoshi (fee_local pCmt Local)) pCmt.local_.p_script
    vout_set_opt tx1 (tx1.vout.length - 1) E.VOUT_OPT_TOLOCAL
  else pTx

/-- The fee the HTLC loop of `ln_create_commit_tx` picks for an HTLC (`fee`). -/
def ln_create_commit_tx_htlc_fee (fi : ln_feeinfo_t) (h : ln_htlcinfo_t) : Nat :=
  match h.type with
  | LN_HTLCTYPE_OFFERED => fi.htlc_timeout
  | LN_HTLCTYPE_RECEIVED => fi.htlc_success
  | LN_HTLCTYPE_NONE => 0

/-- The loop `HTLCs` of `ln_create_commit_tx`, entered at index `lp` with the HTLCs from
`lp` on: an HTLC at or above `dust_limit_satoshi + fee` gets a P2WSH output tagged
`(uint8_t)lp`. -/
def ln_create_commit_tx_htlcs (E : Env) (fi : ln_feeinfo_t) :
    List ln_htlcinfo_t → Nat → ucoin_tx_t → ucoin_tx_t
  | [], _, pTx => pTx
  | h :: rest, lp, pTx =>
    if LN_MSAT2SATOSHI h.amount_msat
        ≥ u64 (fi.dust_limit_satoshi + ln_create_commit_tx_htlc_fee fi h) then
      let tx1 := ucoin_sw_add_vout_p2wsh E pTx (LN_MSAT2SATOSHI h.amount_msat) h.script
      ln_create_commit_tx_htlcs E fi rest (lp + 1)
        (vout_set_opt tx1 (tx1.vout.length - 1) (lp % 256))
    else
      ln_create_commit_tx_htlcs E fi rest (lp + 1) pTx

/-- The part `output` of `ln_create_commit_tx`: to-remote, to-local, then the HTLCs. -/
def ln_create_commit_tx_outputs (E : Env) (pTx : ucoin_tx_t) (pCmt : ln_tx_cmt_t)
    (Local : Bool) : ucoin_tx_t :=
  ln_create_commit_tx_htlcs E pCmt.p_feeinfo pCmt.pp_htlcinfo 0
    (ln_create_commit_tx_local E (ln_create_commit_tx_remote E pTx pCmt Local) pCmt Local)

/-- The part `input` and `locktime` of `ln_create_commit_tx`: the funding outpoint is
added, the sequence of the added input and the lock time carry the obscured number. -/
def ln_create_commit_tx_input (pTx : ucoin_tx_t) (pCmt : ln_tx_cmt_t) : ucoin_tx_t :=
  let tx1 := ucoin_tx_add_vin pTx pCmt.fund.txid pCmt.fund.txid_index
  let tx2 := vin_set_sequence tx1 (tx1.vin.length - 1) (LN_SEQUENCE pCmt.obscured)
  { tx2 with locktime := LN_LOCKTIME pCmt.obscured }

/-- The function `ln_create_commit_tx`: outputs, funding input, lock time, BIP-69 sort, then the
signature over input 0. The result is the transaction and the signature, `none` when the
function returns `false`. -/
def ln_create_commit_tx (E : Env) (pTx : ucoin_tx_t) (pCmt : ln_tx_cmt_t) (Local : Bool) :
    ucoin_tx_t × Option Bytes :=
  let tx := ucoin_util_sort_bip69
    (ln_create_commit_tx_input (ln_create_commit_tx_outputs E pTx pCmt Local) pCmt)
  let txhash := E.sign_p2wsh_1 tx 0 pCmt.fund.satoshi pCmt.fund.p_script
  (tx, E.sign_p2wsh_2 txhash pCmt.fund.p_keys)

/-! ## Script opcodes and the push helpers -/

/-- Modelled from the spec: the opcode macro `OP_0` of `ucoin.h`, which is not among the
sources; the scripts are those of BOLT-3 and the opcode has its Bitcoin script value. The
string macro `UCOIN_OP_x` is the one-byte string of `OP_x`. -/
def OP_0 : Byte := 0x00

/-- Modelled from the spec: the opcode macro `OP_2` of `ucoin.h`, which is not among the
sources, with its Bitcoin script value. -/
def OP_2 : Byte := 0x52

/-- Modelled from the spec: the opcode macro `OP_IF` of `ucoin.h`, which is not among the
sources, with its Bitcoin script value. -/
def OP_IF : Byte := 0x63

/-- Modelled from the spec: the opcode macro `OP_NOTIF` of `ucoin.h`, which is not among
the sources, with its Bitcoin script value. -/
def OP_NOTIF : Byte := 0x64

/-- Modelled from the spec: the opcode macro `OP_ELSE` of `ucoin.h`, which is not among the
sources, with its Bitcoin script value. -/
def OP_ELSE : Byte := 0x67

/-- Modelled from the spec: the opcode macro `OP_ENDIF` of `ucoin.h`, which is not among
the sources, with its Bitcoin script value. -/
def OP_ENDIF : Byte := 0x68

/-- Modelled from the spec: the opcode macro `OP_DROP` of `ucoin.h`, which is not among the
sources, with its Bitcoin script value. -/
def OP_DROP : Byte := 0x75

/-- Modelled from the spec: the opcode macro `OP_DUP` of `ucoin.h`, which is not among the
sources, with its Bitcoin script value. -/
def OP_DUP : Byte := 0x76

/-- Modelled from the spec: the opcode macro `OP_SWAP` of `ucoin.h`, which is not among the
sources, with its Bitcoin script value. -/
def OP_SWAP : Byte := 0x7c

/-- Modelled from the spec: the opcode macro `OP_SIZE` of `ucoin.h`, which is not among the
sources, with its Bitcoin script value. -/
def OP_SIZE : Byte := 0x82

/-- Modelled from the spec: the opcode macro `OP_EQUAL` of `ucoin.h`, which is not among
the sources, with its Bitcoin script value. -/
def OP_EQUAL : Byte := 0x87

/-- Modelled from the spec: the opcode macro `OP_EQUALVERIFY` of `ucoin.h`, which is not
among the sources, with its Bitcoin script value. -/
def OP_EQUALVERIFY : Byte := 0x88

/-- Modelled from the spec: the opcode macro `OP_HASH160` of `ucoin.h`, which is not among
the sources, with its Bitcoin script value. -/
def OP_HASH160 : Byte := 0xa9

/-- Modelled from the spec: the opcode macro `OP_CHECKSIG` of `ucoin.h`, which is not among
the sources, with its Bitcoin script value. -/
def OP_CHECKSIG : Byte := 0xac

/-- Modelled from the spec: the opcode macro `OP_CHECKMULTISIG` of `ucoin.h`, which is not
among the sources, with its Bitcoin script value. -/
def OP_CHECKMULTISIG : Byte := 0xae

/-- Modelled from the spec: the opcode macro `OP_CLTV` (`OP_CHECKLOCKTIMEVERIFY`) of
`ucoin.h`, which is not among the sources, with its Bitcoin script value. -/
def OP_CLTV : Byte := 0xb1

/-- Modelled from the spec: the opcode macro `OP_CSV` (`OP_CHECKSEQUENCEVERIFY`) of
`ucoin.h`, which is not among the sources, with its Bitcoin script value. -/
def OP_CSV : Byte := 0xb2

/-- Modelled from the spec: the macro `UCOIN_OP_SZ1` of `ucoin.h`, which is not among the
sources; the push of one byte. -/
def OP_SZ1 : Byte := 0x01

/-- Modelled from the spec: the macro `UCOIN_OP_SZ20` of `ucoin.h`, which is not among the
sources; the push of 20 bytes. -/
def OP_SZ20 : Byte := 0x14

/-- Modelled from the spec: the macro `UCOIN_OP_SZ32` of `ucoin.h`, which is not among the
sources; the push of 32 bytes, and as data the number 32. -/
def OP_SZ32 : Byte := 0x20

/-- Modelled from the spec: the macro `UCOIN_OP_SZ_PUBKEY` of `ucoin.h`, which is not among
the sources; the push of a 33-byte public key. -/
def OP_SZ_PUBKEY : Byte := 0x21

/-- Modelled from the spec: the constant `UCOIN_SZ_HASH160` of `ucoin.h`, which is not
among the sources; a HASH160 or RIPEMD160 digest has 20 bytes. -/
def UCOIN_SZ_HASH160 : Nat := 20

/-- Modelled from the spec: the constant `UCOIN_SZ_HASH256` of `ucoin.h`, which is not
among the sources; a SHA-256 digest has 32 bytes. -/
def UCOIN_SZ_HASH256 : Nat := 32

/-- Modelled from the spec: the constant `UCOIN_SZ_SHA256` of `ucoin.h`, which is not among
the sources; a payment hash is a 32-byte SHA-256 digest. -/
def UCOIN_SZ_SHA256 : Nat := 32

/-- Modelled from the spec: the constant `LN_SZ_PREIMAGE` of `ln.h`, which is not among the
sources; a payment preimage has 32 bytes. -/
def LN_SZ_PREIMAGE : Nat := 32

/-- Modelled from the spec: `ucoin_push_data` of `ucoin_push.c`, which is not among the
sources; push-serialization appends the first `Len` bytes of the data to the script under
construction. The state of a `ucoin_push_t` is the bytes written so far;
`ucoin_push_init` starts it empty and `ucoin_push_trim` leaves exactly these bytes in the
buffer. -/
def ucoin_push_data (wscript : Bytes) (pData : Bytes) (Len : Nat) : Bytes :=
  wscript ++ pData.take Len

/-- Modelled from the spec: `ucoin_push_value` of `ucoin_push.c`, which is not among the
sources; it appends the script push of a number. -/
def ucoin_push_value (E : Env) (wscript : Bytes) (Value : Nat) : Bytes :=
  wscript ++ E.push_value Value

/-! ## The witness scripts -/

/-- The function `ln_create_script_local`: the to-local witness script written to
`pBuf`. -/
def ln_create_script_local (E : Env) (pLocalRevoKey pLocalDelayedKey : Bytes)
    (LocalDelay : Nat) : Bytes :=
  let w0 : Bytes := []
  let w1 := ucoin_push_data w0 [OP_IF, OP_SZ_PUBKEY] 2
  let w2 := ucoin_push_data w1 pLocalRevoKey UCOIN_SZ_PUBKEY
  let w3 := ucoin_push_data w2 [OP_ELSE] 1
  let w4 := ucoin_push_value E w3 LocalDelay
  let w5 := ucoin_push_data w4 [OP_CSV, OP_DROP, OP_SZ_PUBKEY] 3
  let w6 := ucoin_push_data w5 pLocalDelayedKey UCOIN_SZ_PUBKEY
  ucoin_push_data w6 [OP_ENDIF, OP_CHECKSIG] 2

/-- The function `create_script_offered`: the offered-HTLC witness script written to
`pBuf`. -/
def create_script_offered (E : Env)
    (pLocalKey pLocalRevoKey pLocalPreImageHash160 pRemoteKey : Bytes) : Bytes :=
  let w0 : Bytes := []
  let w1 := ucoin_push_data w0 [OP_DUP, OP_HASH160, OP_SZ20] 3
  let h160 := E.hash160 (pLocalRevoKey.take UCOIN_SZ_PUBKEY)
  let w2 := ucoin_push_data w1 h160 UCOIN_SZ_HASH160
  let w3 := ucoin_push_data w2 [OP_EQUAL, OP_IF, OP_CHECKSIG, OP_ELSE, OP_SZ_PUBKEY] 5
  let w4 := ucoin_push_data w3 pRemoteKey UCOIN_SZ_PUBKEY
  let w5 := ucoin_push_data w4
    [OP_SWAP, OP_SIZE, OP_SZ1, OP_SZ32, OP_EQUAL, OP_NOTIF, OP_DROP, OP_2, OP_SWAP,
      OP_SZ_PUBKEY] 10
  let w6 := ucoin_push_data w5 pLocalKey UCOIN_SZ_PUBKEY
  let w7 := ucoin_push_data w6 [OP_2, OP_CHECKMULTISIG, OP_ELSE, OP_HASH160, OP_SZ20] 5
  let w8 := ucoin_push_data w7 pLocalPreImageHash160 UCOIN_SZ_HASH160
  ucoin_push_data w8 [OP_EQUALVERIFY, OP_CHECKSIG, OP_ENDIF, OP_ENDIF] 4

/-- The function `create_script_received`: the received-HTLC witness script written to
`pBuf`. -/
def create_script_received (E : Env)
    (pLocalKey pLocalRevoKey pRemoteKey pRemotePreImageHash160 : Bytes)
    (RemoteExpiry : Nat) : Bytes :=
  let w0 : Bytes := []
  let w1 := ucoin_push_data w0 [OP_DUP, OP_HASH160, OP_SZ20] 3
  let h160 := E.hash160 (pLocalRevoKey.take UCOIN_SZ_PUBKEY)
  let w2 := ucoin_push_data w1 h160 UCOIN_SZ_HASH160
  let w3 := ucoin_push_data w2 [OP_EQUAL, OP_IF, OP_CHECKSIG, OP_ELSE, OP_SZ_PUBKEY] 5
  let w4 := ucoin_push_data w3 pRemoteKey UCOIN_SZ_PUBKEY
  let w5 := ucoin_push_data w4
    [OP_SWAP, OP_SIZE, OP_SZ1, OP_SZ32, OP_EQUAL, OP_IF, OP_HASH160, OP_SZ20] 8
  let w6 := ucoin_push_data w5 pRemotePreImageHash160 UCOIN_SZ_HASH160
  let w7 := ucoin_push_data w6 [OP_EQUALVERIFY, OP_2, OP_SWAP, OP_SZ_PUBKEY] 4
  let w8 := ucoin_push_data w7 pLocalKey UCOIN_SZ_PUBKEY
  let w9 := ucoin_push_data w8 [OP_2, OP_CHECKMULTISIG, OP_ELSE, OP_DROP] 4
  let w10 := ucoin_push_value E w9 RemoteExpiry
  ucoin_push_data w10 [OP_CLTV, OP_DROP, OP_CHECKSIG, OP_ENDIF, OP_ENDIF] 5

/-- The body of the loop of `ln_create_htlcinfo` for one HTLC: the 20-byte image is
RIPEMD160 of the first `UCOIN_SZ_SHA256` bytes of the payment hash, and the script is set
by the direction; an HTLC without direction keeps its script. -/
def ln_create_htlcinfo_one (E : Env) (pLocalKey pLocalRevoKey pRemoteKey : Bytes)
    (h : ln_htlcinfo_t) : ln_htlcinfo_t :=
  let hash160 := E.ripemd160 (h.preimage_hash.take UCOIN_SZ_SHA256)
  match h.type with
  | LN_HTLCTYPE_OFFERED =>
    { h with script := create_script_offered E pLocalKey pLocalRevoKey hash160 pRemoteKey }
  | LN_HTLCTYPE_RECEIVED =>
    { h with script :=
        create_script_received E pLocalKey pLocalRevoKey pRemoteKey hash160 h.expiry }
  | LN_HTLCTYPE_NONE => h

/-- The function `ln_create_htlcinfo`: the loop over the `Num` HTLCs. -/
def ln_create_htlcinfo (E : Env) (ppHtlcInfo : List ln_htlcinfo_t)
    (pLocalKey pLocalRevoKey pRemoteKey : Bytes) : List ln_htlcinfo_t :=
  ppHtlcInfo.map (ln_create_htlcinfo_one E pLocalKey pLocalRevoKey pRemoteKey)

/-- The function `ln_check_scriptpkh`: `p[i]` is byte `i` of the buffer. -/
def ln_check_scriptpkh (pBuf : Bytes) : Bool :=
  let p := fun i => pBuf.getD i 0
  match pBuf.length with
  | 25 => p 0 == OP_DUP && p 1 == OP_HASH160 && p 2 == Fin.ofNat UCOIN_SZ_HASH160
            && p 23 == OP_EQUALVERIFY && p 24 == OP_CHECKSIG
  | 23 => p 0 == OP_HASH160 && p 1 == Fin.ofNat UCOIN_SZ_HASH160 && p 22 == OP_EQUAL
  | 22 => p 0 == OP_0 && p 1 == Fin.ofNat UCOIN_SZ_HASH160
  | 34 => p 0 == OP_0 && p 1 == Fin.ofNat UCOIN_SZ_HASH256
  | _ => false

/-! ## The second-stage transactions -/

/-- Modelled from the spec: `ucoin_tx_add_vout` of `ucoin_tx.c`, which is not among the
sources; it appends one output of the given value, with no script yet. -/
def ucoin_tx_add_vout (tx : ucoin_tx_t) (value : Nat) : ucoin_tx_t :=
  { tx with vout := tx.vout ++ [{ value := value, script := [], opt := 0 }] }

/-- The assignment of a script to output `i` (`ucoin_buf_alloccopy(&vout->script, ...)`). -/
def vout_set_script (tx : ucoin_tx_t) (i : Nat) (script : Bytes) : ucoin_tx_t :=
  { tx with vout := tx.vout.modify (fun o => { o with script := script }) i }

/-- The tag of output 0 (`pTx->vout[0].opt`). -/
def vout0_opt (tx : ucoin_tx_t) : Nat :=
  match tx.vout with
  | o :: _ => o.opt
  | [] => 0

/-- Modelled from the spec: `ucoin_sw_set_vin_p2wsh` of `ucoin_sw.c`, which is not among
the sources; witness assembly sets the witness stack of input `Index` to the given items,
in their order. There is no result when the transaction has no such input. -/
def ucoin_sw_set_vin_p2wsh (tx : ucoin_tx_t) (Index : Nat) (pWits : List Bytes) :
    Option ucoin_tx_t :=
  if Index < tx.vin.length then
    some { tx with vin := tx.vin.modify (fun v => { v with witness := pWits }) Index }
  else none

/-- Modelled from the spec: `ucoin_util_sign_p2wsh_2` of `ucoin_util.c`, which is not among
the sources, as a writer of the signature buffer `pSig`: it returns whether signing
succeeded and the buffer after the call, which holds the signature when signing succeeded
and is taken to be left as it was otherwise. -/
def ucoin_util_sign_p2wsh_2 (E : Env) (pSig : Bytes) (sighash : Bytes)
    (pKeys : ucoin_util_keys_t) : Bool × Bytes :=
  match E.sign_p2wsh_2 sighash pKeys with
  | some sig => (true, sig)
  | none => (false, pSig)

/-- The function `ln_create_tolocal_tx`: one output of the given value and scriptPubKey,
one input, and `pTx->vin[0].sequence = LockTime`. -/
def ln_create_tolocal_tx (pTx : ucoin_tx_t) (Value : Nat) (pScriptPk : Bytes) (LockTime : Nat)
    (pTxid : Bytes) (Index : Nat) : Bool × ucoin_tx_t :=
  let tx1 := ucoin_tx_add_vout pTx Value
  let tx2 := vout_set_script tx1 (tx1.vout.length - 1) pScriptPk
  let tx3 := ucoin_tx_add_vin tx2 pTxid Index
  (true, vin_set_sequence tx3 0 LockTime)

/-- The function `ln_sign_tolocal_tx`: the result is the returned flag, the transaction and
the signature buffer `pDelayedSig`. -/
def ln_sign_tolocal_tx (E : Env) (pTx : ucoin_tx_t) (pDelayedSig : Bytes) (Value : Nat)
    (pKeys : ucoin_util_keys_t) (pWitScript : Bytes) : Bool × ucoin_tx_t × Bytes :=
  if pTx.vin.length ≠ 1 ∨ pTx.vout.length ≠ 1 then (false, pTx, pDelayedSig)
  else
    let sighash := E.sign_p2wsh_1 pTx 0 Value pWitScript
    let r := ucoin_util_sign_p2wsh_2 E pDelayedSig sighash pKeys
    if r.1 then
      match ucoin_sw_set_vin_p2wsh pTx 0 [r.2, [], pWitScript] with
      | some tx1 => (true, tx1, r.2)
      | none => (false, pTx, r.2)
    else (false, pTx, r.2)

/-- The function `ln_create_htlc_tx`: `Type_` is the `uint8_t` argument `Type`. There is no result
when the `assert(0)` of the `default` branch is reached. The helper that adds the output
always succeeds here, so the early exit on its failure is not taken. -/
def ln_create_htlc_tx (E : Env) (pTx : ucoin_tx_t) (Value : Nat) (pScript : Bytes)
    (pTxid : Bytes) (Type_ : Nat) (CltvExpiry : Nat) (Index : Nat) :
    Option (Bool × ucoin_tx_t) :=
  let tx1 := ucoin_sw_add_vout_p2wsh E pTx Value pScript
  let tx2 := vout_set_opt tx1 0 Type_
  if vout0_opt tx2 = E.htlctype LN_HTLCTYPE_RECEIVED then
    let tx3 : ucoin_tx_t := { tx2 with locktime := 0 }
    some (true, vin_set_sequence (ucoin_tx_add_vin tx3 pTxid Index) 0 0)
  else if vout0_opt tx2 = E.htlctype LN_HTLCTYPE_OFFERED then
    let tx3 : ucoin_tx_t := { tx2 with locktime := CltvExpiry }
    some (true, vin_set_sequence (ucoin_tx_add_vin tx3 pTxid Index) 0 0)
  else none

/-- The sign type of `ln_sign_htlc_tx` (the argument `int Type`, here `Type_`): the three macros `HTLCSIGN_*`, and
any other number. -/
inductive htlcsign_t where
  | HTLCSIGN_TIMEOUT
  | HTLCSIGN_SUCCESS
  | HTLCSIGN_OF_PREIMG
  | HTLCSIGN_OTHER
  deriving DecidableEq, Repr

open htlcsign_t

/-- The preimage item of the witness and the lock time reset of `ln_sign_htlc_tx`: with a
preimage, the item is its first `LN_SZ_PREIMAGE` bytes and the lock time becomes 0 when
output 0 is tagged offered; without one, the item is empty. -/
def ln_sign_htlc_tx_preimage (E : Env) (pTx : ucoin_tx_t) (pPreImage : Option Bytes) :
    Bytes × ucoin_tx_t :=
  match pPreImage with
  | some p =>
    (p.take LN_SZ_PREIMAGE,
      if vout0_opt pTx = E.htlctype LN_HTLCTYPE_OFFERED then { pTx with locktime := 0 }
      else pTx)
  | none => ([], pTx)

/-- The function `ln_sign_htlc_tx`: the result is the returned flag, the transaction and
the signature buffer `pLocalSig`; a missing preimage is `none`. There is no result when an
`assert(0)` is reached. -/
def ln_sign_htlc_tx (E : Env) (pTx : ucoin_tx_t) (pLocalSig : Bytes) (Value : Nat)
    (pKeys : ucoin_util_keys_t) (pRemoteSig : Bytes) (pPreImage : Option Bytes)
    (pWitScript : Bytes) (Type_ : htlcsign_t) : Option (Bool × ucoin_tx_t × Bytes) :=
  if pTx.vin.length ≠ 1 ∨ pTx.vout.length ≠ 1 then some (false, pTx, pLocalSig)
  else
    match Type_ with
    | HTLCSIGN_TIMEOUT | HTLCSIGN_SUCCESS =>
      let sighash := E.sign_p2wsh_1 pTx 0 Value pWitScript
      let r := ucoin_util_sign_p2wsh_2 E pLocalSig sighash pKeys
      let pre := ln_sign_htlc_tx_preimage E pTx pPreImage
      match ucoin_sw_set_vin_p2wsh pre.2 0 [[], pRemoteSig, r.2, pre.1, pWitScript] with
      | some tx1 => some (true, tx1, r.2)
      | none => some (false, pre.2, r.2)
    | HTLCSIGN_OF_PREIMG =>
      match pPreImage with
      | none => none
      | some _ =>
        let pre := ln_sign_htlc_tx_preimage E pTx pPreImage
        let sighash := E.sign_p2wsh_1 pre.2 0 Value pWitScript
        let r := ucoin_util_sign_p2wsh_2 E pLocalSig sighash pKeys
        match ucoin_sw_set_vin_p2wsh pre.2 0 [r.2, pre.1, pWitScript] with
        | some tx1 => some (true, tx1, r.2)
        | none => some (false, pre.2, r.2)
    | HTLCSIGN_OTHER => none

/-- Modelled from the spec: `ucoin_tx_verify` of `ucoin_tx.c`, which is not among the
sources; it checks a signature against the expected public key over a signature hash. It
reads both buffers, so there is no result when the signature or the public key is a null
pointer. -/
def ucoin_tx_verify (E : Env) (pSig : Option Bytes) (pTxHash : Bytes)
    (pPubKey : Option Bytes) : Option Bool :=
  match pSig, pPubKey with
  | some sig, some pubkey => some (E.tx_verify sig pTxHash pubkey)
  | _, _ => none

/-- The function `ln_verify_htlc_tx`: a pointer argument that may be null is an `Option`.
The local pair is verified under the guard `pLocalPubKey && pLocalSig`; the remote pair is
verified whenever the result so far is `true`. -/
def ln_verify_htlc_tx (E : Env) (pTx : ucoin_tx_t) (Value : Nat)
    (pLocalPubKey pRemotePubKey pLocalSig pRemoteSig : Option Bytes) (pWitScript : Bytes) :
    Option Bool :=
  if pLocalPubKey.isNone ∧ pLocalSig.isNone ∧ pRemotePubKey.isNone ∧ pRemoteSig.isNone then
    some false
  else if pTx.vin.length ≠ 1 ∨ pTx.vout.length ≠ 1 then some false
  else
    let sighash := E.sign_p2wsh_1 pTx 0 Value pWitScript
    let ret : Option Bool :=
      if pLocalPubKey.isSome ∧ pLocalSig.isSome then ucoin_tx_verify E pLocalSig sighash pLocalPubKey
      else some true
    match ret with
    | some true => ucoin_tx_verify E pRemoteSig sighash pRemotePubKey
    | other => other

/-! ## The words of the specification -/

/-- An HTLC is trimmed by the fee calculator when it is offered and its amount in satoshi
is below `d + htlc_timeout`, or received and below `d + htlc_success`. -/
def trimmed (d htlc_timeout htlc_success : Nat) (h : ln_htlcinfo_t) : Bool :=
  match h.type with
  | LN_HTLCTYPE_OFFERED => decide (LN_MSAT2SATOSHI h.amount_msat < d + htlc_timeout)
  | LN_HTLCTYPE_RECEIVED => decide (LN_MSAT2SATOSHI h.amount_msat < d + htlc_success)
  | LN_HTLCTYPE_NONE => false

/-- An HTLC survives when it is offered and its amount in satoshi is at least
`d + htlc_timeout`, or received and at least `d + htlc_success`. -/
def survives (d htlc_timeout htlc_success : Nat) (h : ln_htlcinfo_t) : Bool :=
  match h.type with
  | LN_HTLCTYPE_OFFERED => decide (d + htlc_timeout ≤ LN_MSAT2SATOSHI h.amount_msat)
  | LN_HTLCTYPE_RECEIVED => decide (d + htlc_success ≤ LN_MSAT2SATOSHI h.amount_msat)
  | LN_HTLCTYPE_NONE => false

/-- The number of surviving HTLCs of a list. -/
def surviving_htlcs (d htlc_timeout htlc_success : Nat) (hs : List ln_htlcinfo_t) : Nat :=
  (hs.filter (survives d htlc_timeout htlc_success)).length

/-- The sum of `amount_sat` over the trimmed HTLCs of a list. -/
def trimmed_dust_sum (d htlc_timeout htlc_success : Nat) (hs : List ln_htlcinfo_t) : Nat :=
  ((hs.filter (trimmed d htlc_timeout htlc_success)).map
    (fun h => LN_MSAT2SATOSHI h.amount_msat)).sum

/-- A P2WPKH output of the given value, public key and tag. -/
def p2wpkh_vout (E : Env) (value : Nat) (pubkey : Bytes) (tag : Nat) : ucoin_vout_t :=
  { value := value, script := 0x00 :: 0x14 :: E.hash160 pubkey, opt := tag }

/-- A P2WSH output of the given value, witness script and tag. -/
def p2wsh_vout (E : Env) (value : Nat) (wscript : Bytes) (tag : Nat) : ucoin_vout_t :=
  { value := value, script := 0x00 :: 0x20 :: E.sha256 wscript, opt := tag }

/-- The to-remote output of the construction order: present when the remote balance is at
least the dust limit plus the remote fee share, with the fee share deducted. -/
def to_remote_outputs (E : Env) (pCmt : ln_tx_cmt_t) (Local : Bool) : List ucoin_vout_t :=
  if pCmt.p_feeinfo.dust_limit_satoshi + fee_remote pCmt Local ≤ pCmt.remote.satoshi then
    [p2wpkh_vout E (pCmt.remote.satoshi - fee_remote pCmt Local) pCmt.remote.pubkey
      E.VOUT_OPT_TOREMOTE]
  else []

/-- The to-local output of the construction order: present when the local balance is at
least the dust limit plus the local fee share, with the fee share deducted. -/
def to_local_outputs (E : Env) (pCmt : ln_tx_cmt_t) (Local : Bool) : List ucoin_vout_t :=
  if pCmt.p_feeinfo.dust_limit_satoshi + fee_local pCmt Local ≤ pCmt.local_.satoshi then
    [p2wsh_vout E (pCmt.local_.satoshi - fee_local pCmt Local) pCmt.local_.p_script
      E.VOUT_OPT_TOLOCAL]
  else []

/-- The HTLC outputs of the construction order: in list order, one P2WSH output of value
`amount_sat` with the HTLC's witness script for each surviving HTLC, tagged with the low
byte of its list position. -/
def htlc_outputs (E : Env) (d htlc_timeout htlc_success : Nat) (hs : List ln_htlcinfo_t) :
    List ucoin_vout_t :=
  (hs.enum.filter (fun p => survives d htlc_timeout htlc_success p.2)).map
    (fun p => p2wsh_vout E (LN_MSAT2SATOSHI p.2.amount_msat) p.2.script (p.1 % 256))

/-- The outputs the HTLC loop of `ln_create_commit_tx` adds when entered at index `lp`,
with the threshold test as the code computes it. -/
def htlc_outputs_from (E : Env) (fi : ln_feeinfo_t) (hs : List ln_htlcinfo_t) (lp : Nat) :
    List ucoin_vout_t :=
  ((hs.enumFrom lp).filter (fun p => decide (LN_MSAT2SATOSHI p.2.amount_msat
      ≥ u64 (fi.dust_limit_satoshi + ln_create_commit_tx_htlc_fee fi p.2)))).map
    (fun p => p2wsh_vout E (LN_MSAT2SATOSHI p.2.amount_msat) p.2.script (p.1 % 256))

/-- A commit context in the range of `uint64_t`: both balances are `uint64_t` values and
the sum of the dust limit and the commit fee does not exceed `2 ^ 64 - 1`. -/
def cmt_in_range (pCmt : ln_tx_cmt_t) : Prop :=
  pCmt.remote.satoshi < 2 ^ 64 ∧ pCmt.local_.satoshi < 2 ^ 64
  ∧ pCmt.p_feeinfo.dust_limit_satoshi + pCmt.p_feeinfo.commit < 2 ^ 64

/-- A fee info whose HTLC thresholds are in the range of `uint64_t`: neither the sum of the
dust limit and the HTLC-timeout fee nor the sum with the HTLC-success fee exceeds
`2 ^ 64 - 1`. -/
def htlc_fees_in_range (fi : ln_feeinfo_t) : Prop :=
  fi.dust_limit_satoshi + fi.htlc_timeout < 2 ^ 64
  ∧ fi.dust_limit_satoshi + fi.htlc_success < 2 ^ 64

/-- Every HTLC of the list has a direction, offered or received. -/
def htlcs_directed (hs : List ln_htlcinfo_t) : Prop :=
  ∀ h ∈ hs, h.type = LN_HTLCTYPE_OFFERED ∨ h.type = LN_HTLCTYPE_RECEIVED

instance (pCmt : ln_tx_cmt_t) : Decidable (cmt_in_range pCmt) := by
  unfold cmt_in_range; infer_instance

instance (fi : ln_feeinfo_t) : Decidable (htlc_fees_in_range fi) := by
  unfold htlc_fees_in_range; infer_instance

instance (hs : List ln_htlcinfo_t) : Decidable (htlcs_directed hs) := by
  unfold htlcs_directed; infer_instance

/-- Modelled from the spec: the decoder of the obscured commitment number, which is not
among the sources; decoding is the inverse of the encoding: the lower 24 bits of the
sequence are the upper half, the lower 24 bits of the lock time the lower half, and the
48-bit number is XORed with `obs`. -/
def obscured_decode (sequence locktime obs : Nat) : Nat :=
  (((sequence &&& 0xffffff) <<< 24) ||| (locktime &&& 0xffffff)) ^^^ obs

/-- The big-endian integer formed by a byte string. -/
def be_value (bs : Bytes) : Nat := bs.foldl (fun acc b => acc * 256 + b.val) 0

/-! ## A concrete environment -/

/-- An environment to evaluate the definitions in: the base weight 724 of a commitment
transaction without HTLCs, two role tags, and stand-ins for the hash and signature
primitives that keep the lengths of the real ones. Signing prefixes the signature hash with
the private key and fails for an empty key; a signature verifies against the public key
equal to that prefix. -/
def env0 : Env where
  LN_FEE_COMMIT_BASE := 724
  VOUT_OPT_TOLOCAL := 0xfe
  VOUT_OPT_TOREMOTE := 0xff
  sha256 := fun msg => (msg ++ List.replicate 32 0).take 32
  sha256_length := by intro msg; simp
  hash160 := fun msg => (((msg ++ List.replicate 32 0).take 32) ++ List.replicate 20 0).take 20
  sign_p2wsh_1 := fun _ _ _ wscript => (wscript ++ List.replicate 32 0).take 32
  sign_p2wsh_2 := fun sighash keys => if keys.priv = [] then none else some (keys.priv ++ sighash)
  ripemd160 := fun msg => (msg ++ List.replicate 20 0).take 20
  ripemd160_length := by intro msg; simp
  hash160_eq := by intro msg; rfl
  push_value := fun n => if n = 0 then [0x00] else [0x04, Fin.ofNat n, Fin.ofNat (n / 256),
    Fin.ofNat (n / 65536), Fin.ofNat (n / 16777216)]
  htlctype := fun t => match t with
    | LN_HTLCTYPE_NONE => 0
    | LN_HTLCTYPE_OFFERED => 1
    | LN_HTLCTYPE_RECEIVED => 2
  htlctype_inj := by intro a b h; cases a <;> cases b <;> simp_all
  tx_verify := fun sig hash pubkey => sig == pubkey ++ hash

/-- An offered HTLC of the given amount, with no script. -/
def offered_htlc (amount_msat : Nat) : ln_htlcinfo_t :=
  { type := LN_HTLCTYPE_OFFERED, expiry := 0, amount_msat := amount_msat,
    preimage_hash := [], script := [] }

/-- A received HTLC of the given amount, with no script. -/
def received_htlc (amount_msat : Nat) : ln_htlcinfo_t :=
  { type := LN_HTLCTYPE_RECEIVED, expiry := 0, amount_msat := amount_msat,
    preimage_hash := [], script := [] }

/-- A fee info before `ln_fee_calc`: only the feerate and the dust limit are set. -/
def feeinfo_in (feerate_per_kw dust_limit_satoshi : Nat) : ln_feeinfo_t :=
  { feerate_per_kw := feerate_per_kw, dust_limit_satoshi := dust_limit_satoshi,
    htlc_success := 0, htlc_timeout := 0, commit := 0 }

/-- The predicate that `ln_fee_calc` trims the HTLC `h` at feerate `f` and dust limit `d`: run on `h`, its
loop adds no weight to the commit fee and absorbs `amount_sat` into the dust. -/
def fee_calc_trims (E : Env) (f d : Nat) (h : ln_htlcinfo_t) : Prop :=
  ln_fee_calc_loop (ln_fee_calc E (feeinfo_in f d) [h]).1 [h] (u64 E.LN_FEE_COMMIT_BASE, 0)
    = (u64 E.LN_FEE_COMMIT_BASE, u64 (0 + LN_MSAT2SATOSHI h.amount_msat))

/-- The predicate that `ln_create_commit_tx` gives the HTLC `h` no output at feerate `f` and dust limit `d`:
with the fee info `ln_fee_calc` fills, its HTLC loop run on `h` adds nothing. -/
def commit_tx_trims (E : Env) (f d : Nat) (h : ln_htlcinfo_t) : Prop :=
  (ln_create_commit_tx_htlcs E (ln_fee_calc E (feeinfo_in f d) [h]).1 [h] 0
    ucoin_tx_empty).vout = []

instance (E : Env) (f d : Nat) (h : ln_htlcinfo_t) : Decidable (fee_calc_trims E f d h) := by
  unfold fee_calc_trims; infer_instance

instance (E : Env) (f d : Nat) (h : ln_htlcinfo_t) : Decidable (commit_tx_trims E f d h) := by
  unfold commit_tx_trims; infer_instance

/-- A 33-byte key made of one repeated byte, for the examples. -/
def key33 (b : Byte) : Bytes := List.replicate 33 b

/-- An offered HTLC of 1000 satoshi with a 32-byte payment hash. -/
def offered_htlc_hashed : ln_htlcinfo_t :=
  { type := LN_HTLCTYPE_OFFERED, expiry := 500000, amount_msat := 1000000,
    preimage_hash := List.replicate 32 0xaa, script := [] }

/-- A received HTLC of 2000 satoshi with a 32-byte payment hash and expiry 500000. -/
def received_htlc_hashed : ln_htlcinfo_t :=
  { type := LN_HTLCTYPE_RECEIVED, expiry := 500000, amount_msat := 2000000,
    preimage_hash := List.replicate 32 0xbb, script := [] }

/-- An HTLC-success transaction as `ln_create_htlc_tx` builds it in the stand-in
environment: one input, one output of 800 satoshi, lock time 0. -/
def htlc_success_tx : ucoin_tx_t :=
  { vin := [{ txid := List.replicate 32 0x11, index := 0, sequence := 0, witness := [] }]
    vout := [{ value := 800, script := 0x00 :: 0x20 :: List.replicate 32 0x63, opt := 2 }]
    locktime := 0 }

/-- Signing keys of the examples; the stand-in signature of a hash is the private key
followed by the hash and verifies against the equal public key. -/
def keys0 : ucoin_util_keys_t := { priv := [0x01], pub := [0x01] }

/-- Keys with which the stand-in signing fails. -/
def keys_bad : ucoin_util_keys_t := { priv := [], pub := [] }

/-- The tags the outputs of a commitment transaction can get at creation: the to-remote
tag, the to-local tag, and the low byte of each list position. -/
def creation_tags (E : Env) (n : Nat) : List Nat :=
  E.VOUT_OPT_TOREMOTE :: E.VOUT_OPT_TOLOCAL :: (List.range n).map (fun i => i % 256)

/-- A funding outpoint with its 2-of-2 script and keys, for the example contexts. -/
def fund0 : ln_tx_cmt_fund_t :=
  { txid := List.replicate 32 0x11, txid_index := 0, satoshi := 1000000,
    p_script := [0x52, 0x52, 0xae], p_keys := { priv := [0x01], pub := [0x02] } }

/-- Scenario S3 of the specification: dust limit 546, feerate 253, a single offered HTLC of
1000 satoshi, both balances far above dust; the fee info is filled by `ln_fee_calc`. -/
def cmt_s3 : ln_tx_cmt_t :=
  { fund := fund0
    local_ := { satoshi := 500000, p_script := [0x63, 0x68, 0xac] }
    remote := { satoshi := 300000, pubkey := [0x02, 0x79, 0xbe] }
    obscured := 42
    p_feeinfo := (ln_fee_calc env0 (feeinfo_in 253 546) [offered_htlc 1000000]).1
    pp_htlcinfo := [offered_htlc 1000000] }

/-- A local view with 257 offered HTLCs of 1000 satoshi each at dust limit 546 and feerate
253, each above the threshold `546 + 167`. -/
def cmt_257 : ln_tx_cmt_t :=
  { fund := fund0
    local_ := { satoshi := 500000, p_script := [0x63, 0x68, 0xac] }
    remote := { satoshi := 300000, pubkey := [0x02, 0x79, 0xbe] }
    obscured := 42
    p_feeinfo := { feerate_per_kw := 253, dust_limit_satoshi := 546, htlc_success := 177,
                   htlc_timeout := 167, commit := 11366 }
    pp_htlcinfo := List.replicate 257 (offered_htlc 1000000) }

/-- Modelled from the spec: a JSON value as the library cJSON holds it, which is not among
the sources. The constructor is the field `type`; a number carries the two fields the
handlers read, `valueint` and `valueu64`; an array or object carries its children. -/
inductive cJSON where
  | cJSON_NULL
  | cJSON_Number (valueint : Int) (valueu64 : Nat)
  | cJSON_String (valuestring : String)
  | cJSON_Array (child : List cJSON)
  | cJSON_Object (child : List (String × cJSON))

open cJSON

/-- Modelled from the spec: `cJSON_GetArrayItem` of the library cJSON: the child at the
given position, a null pointer (`none`) when there is no such child or no array. -/
def cJSON_GetArrayItem (array : Option cJSON) (item : Nat) : Option cJSON :=
  match array with
  | some (cJSON_Array child) => child[item]?
  | some (cJSON_Object child) => child[item]?.map Prod.snd
  | _ => none

/-- The size of a payment hash (`LN_SZ_HASH`). -/
def LN_SZ_HASH : Nat := 32

/-- The connect parameters `daemon_connect_t`. -/
structure daemon_connect_t where
  node_id : Bytes
  ipaddr : String
  port : Int

/-- The handle of a connected peer, `lnapp_conf_t`: the node id and the last error `err`
that `cmd_getlasterror` reads; what else the handlers ask of a peer is an answer of the
world. -/
structure lnapp_conf_t where
  node_id : Bytes
  err : Int
  deriving DecidableEq

/-- The funding parameters `funding_conf_t`; `feerate_per_kw` is not written when the
request does not carry it. -/
structure funding_conf_t where
  txid : Bytes
  txindex : Int
  signaddr : String
  funding_sat : Nat
  push_sat : Nat
  feerate_per_kw : Option Nat

/-- One entry of a hop table, `ln_hop_datain_t`. -/
structure ln_hop_datain_t where
  short_channel_id : Nat
  amt_to_forward : Nat
  outgoing_cltv_value : Nat
  pubkey : Bytes

/-- The payment parameters `payment_conf_t`: `hop_datain` lists the entries of the table
of `1 + LN_HOP_MAX` entries that were written, from entry 0 on. The width of `hop_num` is
declared in a header that is not among the sources; the value is kept as it is read. -/
structure payment_conf_t where
  payment_hash : Bytes
  hop_num : Int
  hop_datain : List ln_hop_datain_t

/-- One routing hint, `ln_fieldr_t`. -/
structure ln_fieldr_t where
  node_id : Bytes
  short_channel_id : Nat
  fee_base_msat : Nat
  fee_prop_millionths : Nat
  cltv_expiry_delta : Nat
  deriving DecidableEq

/-- The outcome of the routing oracle, `lnerr_route_t`; `LNROUTE_OTHER` stands for every
value the `switch` of `cmd_routepay` sends to `default`. -/
inductive lnerr_route_t where
  | LNROUTE_NONE
  | LNROUTE_NOTFOUND
  | LNROUTE_TOOMANYHOP
  | LNROUTE_OTHER
  deriving DecidableEq

open lnerr_route_t

/-- The route `ln_routing_result_t`: the hop count and the hop table, a fixed array whose
cell at every index the handlers read holds some content. -/
structure ln_routing_result_t where
  hop_num : Nat
  hop_datain : Nat → ln_hop_datain_t

/-- The chain the node runs on, `ucoin_genesis_t`. -/
inductive ucoin_genesis_t where
  | UCOIN_GENESIS_UNKNOWN
  | UCOIN_GENESIS_BTCMAIN
  | UCOIN_GENESIS_BTCTEST
  | UCOIN_GENESIS_BTCREGTEST
  deriving DecidableEq

open ucoin_genesis_t

/-- The world around the RPC handlers: the constants of the headers that are not among the
sources and, for each collaborator outside `cmd_json.c`, the answer it gives during one
request. A function that converts into a buffer answers with its flag and the buffer
after the call. -/
structure World where
  RPCERR_ERROR : Int
  RPCERR_NOCONN : Int
  RPCERR_ALCONN : Int
  RPCERR_NOCHANN : Int
  RPCERR_PARSE : Int
  RPCERR_NOINIT : Int
  RPCERR_ALOPEN : Int
  RPCERR_OPENING : Int
  RPCERR_FUNDING : Int
  RPCERR_PAY_STOP : Int
  RPCERR_CONNECT : Int
  RPCERR_CLOSE_START : Int
  RPCERR_CLOSE_FAIL : Int
  RPCERR_INVOICE_ERASE : Int
  LNERR_ROUTE_NOTFOUND : Int
  LNERR_ROUTE_TOOMANYHOP : Int
  LNERR_ROUTE_ERROR : Int
  LN_HOP_MAX : Nat
  LN_MIN_FINAL_CLTV_EXPIRY : Nat
  LN_INVOICE_MAINNET : Nat
  LN_INVOICE_TESTNET : Nat
  LN_INVOICE_REGTEST : Nat
  /-- The number `UCOIN_GENESIS_UNKNOWN`, which `create_bolt11` stores in a `uint8_t`. -/
  genesis_unknown : Nat
  /-- The content of a buffer of the stack no statement has written. -/
  uninit : Bytes
  /-- The size in bytes of the array `ipaddr` of `daemon_connect_t`. -/
  sizeof_ipaddr : Nat
  /-- The size in bytes of the array `signaddr` of `funding_conf_t`. -/
  sizeof_signaddr : Nat
  /-- The text `cJSON_PrintUnformatted` gives for a value. -/
  cJSON_PrintUnformatted : cJSON → String
  misc_str2bin : Nat → String → Bool × Bytes
  misc_str2bin_rev : Nat → String → Bool × Bytes
  misc_bin2str : Bytes → String
  strtoull16 : String → Nat
  /-- The text `misc_datetime` writes into `char date[50]`, whose size it is given. -/
  misc_datetime : String
  ln_node_getid : Bytes
  ln_node_total_msat : Nat
  p2p_cli_search_node : Bytes → Option lnapp_conf_t
  p2p_svr_search_node : Bytes → Option lnapp_conf_t
  /-- The return of `p2p_cli_start`: the error code it leaves in the context. -/
  p2p_cli_start : daemon_connect_t → Int
  /-- The peer found by the second lookup of `cmd_connect`, after the start and `sleep(2)`. -/
  search_after_start : Bytes → Option lnapp_conf_t
  lnapp_is_looping : lnapp_conf_t → Bool
  lnapp_is_inited : lnapp_conf_t → Bool
  /-- The answer of `ln_htlc_num(p_appconf->p_self)`. -/
  ln_htlc_num : lnapp_conf_t → Nat
  /-- The answer of `ln_is_funding(p_appconf->p_self)`. -/
  ln_is_funding : lnapp_conf_t → Bool
  /-- The answer of `ln_feerate_per_kw(p_appconf->p_self)`. -/
  ln_feerate_per_kw : lnapp_conf_t → Nat
  ln_node_search_channel : Bytes → Bool
  lnapp_funding : lnapp_conf_t → funding_conf_t → Bool
  lnapp_payment : lnapp_conf_t → payment_conf_t → Bool
  lnapp_close_channel : lnapp_conf_t → Bool
  lnapp_close_channel_force : Bytes → Bool
  /-- The return of `lnapp_get_committx` and the object it has filled. -/
  lnapp_get_committx : lnapp_conf_t → Bool × cJSON
  ln_db_preimg_del_hash : Bytes → Bool
  /-- The answer of `ln_db_preimg_del(NULL)`. -/
  ln_db_preimg_del : Bool
  ln_db_self_del : Bytes → Bool
  btcprc_getblockcount : Int
  /-- The routing oracle: it reads the temporary skip set of the store, its first
  argument here, then the payer, the payee, the final CLTV, the amount, the number of
  hints and the hint table. -/
  ln_routing_calculate : List Nat → Bytes → Bytes → Nat → Nat → Nat →
    Option (List ln_fieldr_t) → lnerr_route_t × ln_routing_result_t
  ucoin_util_random : Nat → Bytes
  ln_calc_preimage_hash : Bytes → Bytes
  /-- The answer of `ucoin_util_get_genesis(ln_get_genesishash())`. -/
  genesis : ucoin_genesis_t
  /-- The invoice text `ln_invoice_create` leaves in `p_invoice`, `none` for `NULL`. -/
  ln_invoice_create : Nat → Bytes → Nat → Option String
  ln_get_debug : Nat

/-- A call of a collaborator that acts on the node, as the handlers issue it. -/
inductive rpc_effect where
  | p2p_cli_start (conn : daemon_connect_t)
  | lnapp_stop (node_id : Bytes)
  | lnapp_funding (node_id : Bytes) (fundconf : funding_conf_t)
  | ln_db_preimg_save (preimage : Bytes) (amount : Nat)
  | ln_db_preimg_del_hash (hash : Bytes)
  | ln_db_preimg_del
  | ln_routing_calculate (skip : List Nat)
  | lnapp_payment (payment_hash : Bytes) (hop_num : Int)
  | misc_sendjson (json : String)
  | event_payment (str_payhash str_payee : String) (total_msat amount_msat : Nat)
  | event_payment_fail (str_payhash : Option String) (try_ : Nat)
  | lnapp_close_channel (node_id : Bytes)
  | lnapp_close_channel_force (node_id : Bytes)
  | ln_set_debug (dbg : Nat)
  | lnapp_get_committx (node_id : Bytes)
  | monitor_disable_autoconn (disable : Bool)
  | ln_db_self_del (channel_id : Bytes)
  | monitor_set_feerate_per_kw (feerate_per_kw : Nat)

/-- The state the handlers share: the temporary skip set and the saved invoices of the
store (the text of the request, by payment hash), the statics `mPayTryCount` and
`mLastPayErr`, and the calls issued so far. -/
structure rpc_state where
  annoskip_tmp : List Nat
  annoskip_invoice : List (Bytes × String)
  mPayTryCount : Nat
  mLastPayErr : String
  log : List rpc_effect

/-- What a handler leaves: the returned `cJSON *` (`none` for `NULL`), `ctx->error_code`,
which is 0 when the handler is entered, and the state. -/
structure rpc_ret where
  result : Option cJSON
  error_code : Int
  st : rpc_state

/-- An access outside of the object it addresses, after which the C program has no
defined behaviour. -/
inductive rpc_fault where
  | store_outside_table (index : Nat)
  | pointer_outside (index : Nat)
  | copy_outside_buffer (size : Nat)
  deriving DecidableEq

/-- The length `strlen` of a C string: the number of its bytes before the terminating
0. -/
def strlen (str : String) : Nat := str.utf8ByteSize

/-- The call `strcpy` into a character array of `size` bytes: the string and its
terminating 0 are copied, which writes outside of the array unless `strlen < size`. -/
def strcpy (size : Nat) (src : String) : Except rpc_fault String :=
  if strlen src < size then .ok src else .error (rpc_fault.copy_outside_buffer size)

/-- The head of the request text `cmd_json_pay_retry` builds, before the invoice. -/
def retry_head : String := "\x7b\"method\":\"routepay_cont\",\"params\":"

/-- The tail of the request text `cmd_json_pay_retry` builds, after the invoice. -/
def retry_tail : String := "\x7d"

/-- The state with one more call in the log. -/
def rpc_log (s : rpc_state) (e : rpc_effect) : rpc_state :=
  { s with log := s.log ++ [e] }

/-- Modelled from the spec: `ln_db_annoskip_save(short_channel_id, true)` of the store,
which is not among the sources: the channel joins the temporary skip set. -/
def ln_db_annoskip_save (s : rpc_state) (short_channel_id : Nat) : rpc_state :=
  { s with annoskip_tmp :=
      if short_channel_id ∈ s.annoskip_tmp then s.annoskip_tmp
      else s.annoskip_tmp ++ [short_channel_id] }

/-- Modelled from the spec: `ln_db_annoskip_drop(true)`: the temporary skip set is
emptied. -/
def ln_db_annoskip_drop (s : rpc_state) : rpc_state :=
  { s with annoskip_tmp := [] }

/-- Modelled from the spec: `ln_db_annoskip_invoice_del`: the invoice saved under the
payment hash is deleted. -/
def ln_db_annoskip_invoice_del (s : rpc_state) (pPayHash : Bytes) : rpc_state :=
  { s with annoskip_invoice := s.annoskip_invoice.filter (fun p => p.1 ≠ pPayHash) }

/-- Modelled from the spec: `ln_db_annoskip_invoice_save`: the invoice is saved under the
payment hash, in the place of an earlier one. -/
def ln_db_annoskip_invoice_save (s : rpc_state) (pInvoice : String) (pPayHash : Bytes) :
    rpc_state :=
  { s with annoskip_invoice :=
      s.annoskip_invoice.filter (fun p => p.1 ≠ pPayHash) ++ [(pPayHash, pInvoice)] }

/-- Modelled from the spec: `ln_db_annoskip_invoice_load`: the invoice saved under the
payment hash, if there is one. -/
def ln_db_annoskip_invoice_load (s : rpc_state) (pPayHash : Bytes) : Option String :=
  (s.annoskip_invoice.find? (fun p => p.1 = pPayHash)).map Prod.snd

/-- The function `search_connected_lnapp_node`: the client side is searched first, then
the server side. -/
def search_connected_lnapp_node (W : World) (p_node_id : Bytes) : Option lnapp_conf_t :=
  match W.p2p_cli_search_node p_node_id with
  | some p_appconf => some p_appconf
  | none => W.p2p_svr_search_node p_node_id

/-- The function `cmd_json_pay_retry`: with an invoice at hand, or else with the one
loaded from the store, the request text is built in a buffer of 8192 bytes by `strcpy`
and two `strcat`, which write outside of it unless head, invoice, tail and the terminating
0 fit, and is sent to the own RPC port. With no invoice at hand and none in the store
nothing is sent; what `free` is then given is up to `ln_db_annoskip_invoice_load`, which
is not among the sources, and `cmd_routepay`, the caller in this file, always has the
invoice at hand. -/
def cmd_json_pay_retry (s : rpc_state) (pPayHash : Bytes) (pInvoice : Option String) :
    Except rpc_fault rpc_state :=
  let p_invoice := match pInvoice with
    | none => ln_db_annoskip_invoice_load s pPayHash
    | some inv => some inv
  match p_invoice with
  | some inv =>
    if strlen retry_head + strlen inv + strlen retry_tail < 8192 then
      .ok (rpc_log s (rpc_effect.misc_sendjson (retry_head ++ inv ++ retry_tail)))
    else .error (rpc_fault.copy_outside_buffer 8192)
  | none => .ok s

/-- The function `json_connect`: the three connect parameters from position `Index` on;
`none` is the return -1, otherwise the next index and the parsed `daemon_connect_t`. The
address is copied into `pConn->ipaddr` by `strcpy`. -/
def json_connect (W : World) (params : Option cJSON) (Index : Nat) :
    Except rpc_fault (Option (Nat × daemon_connect_t)) :=
  match cJSON_GetArrayItem params Index with
  | some (cJSON_String node_id) =>
    let r := W.misc_str2bin UCOIN_SZ_PUBKEY node_id
    if r.1 then
      if W.ln_node_getid.take UCOIN_SZ_PUBKEY = r.2.take UCOIN_SZ_PUBKEY then .ok none
      else
        match cJSON_GetArrayItem params (Index + 1) with
        | some (cJSON_String valuestring) =>
          match strcpy W.sizeof_ipaddr valuestring with
          | .error f => .error f
          | .ok ipaddr =>
            match cJSON_GetArrayItem params (Index + 2) with
            | some (cJSON_Number port _) =>
              .ok (some (Index + 3, { node_id := r.2, ipaddr := ipaddr, port := port }))
            | _ => .ok none
        | _ => .ok none
    else .ok none
  | _ => .ok none

/-- The exit of the handlers that parse into `index`: the return -1 of the parse, with
`NULL` as result and the code `RPCERR_PARSE`. -/
def rpc_parse_error (W : World) (s : rpc_state) : rpc_ret :=
  { result := none, error_code := W.RPCERR_PARSE, st := s }

/-- A handler's exit with an error code and no result. -/
def rpc_error (code : Int) (s : rpc_state) : rpc_ret :=
  { result := none, error_code := code, st := s }

/-- A handler's exit with a result and no error code. -/
def rpc_result (result : cJSON) (s : rpc_state) : rpc_ret :=
  { result := some result, error_code := 0, st := s }

/-- The `else` branch of `cmd_close`: the channel to the node, if the store has one, is
closed by force. -/
def cmd_close_force (W : World) (s : rpc_state) (conn : daemon_connect_t) : rpc_ret :=
  if W.ln_node_search_channel conn.node_id then
    let s1 := rpc_log s (rpc_effect.lnapp_close_channel_force conn.node_id)
    if W.lnapp_close_channel_force conn.node_id then
      rpc_result (cJSON_String "unilateral close") s1
    else rpc_error W.RPCERR_CLOSE_FAIL s1
  else rpc_error W.RPCERR_NOCHANN s

/-- The function `cmd_close`: the cooperative close is started for a connected peer with no
HTLC on the channel (`(p_appconf != NULL) && (ln_htlc_num(p_appconf->p_self) == 0)`);
otherwise the `else` branch is taken, which the comments and the debug text of the source
describe as the case of a peer that is not connected. -/
def cmd_close (W : World) (s : rpc_state) (params : Option cJSON) :
    Except rpc_fault rpc_ret :=
  match params with
  | none => .ok (rpc_parse_error W s)
  | some _ =>
    match json_connect W params 0 with
    | .error f => .error f
    | .ok none => .ok (rpc_parse_error W s)
    | .ok (some (_, conn)) =>
      match search_connected_lnapp_node W conn.node_id with
      | some p_appconf =>
        if W.ln_htlc_num p_appconf = 0 then
          let s1 := rpc_log s (rpc_effect.lnapp_close_channel p_appconf.node_id)
          if W.lnapp_close_channel p_appconf then
            .ok (rpc_result (cJSON_String "Progressing") s1)
          else .ok (rpc_error W.RPCERR_CLOSE_START s1)
        else .ok (cmd_close_force W s conn)
      | none => .ok (cmd_close_force W s conn)

/-- The parsing loop of `cmd_pay`, entered at index `lp` with `n` rounds to go and the
entries `tbl` written so far: each round parses `[node_id, short_channel_id,
amt_to_forward, outgoing_cltv_value]` into `payconf.hop_datain[lp]`, a table of
`1 + LN_HOP_MAX` entries. The result is `none` on `index = -1`, and a fault when an entry
outside of the table is written. -/
def cmd_pay_hops (W : World) (blockcnt : Int) (json : Option cJSON) :
    Nat → Nat → List ln_hop_datain_t → Except rpc_fault (Option (List ln_hop_datain_t))
  | 0, _, tbl => .ok (some tbl)
  | n + 1, lp, tbl =>
    match cJSON_GetArrayItem json lp with
    | some (cJSON_Array child) =>
      let jarray := some (cJSON_Array child)
      match cJSON_GetArrayItem jarray 0 with
      | some (cJSON_String node_id) =>
        if lp ≥ 1 + W.LN_HOP_MAX then .error (rpc_fault.store_outside_table lp)
        else
          match cJSON_GetArrayItem jarray 1 with
          | some (cJSON_String short_channel_id) =>
            match cJSON_GetArrayItem jarray 2 with
            | some (cJSON_Number _ amt_to_forward) =>
              match cJSON_GetArrayItem jarray 3 with
              | some (cJSON_Number valueint _) =>
                let outgoing_cltv_value := ((valueint + blockcnt) % 2 ^ 32).toNat
                cmd_pay_hops W blockcnt json n (lp + 1)
                  (tbl ++ [{ short_channel_id := W.strtoull16 short_channel_id
                             amt_to_forward := amt_to_forward
                             outgoing_cltv_value := outgoing_cltv_value
                             pubkey := (W.misc_str2bin UCOIN_SZ_PUBKEY node_id).2 }])
              | _ => .ok none
            | _ => .ok none
          | _ => .ok none
      | _ => .ok none
    | _ => .ok none

/-- The exit of `cmd_pay`: `index < 0` has set `RPCERR_PARSE`; with an error code the saved
invoice of the payment hash is deleted and the temporary skip set is dropped. -/
def cmd_pay_exit (result : Option cJSON) (error_code : Int) (payment_hash : Bytes)
    (s : rpc_state) : rpc_ret :=
  { result := result
    error_code := error_code
    st := if error_code ≠ 0 then ln_db_annoskip_drop (ln_db_annoskip_invoice_del s payment_hash)
          else s }

/-- The function `cmd_pay`: `payconf` is a local variable, so the payment hash and the hop
entries hold what the stack held until they are parsed. `hop_num` is taken from the request
as it is; the peer is looked up with the public key of hop entry 1. -/
def cmd_pay (W : World) (s : rpc_state) (params : Option cJSON) : Except rpc_fault rpc_ret :=
  match params with
  | none => .ok (cmd_pay_exit none W.RPCERR_PARSE W.uninit s)
  | some _ =>
    let blockcnt := W.btcprc_getblockcount
    if blockcnt < 0 then .ok (cmd_pay_exit none W.RPCERR_PARSE W.uninit s)
    else
      match cJSON_GetArrayItem params 0 with
      | some (cJSON_String valuestring) =>
        let payment_hash := (W.misc_str2bin LN_SZ_HASH valuestring).2
        match cJSON_GetArrayItem params 1 with
        | some (cJSON_Number hop_num _) =>
          match cJSON_GetArrayItem params 2 with
          | some (cJSON_Array child) =>
            match cmd_pay_hops W blockcnt (some (cJSON_Array child)) hop_num.toNat 0 [] with
            | .error f => .error f
            | .ok none => .ok (cmd_pay_exit none W.RPCERR_PARSE payment_hash s)
            | .ok (some hop_datain) =>
              let payconf : payment_conf_t :=
                { payment_hash := payment_hash, hop_num := hop_num, hop_datain := hop_datain }
              let pubkey1 := (hop_datain[1]?.map (fun p => p.pubkey)).getD W.uninit
              match search_connected_lnapp_node W pubkey1 with
              | some p_appconf =>
                if W.lnapp_is_inited p_appconf then
                  let s1 := rpc_log s (rpc_effect.lnapp_payment payment_hash hop_num)
                  if W.lnapp_payment p_appconf payconf then
                    .ok (cmd_pay_exit (some (cJSON_String "Progressing")) 0 payment_hash s1)
                  else .ok (cmd_pay_exit none W.RPCERR_PAY_STOP payment_hash s1)
                else .ok (cmd_pay_exit none W.RPCERR_NOINIT payment_hash s)
              | none => .ok (cmd_pay_exit none W.RPCERR_NOCONN payment_hash s)
          | _ => .ok (cmd_pay_exit none W.RPCERR_PARSE payment_hash s)
        | _ => .ok (cmd_pay_exit none W.RPCERR_PARSE payment_hash s)
      | _ => .ok (cmd_pay_exit none W.RPCERR_PARSE W.uninit s)

/-- The out-parameters of `routepay_param`, as the caller holds them: a string buffer that
was not written is `none`, `p_rfield` is `none` for `NULL` and otherwise lists the entries
of the allocated table that were written. -/
structure routepay_args where
  str_payhash : Option String
  str_payee : Option String
  str_payer : Option String
  amount_msat : Nat
  min_final_cltv_expiry : Nat
  addnum : Nat
  p_rfield : Option (List ln_fieldr_t)

/-- The hint loop of `routepay_param`, entered at index `lp` with `n` rounds to go and the
entries `tbl` written so far. The entry is addressed as `ppRField[lp]`, and `ppRField`
points to the single pointer `p_rfield` of the caller: index 0 yields the table, every
other index reads outside of that pointer. The flag is `false` on a hint that does not
parse. -/
def routepay_param_hints (W : World) (json : Option cJSON) :
    Nat → Nat → List ln_fieldr_t → Except rpc_fault (Bool × List ln_fieldr_t)
  | 0, _, tbl => .ok (true, tbl)
  | n + 1, lp, tbl =>
    if lp ≠ 0 then .error (rpc_fault.pointer_outside lp)
    else
      match cJSON_GetArrayItem json lp with
      | some (cJSON_Array child) =>
        let jarray := some (cJSON_Array child)
        match cJSON_GetArrayItem jarray 0 with
        | some (cJSON_String node_id) =>
          let r := W.misc_str2bin UCOIN_SZ_PUBKEY node_id
          if r.1 then
            match cJSON_GetArrayItem jarray 1 with
            | some (cJSON_Number _ short_channel_id) =>
              match cJSON_GetArrayItem jarray 2 with
              | some (cJSON_Number _ fee_base_msat) =>
                match cJSON_GetArrayItem jarray 3 with
                | some (cJSON_Number _ fee_prop_millionths) =>
                  match cJSON_GetArrayItem jarray 4 with
                  | some (cJSON_Number _ cltv_expiry_delta) =>
                    routepay_param_hints W json n (lp + 1)
                      (tbl ++ [{ node_id := r.2
                                 short_channel_id := short_channel_id
                                 fee_base_msat := fee_base_msat % 2 ^ 32
                                 fee_prop_millionths := fee_prop_millionths % 2 ^ 32
                                 cltv_expiry_delta := cltv_expiry_delta % 2 ^ 16 }])
                  | _ => .ok (false, tbl)
                | _ => .ok (false, tbl)
              | _ => .ok (false, tbl)
            | _ => .ok (false, tbl)
          else .ok (false, tbl)
        | _ => .ok (false, tbl)
      | _ => .ok (false, tbl)

/-- The function `routepay_param`: payment hash, amount, payee and payer are required; the
final CLTV and the number of hints are read when they are numbers; with a number of hints
above 0 the next parameter is the array of hints. The strings are copied by `strcpy` into
the buffers of `cmd_routepay`, the only caller: `str_payhash[2 * LN_SZ_HASH + 1]`,
`str_payee[2 * UCOIN_SZ_PUBKEY + 1]` and `str_payer[2 * UCOIN_SZ_PUBKEY + 1]`. The result
is the returned flag and the out-parameters after the call, or a fault. -/
def routepay_param (W : World) (params : Option cJSON) (index : Nat) (a : routepay_args) :
    Except rpc_fault (Bool × routepay_args) :=
  match cJSON_GetArrayItem params index with
  | some (cJSON_String valuestring0) =>
    match strcpy (2 * LN_SZ_HASH + 1) valuestring0 with
    | .error f => .error f
    | .ok str_payhash =>
      let a1 := { a with str_payhash := some str_payhash }
      match cJSON_GetArrayItem params (index + 1) with
      | some (cJSON_Number _ amount_msat) =>
        let a2 := { a1 with amount_msat := amount_msat }
        match cJSON_GetArrayItem params (index + 2) with
        | some (cJSON_String valuestring2) =>
          match strcpy (2 * UCOIN_SZ_PUBKEY + 1) valuestring2 with
          | .error f => .error f
          | .ok str_payee =>
            let a3 := { a2 with str_payee := some str_payee }
            match cJSON_GetArrayItem params (index + 3) with
            | some (cJSON_String valuestring3) =>
              match (if strlen valuestring3 > 0 then
                      strcpy (2 * UCOIN_SZ_PUBKEY + 1) valuestring3
                    else .ok (W.misc_bin2str W.ln_node_getid)) with
              | .error f => .error f
              | .ok str_payer =>
                let a4 := { a3 with str_payer := some str_payer }
                let a5 :=
                  match cJSON_GetArrayItem params (index + 4) with
                  | some (cJSON_Number _ valueu64) =>
                    { a4 with min_final_cltv_expiry := valueu64 % 2 ^ 32 }
                  | _ => a4
                match cJSON_GetArrayItem params (index + 5) with
                | some (cJSON_Number valueint _) =>
                  let a6 := { a5 with addnum := (valueint % 256).toNat }
                  if a6.addnum > 0 then
                    match cJSON_GetArrayItem params (index + 6) with
                    | some (cJSON_Array child) =>
                      match routepay_param_hints W (some (cJSON_Array child)) a6.addnum 0
                          [] with
                      | .error f => .error f
                      | .ok (ret, tbl) => .ok (ret, { a6 with p_rfield := some tbl })
                    | _ => .ok (false, a6)
                  else .ok (true, a6)
                | _ => .ok (true, a5)
            | _ => .ok (false, a3)
        | _ => .ok (false, a2)
      | _ => .ok (false, a1)
  | _ => .ok (false, a)

/-- The block `if (!ret && !retry)` at the exit of `cmd_routepay`: the saved invoice of the
payment hash is deleted, the temporary skip set is dropped, the date of the failure is
written to `mLastPayErr` and the event `payment fail` is recorded. The date is written
into `char date[50]` with the size of the array passed along, and `mLastPayErr` has
`M_SZ_PAYERR`, 128, bytes, so the text fits. -/
def cmd_routepay_fail (W : World) (s : rpc_state) (payhash : Bytes)
    (str_payhash : Option String) : rpc_state :=
  let s1 := ln_db_annoskip_drop (ln_db_annoskip_invoice_del s payhash)
  rpc_log { s1 with mLastPayErr := "[" ++ W.misc_datetime ++ "]payment fail" }
    (rpc_effect.event_payment_fail str_payhash s.mPayTryCount)

/-- The submission of `cmd_routepay`: the payment is handed to `lnapp_payment` when the peer
of hop entry 1 is connected and initialised; the flag is `ret`. -/
def cmd_routepay_submit (W : World) (s : rpc_state) (payhash : Bytes)
    (rt_ret : ln_routing_result_t) : Bool × rpc_state :=
  let payconf : payment_conf_t :=
    { payment_hash := payhash, hop_num := rt_ret.hop_num
      hop_datain := (List.range (1 + W.LN_HOP_MAX)).map rt_ret.hop_datain }
  match search_connected_lnapp_node W (rt_ret.hop_datain 1).pubkey with
  | some p_appconf =>
    if W.lnapp_is_inited p_appconf then
      (W.lnapp_payment p_appconf payconf,
        rpc_log s (rpc_effect.lnapp_payment payhash rt_ret.hop_num))
    else (false, s)
  | none => (false, s)

/-- The part of `cmd_routepay` after the routing oracle has given the
route `rt_ret`: the text of the request is saved as invoice, the payment is submitted, the
try counter is raised, the try that brings the counter to 1 records the event `payment`,
and a payment that was not submitted puts the channel of hop entry 0 into the temporary
skip set and has `cmd_json_pay_retry` send `routepay_cont`. -/
def cmd_routepay_send (W : World) (s : rpc_state) (params : cJSON) (payhash : Bytes)
    (str_payhash str_payee : String) (amount_msat : Nat) (rt_ret : ln_routing_result_t) :
    Except rpc_fault rpc_ret :=
  let p_invoice := W.cJSON_PrintUnformatted params
  let s1 := ln_db_annoskip_invoice_save s p_invoice payhash
  let sub := cmd_routepay_submit W s1 payhash rt_ret
  let s2 : rpc_state := { sub.2 with mPayTryCount := sub.2.mPayTryCount + 1 }
  let s3 : rpc_state :=
    if s2.mPayTryCount = 1 then
      rpc_log s2 (rpc_effect.event_payment str_payhash str_payee W.ln_node_total_msat
        amount_msat)
    else s2
  if !sub.1 then
    match cmd_json_pay_retry
        (ln_db_annoskip_save s3 (rt_ret.hop_datain 0).short_channel_id) payhash
        (some p_invoice) with
    | .error f => .error f
    | .ok s4 => .ok (rpc_result (cJSON_String "start payment") s4)
  else .ok (rpc_result (cJSON_String "start payment") s3)

/-- The out-parameters of `routepay_param` as `cmd_routepay` initialises them: the string
buffers are not written, the amount is 0, the final CLTV is `LN_MIN_FINAL_CLTV_EXPIRY`,
there is no hint. -/
def routepay_args_init (W : World) : routepay_args :=
  { str_payhash := none, str_payee := none, str_payer := none, amount_msat := 0
    min_final_cltv_expiry := W.LN_MIN_FINAL_CLTV_EXPIRY % 2 ^ 32, addnum := 0
    p_rfield := none }

/-- The function `cmd_routepay`, the handler of `routepay_cont`. Until they are written,
`payhash` and `str_payhash` hold what the stack held. The block `if (!ret && !retry)` of
the exit runs when `ret` is `false`: after missing parameters, a failed `routepay_param`, a
failed conversion of the payment hash or of the payee, and a routing error; a block count
that is not known leaves with `ret` still `true` from the conversion of the payee, so the
block is skipped there. The routing oracle reads the temporary skip set of the store. -/
def cmd_routepay (W : World) (s : rpc_state) (params : Option cJSON) :
    Except rpc_fault rpc_ret :=
  match params with
  | none => .ok (rpc_parse_error W (cmd_routepay_fail W s W.uninit none))
  | some p =>
    match routepay_param W params 0 (routepay_args_init W) with
    | .error f => .error f
    | .ok (false, a) => .ok (rpc_parse_error W (cmd_routepay_fail W s W.uninit a.str_payhash))
    | .ok (true, a) =>
      let str_payhash := a.str_payhash.getD ""
      let str_payee := a.str_payee.getD ""
      let payhash := W.misc_str2bin LN_SZ_HASH str_payhash
      if !payhash.1 then
        .ok (rpc_parse_error W (cmd_routepay_fail W s payhash.2 a.str_payhash))
      else
        let node_payee := W.misc_str2bin UCOIN_SZ_PUBKEY str_payee
        if !node_payee.1 then
          .ok (rpc_parse_error W (cmd_routepay_fail W s payhash.2 a.str_payhash))
        else
          if W.btcprc_getblockcount < 0 then .ok (rpc_parse_error W s)
          else
            let rt := W.ln_routing_calculate s.annoskip_tmp W.ln_node_getid node_payee.2
              ((W.btcprc_getblockcount.toNat + a.min_final_cltv_expiry) % 2 ^ 32)
              a.amount_msat a.addnum a.p_rfield
            let s1 := rpc_log s (rpc_effect.ln_routing_calculate s.annoskip_tmp)
            match rt.1 with
            | LNROUTE_NONE =>
              cmd_routepay_send W s1 p payhash.2 str_payhash str_payee a.amount_msat rt.2
            | LNROUTE_NOTFOUND =>
              .ok (rpc_error W.LNERR_ROUTE_NOTFOUND
                (cmd_routepay_fail W s1 payhash.2 a.str_payhash))
            | LNROUTE_TOOMANYHOP =>
              .ok (rpc_error W.LNERR_ROUTE_TOOMANYHOP
                (cmd_routepay_fail W s1 payhash.2 a.str_payhash))
            | LNROUTE_OTHER =>
              .ok (rpc_error W.LNERR_ROUTE_ERROR
                (cmd_routepay_fail W s1 payhash.2 a.str_payhash))

/-- The function `cmd_routepay_first`, the handler of `routepay`: the temporary skip set is
dropped and the try counter is set to 0, then `cmd_routepay` runs. -/
def cmd_routepay_first (W : World) (s : rpc_state) (params : Option cJSON) :
    Except rpc_fault rpc_ret :=
  cmd_routepay W { ln_db_annoskip_drop s with mPayTryCount := 0 } params

/-! ## The words of the specification on the RPC requests -/

/-- The code and the result of a handler that can fault. -/
def rpc_answer (r : Except rpc_fault rpc_ret) : Option (Option cJSON × Int) :=
  match r with
  | .ok ret => some (ret.result, ret.error_code)
  | .error _ => none

/-- The state of a node that has handled no request yet. -/
def s0 : rpc_state :=
  { annoskip_tmp := [], annoskip_invoice := [], mPayTryCount := 0, mLastPayErr := "", log := [] }

/-- The result and the code a handler leaves. -/
def rpc_code (r : rpc_ret) : Option cJSON × Int := (r.result, r.error_code)

/-- The parameter at position `i`, if it is a string, fits with its terminating 0 into an
array of `size` bytes. -/
def string_fits (size : Nat) (params : Option cJSON) (i : Nat) : Bool :=
  match cJSON_GetArrayItem params i with
  | some (cJSON_String valuestring) => decide (strlen valuestring < size)
  | _ => true

/-- The request text of a retry, which is the head, the printed parameters and the tail,
fits with its terminating 0 into the buffer of 8192 bytes. -/
def retry_fits (W : World) (p : cJSON) : Bool :=
  decide (strlen retry_head + strlen (W.cJSON_PrintUnformatted p) + strlen retry_tail < 8192)

/-- The request text of a retry of the request with the parameters `p`. -/
def retry_text (W : World) (p : cJSON) : String :=
  retry_head ++ W.cJSON_PrintUnformatted p ++ retry_tail

/-- The parameters of a request `routepay` parse, and the payment hash and the payee
decode; the value is the parsed arguments, the payment hash and the payee. -/
def routepay_decoded (W : World) (params : Option cJSON) :
    Option (routepay_args × Bytes × Bytes) :=
  match params with
  | none => none
  | some _ =>
    match routepay_param W params 0 (routepay_args_init W) with
    | .ok (true, a) =>
      let payhash := W.misc_str2bin LN_SZ_HASH (a.str_payhash.getD "")
      let node_payee := W.misc_str2bin UCOIN_SZ_PUBKEY (a.str_payee.getD "")
      if payhash.1 && node_payee.1 then some (a, payhash.2, node_payee.2) else none
    | _ => none

/-- The request gets as far as the routing oracle in `cmd_routepay`: the parameters parse,
the payment hash and the payee decode and the block count is known; the value is the
parsed arguments, the payment hash and the payee. -/
def routepay_parsed (W : World) (params : Option cJSON) :
    Option (routepay_args × Bytes × Bytes) :=
  if 0 ≤ W.btcprc_getblockcount then routepay_decoded W params else none

/-- The peer with the node id that is connected, on the client side or else on the server
side. -/
def connected_peer (W : World) (node_id : Bytes) : Option lnapp_conf_t :=
  (W.p2p_cli_search_node node_id).orElse (fun _ => W.p2p_svr_search_node node_id)

/-- The payment on the route is submitted: the peer of hop entry 1 is connected and
initialised, and `lnapp_payment` takes the payment hash, the hop count and the hop table
of the route. -/
def payment_submitted (W : World) (payhash : Bytes) (rt : ln_routing_result_t) : Bool :=
  match connected_peer W (rt.hop_datain 1).pubkey with
  | some peer =>
    W.lnapp_is_inited peer
      && W.lnapp_payment peer
          { payment_hash := payhash, hop_num := rt.hop_num
            hop_datain := (List.range (1 + W.LN_HOP_MAX)).map rt.hop_datain }
  | none => false

/-- The answer of the routing oracle to a request that has got as far as it, asked on the
skip set `skip`: from the own node to the payee, with the final CLTV the block count plus
`min_final_cltv_expiry` as a `uint32_t`, the amount and the hints of the request. -/
def routepay_oracle (W : World) (skip : List Nat) (a : routepay_args) (node_payee : Bytes) :
    lnerr_route_t × ln_routing_result_t :=
  W.ln_routing_calculate skip W.ln_node_getid node_payee
    ((W.btcprc_getblockcount.toNat + a.min_final_cltv_expiry) % 2 ^ 32) a.amount_msat a.addnum
    a.p_rfield

/-- The handler of `routepay` (`first`) or of `routepay_cont`. -/
def routepay_handler (first : Bool) (W : World) (s : rpc_state) (params : Option cJSON) :
    Except rpc_fault rpc_ret :=
  if first then cmd_routepay_first W s params else cmd_routepay W s params

/-- The state in which the body of `cmd_routepay` starts: for `routepay` the temporary skip
set is empty and the try counter is 0, for `routepay_cont` it is the incoming state. -/
def routepay_entry (first : Bool) (s : rpc_state) : rpc_state :=
  if first then { ln_db_annoskip_drop s with mPayTryCount := 0 } else s

/-- The code `cmd_routepay` sets for an outcome of the routing oracle that is not
`LNROUTE_NONE`. -/
def route_error_code (W : World) : lnerr_route_t → Int
  | LNROUTE_NOTFOUND => W.LNERR_ROUTE_NOTFOUND
  | LNROUTE_TOOMANYHOP => W.LNERR_ROUTE_TOOMANYHOP
  | _ => W.LNERR_ROUTE_ERROR

/-- The call records the structured event `payment`. -/
def is_event_payment : rpc_effect → Bool
  | rpc_effect.event_payment _ _ _ _ => true
  | _ => false

/-- The calls a handler has added to the log of the state it started from. -/
def new_calls (s : rpc_state) (r : rpc_ret) : List rpc_effect :=
  r.st.log.drop s.log.length

/-- The call is a query of the routing oracle on a skip set other than `skip`. -/
def routes_on_other (skip : List Nat) : rpc_effect → Bool
  | rpc_effect.ln_routing_calculate sk => sk != skip
  | _ => false

/-- The call sends a request to the own RPC port. -/
def is_sendjson : rpc_effect → Bool
  | rpc_effect.misc_sendjson _ => true
  | _ => false

/-- The calls of the retries of a payment, try by try: after a try with the calls `prev`
from which the state `s` is left, the request `routepay_cont` runs in the next world, on
the same parameters, if `prev` has sent it, and the payment is over if not. A fault ends
the run. -/
def payment_retries (params : Option cJSON) :
    List World → rpc_state → List rpc_effect → Except rpc_fault (List (List rpc_effect))
  | [], _, _ => .ok []
  | W :: rest, s, prev =>
    if prev.any is_sendjson then
      match cmd_routepay W s params with
      | .ok r =>
        match payment_retries params rest r.st (new_calls s r) with
        | .ok later => .ok (new_calls s r :: later)
        | .error f => .error f
      | .error f => .error f
    else .ok []

/-- The calls of the tries of one payment that no other request interrupts, try by try:
the request `routepay` in the first world, then its retries in the further worlds. -/
def payment_tries (params : Option cJSON) (W : World) (rest : List World) (s : rpc_state) :
    Except rpc_fault (List (List rpc_effect)) :=
  match cmd_routepay_first W s params with
  | .ok r =>
    match payment_retries params rest r.st (new_calls s r) with
    | .ok later => .ok (new_calls s r :: later)
    | .error f => .error f
  | .error f => .error f

/-! ## A concrete world -/

/-- A stand-in for `misc_str2bin`: a string of `2 * n` characters converts, and the buffer
holds the codes of the first `n` characters. -/
def str2bin0 (n : Nat) (str : String) : Bool × Bytes :=
  (decide (str.data.length = 2 * n), (str.data.take n).map (fun c => Fin.ofNat c.toNat))

/-- The text of a node id: 66 times the given character. -/
def node_hex (c : Char) : String := String.mk (List.replicate 66 c)

/-- The text of a payment hash: 64 times the given character. -/
def hash_hex (c : Char) : String := String.mk (List.replicate 64 c)

/-- The peer whose node id is the bytes of `node_hex 'a'`. -/
def peer_a : lnapp_conf_t := { node_id := (str2bin0 33 (node_hex 'a')).2, err := 0 }

/-- A route of two hops whose channel at hop entry 0 is `100 + n` and whose peer at hop
entry 1 is `peer_a`. -/
def route0 (n : Nat) : ln_routing_result_t :=
  { hop_num := 2
    hop_datain := fun i =>
      { short_channel_id := 100 + n + 1000 * i, amt_to_forward := 1000
        outgoing_cltv_value := 500010, pubkey := peer_a.node_id } }

/-- A stand-in for the text of a number or a string; anything else is printed as
`null`. -/
def print_item : cJSON → String
  | cJSON_Number _ valueu64 => toString valueu64
  | cJSON_String valuestring => "\"" ++ valuestring ++ "\""
  | _ => "null"

/-- A stand-in for `cJSON_PrintUnformatted` on the requests of the examples: an array of
numbers and strings. -/
def print0 : cJSON → String
  | cJSON_Array child => "[" ++ ",".intercalate (child.map print_item) ++ "]"
  | json => print_item json

/-- A world for the examples: no peer is connected, the block count is 500000, the chain is
regtest, every collaborator succeeds, and the routing oracle finds `route0 n` on a skip
set of `n` channels. -/
def w0 : World where
  RPCERR_ERROR := -10000
  RPCERR_NOCONN := -10001
  RPCERR_ALCONN := -10002
  RPCERR_NOCHANN := -10003
  RPCERR_PARSE := -10004
  RPCERR_NOINIT := -10005
  RPCERR_ALOPEN := -10006
  RPCERR_OPENING := -10007
  RPCERR_FUNDING := -10008
  RPCERR_PAY_STOP := -10009
  RPCERR_CONNECT := -10010
  RPCERR_CLOSE_START := -10011
  RPCERR_CLOSE_FAIL := -10012
  RPCERR_INVOICE_ERASE := -10013
  LNERR_ROUTE_NOTFOUND := -20001
  LNERR_ROUTE_TOOMANYHOP := -20002
  LNERR_ROUTE_ERROR := -20003
  LN_HOP_MAX := 20
  LN_MIN_FINAL_CLTV_EXPIRY := 9
  LN_INVOICE_MAINNET := 1
  LN_INVOICE_TESTNET := 2
  LN_INVOICE_REGTEST := 3
  genesis_unknown := 0
  uninit := []
  sizeof_ipaddr := 16
  sizeof_signaddr := 36
  cJSON_PrintUnformatted := print0
  misc_str2bin := str2bin0
  misc_str2bin_rev := fun n str => ((str2bin0 n str).1, (str2bin0 n str).2.reverse)
  misc_bin2str := fun b => String.mk (b.map (fun x => Char.ofNat x.val))
  strtoull16 := fun str => str.data.length
  misc_datetime := "2018/03/01 12:00:00"
  ln_node_getid := List.replicate 33 0x02
  ln_node_total_msat := 5000000
  p2p_cli_search_node := fun _ => none
  p2p_svr_search_node := fun _ => none
  p2p_cli_start := fun _ => 0
  search_after_start := fun id => some { node_id := id, err := 0 }
  lnapp_is_looping := fun _ => true
  lnapp_is_inited := fun _ => true
  ln_htlc_num := fun _ => 0
  ln_is_funding := fun _ => false
  ln_feerate_per_kw := fun _ => 253
  ln_node_search_channel := fun _ => true
  lnapp_funding := fun _ _ => true
  lnapp_payment := fun _ _ => true
  lnapp_close_channel := fun _ => true
  lnapp_close_channel_force := fun _ => true
  lnapp_get_committx := fun _ => (true, cJSON_Object [])
  ln_db_preimg_del_hash := fun _ => true
  ln_db_preimg_del := true
  ln_db_self_del := fun _ => true
  btcprc_getblockcount := 500000
  ln_routing_calculate := fun skip _ _ _ _ _ _ => (LNROUTE_NONE, route0 skip.length)
  ucoin_util_random := fun n => List.replicate n 0x07
  ln_calc_preimage_hash := fun p => p.reverse
  genesis := UCOIN_GENESIS_BTCREGTEST
  ln_invoice_create := fun _ _ _ => some "lnbcrt1"
  ln_get_debug := 0

/-- The world `w0` with `peer_a` connected on the client side. -/
def w_peer : World :=
  { w0 with p2p_cli_search_node := fun id => if id = peer_a.node_id then some peer_a else none }

/-- The world `w0` with a routing oracle that finds no route. -/
def w_notfound : World :=
  { w0 with ln_routing_calculate := fun _ _ _ _ _ _ _ => (LNROUTE_NOTFOUND, route0 0) }

/-- The world `w0` with a routing oracle that reports too many hops. -/
def w_toomanyhop : World :=
  { w0 with ln_routing_calculate := fun _ _ _ _ _ _ _ => (LNROUTE_TOOMANYHOP, route0 0) }

/-- The out-parameters `routepay_param` leaves in the example world for the request
`params_routepay`, defined below: the payer is the own node, the final CLTV keeps its
initial value. -/
def args_routepay : routepay_args :=
  { str_payhash := some (hash_hex 'c'), str_payee := some (node_hex 'b')
    str_payer := some (w0.misc_bin2str w0.ln_node_getid), amount_msat := 1000
    min_final_cltv_expiry := 9, addnum := 0, p_rfield := none }

/-- The payment hash of the example request, as the stand-in conversion gives it. -/
def payhash_c : Bytes := (str2bin0 LN_SZ_HASH (hash_hex 'c')).2

/-- The payee of the example request, as the stand-in conversion gives it. -/
def payee_b : Bytes := (str2bin0 UCOIN_SZ_PUBKEY (node_hex 'b')).2

/-- The connect parameters `[node_id, ip, port]` of `peer_a`. -/
def params_peer_a : cJSON :=
  cJSON_Array [cJSON_String (node_hex 'a'), cJSON_String "127.0.0.1", cJSON_Number 9735 9735]

/-- The parameters `[hash, amt_msat, payee, payer]` of a `routepay` of 1000 msat. -/
def params_routepay : cJSON :=
  cJSON_Array [cJSON_String (hash_hex 'c'), cJSON_Number 1000 1000, cJSON_String (node_hex 'b'),
    cJSON_String ""]

/-- What the request `routepay` with `params_routepay` leaves in the example world, from
the state `s0`: the oracle has found `route0 0` on the empty skip set, no peer is
connected, so channel 100 is in the skip set and the retry is sent. -/
def ret_first_try : rpc_ret :=
  { result := some (cJSON_String "start payment")
    error_code := 0
    st :=
      { annoskip_tmp := [100]
        annoskip_invoice := [(payhash_c, print0 params_routepay)]
        mPayTryCount := 1
        mLastPayErr := ""
        log := [rpc_effect.ln_routing_calculate [],
          rpc_effect.event_payment (hash_hex 'c') (node_hex 'b') 5000000 1000,
          rpc_effect.misc_sendjson (retry_head ++ print0 params_routepay ++ retry_tail)] } }

/-- The calls of the two tries of the payment `params_routepay` whose first try runs in
the world `w0`, where no peer is connected, and whose retry runs in the world `w_peer`. -/
def tries_routepay : List (List rpc_effect) :=
  [[rpc_effect.ln_routing_calculate [],
    rpc_effect.event_payment (hash_hex 'c') (node_hex 'b') 5000000 1000,
    rpc_effect.misc_sendjson (retry_head ++ print0 params_routepay ++ retry_tail)],
   [rpc_effect.ln_routing_calculate [100], rpc_effect.lnapp_payment payhash_c 2]]

/-- A hint `[node_id, short_channel_id, fee_base_msat, fee_prop_millionths,
cltv_expiry_delta]` whose numbers fit their fields. -/
def hint_json (short_channel_id : Nat) : cJSON :=
  cJSON_Array [cJSON_String (node_hex 'a'), cJSON_Number short_channel_id short_channel_id,
    cJSON_Number 1000 1000, cJSON_Number 10 10, cJSON_Number 144 144]

/-- The parameters of a `routepay` with `r_field_count` `n` and the given hints. -/
def params_routepay_hints (n : Nat) (hints : List cJSON) : cJSON :=
  cJSON_Array [cJSON_String (hash_hex 'c'), cJSON_Number 1000 1000, cJSON_String (node_hex 'b'),
    cJSON_String "", cJSON_Number 9 9, cJSON_Number n n, cJSON_Array hints]

/-- A hop `[node_id, short_channel_id, amt_to_forward, outgoing_cltv_value]` of `PAY`. -/
def hop_json : cJSON :=
  cJSON_Array [cJSON_String (node_hex 'a'), cJSON_String "1a2b", cJSON_Number 1000 1000,
    cJSON_Number 10 10]

/-- The parameters `[hash, hop_num, hops]` of a `PAY` with `hop_num` `n` and `n` hops. -/
def params_pay (n : Nat) : cJSON :=
  cJSON_Array [cJSON_String (hash_hex 'c'), cJSON_Number n n,
    cJSON_Array (List.replicate n hop_json)]

/-- An HTLC is trimmed as the code tests it: it is offered and its amount in satoshi is
below the `uint64_t` sum `d + htlc_timeout`, or received and below the `uint64_t` sum
`d + htlc_success`. -/
def trimmed_u64 (d htlc_timeout htlc_success : Nat) (h : ln_htlcinfo_t) : Bool :=
  match h.type with
  | LN_HTLCTYPE_OFFERED => decide (LN_MSAT2SATOSHI h.amount_msat < u64 (d + htlc_timeout))
  | LN_HTLCTYPE_RECEIVED => decide (LN_MSAT2SATOSHI h.amount_msat < u64 (d + htlc_success))
  | LN_HTLCTYPE_NONE => false

/-- An HTLC survives as the code tests it: it is offered and its amount in satoshi is at
least the `uint64_t` sum `d + htlc_timeout`, or received and at least the `uint64_t` sum
`d + htlc_success`. -/
def survives_u64 (d htlc_timeout htlc_success : Nat) (h : ln_htlcinfo_t) : Bool :=
  match h.type with
  | LN_HTLCTYPE_OFFERED => decide (u64 (d + htlc_timeout) ≤ LN_MSAT2SATOSHI h.amount_msat)
  | LN_HTLCTYPE_RECEIVED => decide (u64 (d + htlc_success) ≤ LN_MSAT2SATOSHI h.amount_msat)
  | LN_HTLCTYPE_NONE => false

/-! ## Arithmetic of `uint64_t` -/

theorem u64_lt (n : Nat) : u64 n < 2 ^ 64 := by
  unfold u64; omega

theorem u64_of_lt {n : Nat} (h : n < 2 ^ 64) : u64 n = n := by
  unfold u64; omega

theorem u64_add_left (a b : Nat) : u64 (u64 a + b) = u64 (a + b) := by
  unfold u64; omega

theorem u64_mul_left (a b : Nat) : u64 (u64 a * b) = u64 (a * b) := by
  unfold u64; exact Nat.mod_mul_mod

theorem u64_sub_of_le {a b : Nat} (ha : a < 2 ^ 64) (hb : b ≤ a) : u64_sub a b = a - b := by
  unfold u64_sub u64; omega

/-! ## The fee calculator -/

theorem ln_fee_calc_loop_append (fi : ln_feeinfo_t) (hs hs2 : List ln_htlcinfo_t)
    (acc : Nat × Nat) :
    ln_fee_calc_loop fi (hs ++ hs2) acc = ln_fee_calc_loop fi hs2 (ln_fee_calc_loop fi hs acc) := by
  induction hs generalizing acc with
  | nil => simp [ln_fee_calc_loop]
  | cons h rest ih =>
    obtain ⟨c, du⟩ := acc
    simp only [List.cons_append, ln_fee_calc_loop]
    cases h.type <;> simp only [] <;> first | exact ih _ | (split <;> exact ih _)

theorem surviving_htlcs_cons (d t su : Nat) (h : ln_htlcinfo_t) (hs : List ln_htlcinfo_t) :
    surviving_htlcs d t su (h :: hs)
      = (if survives d t su h then 1 else 0) + surviving_htlcs d t su hs := by
  unfold surviving_htlcs
  by_cases hh : survives d t su h = true
  · simp [List.filter_cons, hh]; omega
  · simp [List.filter_cons, hh]

theorem trimmed_dust_sum_cons (d t su : Nat) (h : ln_htlcinfo_t) (hs : List ln_htlcinfo_t) :
    trimmed_dust_sum d t su (h :: hs)
      = (if trimmed d t su h then LN_MSAT2SATOSHI h.amount_msat else 0)
        + trimmed_dust_sum d t su hs := by
  unfold trimmed_dust_sum
  by_cases hh : trimmed d t su h = true
  · simp [List.filter_cons, hh]
  · simp [List.filter_cons, hh]

/-- The state of the loop of `ln_fee_calc` after a list: the weight has grown by 172 for
each surviving HTLC and the dust by the amounts of the trimmed ones, both modulo 2^64,
provided the two thresholds do not wrap. -/
theorem ln_fee_calc_loop_eq (fi : ln_feeinfo_t) (hs : List ln_htlcinfo_t) (c du : Nat)
    (hc : c < 2 ^ 64) (hdu : du < 2 ^ 64)
    (hto : fi.dust_limit_satoshi + fi.htlc_timeout < 2 ^ 64)
    (hsu : fi.dust_limit_satoshi + fi.htlc_success < 2 ^ 64) :
    ln_fee_calc_loop fi hs (c, du)
      = (u64 (c + M_FEE_COMMIT_HTLC
            * surviving_htlcs fi.dust_limit_satoshi fi.htlc_timeout fi.htlc_success hs),
         u64 (du + trimmed_dust_sum fi.dust_limit_satoshi fi.htlc_timeout fi.htlc_success hs)) := by
  induction hs generalizing c du with
  | nil => simp [ln_fee_calc_loop, surviving_htlcs, trimmed_dust_sum, u64_of_lt hc, u64_of_lt hdu]
  | cons h rest ih =>
    rw [surviving_htlcs_cons, trimmed_dust_sum_cons]
    unfold ln_fee_calc_loop
    rcases hty : h.type with _ | _ | _
    · simp only [survives, trimmed, hty]
      rw [ih c du hc hdu]; simp
    · simp only [survives, trimmed, hty, u64_of_lt hto]
      by_cases hge : LN_MSAT2SATOSHI h.amount_msat ≥ fi.dust_limit_satoshi + fi.htlc_timeout
      · rw [if_pos hge, ih _ _ (u64_lt _) hdu, u64_add_left]
        have h1 : ¬ LN_MSAT2SATOSHI h.amount_msat < fi.dust_limit_satoshi + fi.htlc_timeout := by
          omega
        simp only [decide_eq_true hge, decide_eq_false h1, if_true, Bool.false_eq_true, if_false]
        congr 2 <;> ring
      · rw [if_neg hge, ih _ _ hc (u64_lt _), u64_add_left]
        have h1 : LN_MSAT2SATOSHI h.amount_msat < fi.dust_limit_satoshi + fi.htlc_timeout := by
          omega
        have h2 : ¬ fi.dust_limit_satoshi + fi.htlc_timeout ≤ LN_MSAT2SATOSHI h.amount_msat := by
          omega
        simp only [decide_eq_true h1, decide_eq_false h2, if_true, Bool.false_eq_true, if_false]
        congr 2 <;> ring
    · simp only [survives, trimmed, hty, u64_of_lt hsu]
      by_cases hge : LN_MSAT2SATOSHI h.amount_msat ≥ fi.dust_limit_satoshi + fi.htlc_success
      · rw [if_pos hge, ih _ _ (u64_lt _) hdu, u64_add_left]
        have h1 : ¬ LN_MSAT2SATOSHI h.amount_msat < fi.dust_limit_satoshi + fi.htlc_success := by
          omega
        simp only [decide_eq_true hge, decide_eq_false h1, if_true, Bool.false_eq_true, if_false]
        congr 2 <;> ring
      · rw [if_neg hge, ih _ _ hc (u64_lt _), u64_add_left]
        have h1 : LN_MSAT2SATOSHI h.amount_msat < fi.dust_limit_satoshi + fi.htlc_success := by
          omega
        have h2 : ¬ fi.dust_limit_satoshi + fi.htlc_success ≤ LN_MSAT2SATOSHI h.amount_msat := by
          omega
        simp only [decide_eq_true h1, decide_eq_false h2, if_true, Bool.false_eq_true, if_false]
        congr 2 <;> ring

/-- With a 32-bit feerate neither HTLC fee wraps, and the timeout fee is at most the
success fee. -/
theorem htlc_fees_of_feerate {f : Nat} (hf : f < 2 ^ 32) :
    u64 (M_FEE_HTLCSUCCESS * f) / 1000 = 703 * f / 1000
      ∧ u64 (M_FEE_HTLCTIMEOUT * f) / 1000 = 663 * f / 1000
      ∧ 663 * f / 1000 ≤ 703 * f / 1000 := by
  unfold u64 M_FEE_HTLCSUCCESS M_FEE_HTLCTIMEOUT
  refine ⟨?_, ?_, ?_⟩ <;> omega

/-- The state of the loop of `ln_fee_calc` after a list, with the thresholds as the code
computes them: the weight has grown by 172 for each HTLC at or above the `uint64_t`
threshold of its direction and the dust by the amounts of those below it, both modulo
2^64. -/
theorem ln_fee_calc_loop_eq_u64 (fi : ln_feeinfo_t) (hs : List ln_htlcinfo_t) (c du : Nat)
    (hc : c < 2 ^ 64) (hdu : du < 2 ^ 64) :
    ln_fee_calc_loop fi hs (c, du)
      = (u64 (c + M_FEE_COMMIT_HTLC
            * (hs.filter (survives_u64 fi.dust_limit_satoshi fi.htlc_timeout
                fi.htlc_success)).length),
         u64 (du + ((hs.filter (trimmed_u64 fi.dust_limit_satoshi fi.htlc_timeout
                fi.htlc_success)).map (fun h => LN_MSAT2SATOSHI h.amount_msat)).sum)) := by
  induction hs generalizing c du with
  | nil => simp [ln_fee_calc_loop, u64_of_lt hc, u64_of_lt hdu]
  | cons h rest ih =>
    unfold ln_fee_calc_loop
    rcases hty : h.type with _ | _ | _
    · have hs1 : survives_u64 fi.dust_limit_satoshi fi.htlc_timeout fi.htlc_success h
          = false := by simp only [survives_u64, hty]
      have ht1 : trimmed_u64 fi.dust_limit_satoshi fi.htlc_timeout fi.htlc_success h
          = false := by simp only [trimmed_u64, hty]
      rw [List.filter_cons_of_neg (by simp [hs1]), List.filter_cons_of_neg (by simp [ht1])]
      exact ih c du hc hdu
    · by_cases hge : LN_MSAT2SATOSHI h.amount_msat
          ≥ u64 (fi.dust_limit_satoshi + fi.htlc_timeout)
      · have hs1 : survives_u64 fi.dust_limit_satoshi fi.htlc_timeout fi.htlc_success h
            = true := by simp only [survives_u64, hty]; exact decide_eq_true hge
        have ht1 : trimmed_u64 fi.dust_limit_satoshi fi.htlc_timeout fi.htlc_success h
            = false := by
          simp only [trimmed_u64, hty]; exact decide_eq_false (by omega)
        rw [List.filter_cons_of_pos hs1, List.filter_cons_of_neg (by simp [ht1])]
        simp only [hge, if_true, List.length_cons]
        rw [ih _ _ (u64_lt _) hdu, u64_add_left]
        congr 2; ring
      · have hs1 : survives_u64 fi.dust_limit_satoshi fi.htlc_timeout fi.htlc_success h
            = false := by
          simp only [survives_u64, hty]; exact decide_eq_false (by omega)
        have ht1 : trimmed_u64 fi.dust_limit_satoshi fi.htlc_timeout fi.htlc_success h
            = true := by
          simp only [trimmed_u64, hty]; exact decide_eq_true (by omega)
        rw [List.filter_cons_of_neg (by simp [hs1]), List.filter_cons_of_pos ht1]
        simp only [hge, if_false, List.map_cons, List.sum_cons]
        rw [ih _ _ hc (u64_lt _), u64_add_left]
        congr 2; ring
    · by_cases hge : LN_MSAT2SATOSHI h.amount_msat
          ≥ u64 (fi.dust_limit_satoshi + fi.htlc_success)
      · have hs1 : survives_u64 fi.dust_limit_satoshi fi.htlc_timeout fi.htlc_success h
            = true := by simp only [survives_u64, hty]; exact decide_eq_true hge
        have ht1 : trimmed_u64 fi.dust_limit_satoshi fi.htlc_timeout fi.htlc_success h
            = false := by
          simp only [trimmed_u64, hty]; exact decide_eq_false (by omega)
        rw [List.filter_cons_of_pos hs1, List.filter_cons_of_neg (by simp [ht1])]
        simp only [hge, if_true, List.length_cons]
        rw [ih _ _ (u64_lt _) hdu, u64_add_left]
        congr 2; ring
      · have hs1 : survives_u64 fi.dust_limit_satoshi fi.htlc_timeout fi.htlc_success h
            = false := by
          simp only [survives_u64, hty]; exact decide_eq_false (by omega)
        have ht1 : trimmed_u64 fi.dust_limit_satoshi fi.htlc_timeout fi.htlc_success h
            = true := by
          simp only [trimmed_u64, hty]; exact decide_eq_true (by omega)
        rw [List.filter_cons_of_neg (by simp [hs1]), List.filter_cons_of_pos ht1]
        simp only [hge, if_false, List.map_cons, List.sum_cons]
        rw [ih _ _ hc (u64_lt _), u64_add_left]
        congr 2; ring

/-- C3. For a feerate `f` that fits its `uint32_t` field, every dust limit `d` and every
HTLC list, `ln_fee_calc` stores `htlc_timeout = 663 * f / 1000` and
`htlc_success = 703 * f / 1000`, and treats as trimmed exactly the offered HTLCs of the
list with `amount_sat < d + htlc_timeout` and the received ones with
`amount_sat < d + htlc_success`, the sums being the `uint64_t` sums of the code: the
stored commit fee carries the weight 172 for each of the other offered and received
HTLCs and for no trimmed one, and the returned number is that fee plus the sum of
`amount_sat` over the trimmed HTLCs. When `d + htlc_success` stays below 2^64 the
`uint64_t` sums are the plain sums. -/
theorem ln_fee_calc_trim_rule (E : Env) (fi : ln_feeinfo_t) (hs : List ln_htlcinfo_t)
    (hf : fi.feerate_per_kw < 2 ^ 32) :
    (ln_fee_calc E fi hs).1.htlc_timeout = 663 * fi.feerate_per_kw / 1000
    ∧ (ln_fee_calc E fi hs).1.htlc_success = 703 * fi.feerate_per_kw / 1000
    ∧ (ln_fee_calc E fi hs).1.commit
      = u64 ((E.LN_FEE_COMMIT_BASE + 172
            * (hs.filter (survives_u64 fi.dust_limit_satoshi
                (663 * fi.feerate_per_kw / 1000) (703 * fi.feerate_per_kw / 1000))).length)
          * fi.feerate_per_kw) / 1000
    ∧ (ln_fee_calc E fi hs).2
      = u64 ((ln_fee_calc E fi hs).1.commit
          + ((hs.filter (trimmed_u64 fi.dust_limit_satoshi
                (663 * fi.feerate_per_kw / 1000) (703 * fi.feerate_per_kw / 1000))).map
              (fun h => LN_MSAT2SATOSHI h.amount_msat)).sum)
    ∧ (fi.dust_limit_satoshi + 703 * fi.feerate_per_kw / 1000 < 2 ^ 64 →
        ∀ h, trimmed_u64 fi.dust_limit_satoshi (663 * fi.feerate_per_kw / 1000)
              (703 * fi.feerate_per_kw / 1000) h
            = trimmed fi.dust_limit_satoshi (663 * fi.feerate_per_kw / 1000)
              (703 * fi.feerate_per_kw / 1000) h
          ∧ survives_u64 fi.dust_limit_satoshi (663 * fi.feerate_per_kw / 1000)
              (703 * fi.feerate_per_kw / 1000) h
            = survives fi.dust_limit_satoshi (663 * fi.feerate_per_kw / 1000)
              (703 * fi.feerate_per_kw / 1000) h) := by
  obtain ⟨hsu, hto, hle⟩ := htlc_fees_of_feerate hf
  have e1 : (ln_fee_calc E fi hs).1.htlc_timeout = 663 * fi.feerate_per_kw / 1000 := by
    simp only [ln_fee_calc, hto]
  have e2 : (ln_fee_calc E fi hs).1.htlc_success = 703 * fi.feerate_per_kw / 1000 := by
    simp only [ln_fee_calc, hsu]
  have e3 : (ln_fee_calc E fi hs).1.commit
      = u64 ((E.LN_FEE_COMMIT_BASE + 172
            * (hs.filter (survives_u64 fi.dust_limit_satoshi
                (663 * fi.feerate_per_kw / 1000) (703 * fi.feerate_per_kw / 1000))).length)
          * fi.feerate_per_kw) / 1000 := by
    simp only [ln_fee_calc]
    rw [ln_fee_calc_loop_eq_u64 _ _ _ _ (u64_lt _) (by norm_num)]
    simp only [hto, hsu, M_FEE_COMMIT_HTLC, u64_add_left, u64_mul_left]
  refine ⟨e1, e2, e3, ?_, ?_⟩
  · rw [e3]
    simp only [ln_fee_calc]
    rw [ln_fee_calc_loop_eq_u64 _ _ _ _ (u64_lt _) (by norm_num)]
    simp only [hto, hsu, M_FEE_COMMIT_HTLC, u64_add_left, u64_mul_left, Nat.zero_add]
    rw [Nat.add_comm, u64_add_left, Nat.add_comm]
  · intro hd h
    have w1 : u64 (fi.dust_limit_satoshi + 663 * fi.feerate_per_kw / 1000)
        = fi.dust_limit_satoshi + 663 * fi.feerate_per_kw / 1000 := u64_of_lt (by omega)
    have w2 : u64 (fi.dust_limit_satoshi + 703 * fi.feerate_per_kw / 1000)
        = fi.dust_limit_satoshi + 703 * fi.feerate_per_kw / 1000 := u64_of_lt hd
    simp only [trimmed_u64, trimmed, survives_u64, survives, w1, w2, and_self]

/-- C3 at feerate 253 and dust limit 546, on an offered HTLC of 1000 satoshi (kept:
`1000 >= 546 + 167`), an offered one of 600 and a received one of 700 (both trimmed:
`600 < 713`, `700 < 546 + 177`): the stored fees are 167 and 177, the commit fee is
`(724 + 172) * 253 / 1000 = 226` and the returned number is `226 + 600 + 700`. -/
theorem ln_fee_calc_trim_rule_witness :
    (feeinfo_in 253 546).feerate_per_kw < 2 ^ 32
    ∧ (ln_fee_calc env0 (feeinfo_in 253 546)
        [offered_htlc 1000000, offered_htlc 600000, received_htlc 700000]).1.htlc_timeout = 167
    ∧ (ln_fee_calc env0 (feeinfo_in 253 546)
        [offered_htlc 1000000, offered_htlc 600000, received_htlc 700000]).1.htlc_success = 177
    ∧ (ln_fee_calc env0 (feeinfo_in 253 546)
        [offered_htlc 1000000, offered_htlc 600000, received_htlc 700000]).1.commit = 226
    ∧ (ln_fee_calc env0 (feeinfo_in 253 546)
        [offered_htlc 1000000, offered_htlc 600000, received_htlc 700000]).2 = 226 + 1300 :=
  ⟨by decide,
    (ln_fee_calc_trim_rule env0 (feeinfo_in 253 546)
      [offered_htlc 1000000, offered_htlc 600000, received_htlc 700000]
      (by decide)).1.trans (by decide),
    (ln_fee_calc_trim_rule env0 (feeinfo_in 253 546)
      [offered_htlc 1000000, offered_htlc 600000, received_htlc 700000]
      (by decide)).2.1.trans (by decide),
    (ln_fee_calc_trim_rule env0 (feeinfo_in 253 546)
      [offered_htlc 1000000, offered_htlc 600000, received_htlc 700000]
      (by decide)).2.2.1.trans (by decide),
    (ln_fee_calc_trim_rule env0 (feeinfo_in 253 546)
      [offered_htlc 1000000, offered_htlc 600000, received_htlc 700000]
      (by decide)).2.2.2.1.trans (by decide)⟩

/-- C4. For a 32-bit feerate `f`, with no wrap-around of the thresholds or of the weight
times the feerate, `ln_fee_calc` sets the commit fee to
`(base_weight + 172 * k) * f / 1000`, `k` being the number of surviving HTLCs. -/
theorem ln_fee_calc_commit_fee (E : Env) (fi : ln_feeinfo_t) (hs : List ln_htlcinfo_t)
    (hf : fi.feerate_per_kw < 2 ^ 32)
    (hd : fi.dust_limit_satoshi + 703 * fi.feerate_per_kw / 1000 < 2 ^ 64)
    (hw : (E.LN_FEE_COMMIT_BASE + 172 * surviving_htlcs fi.dust_limit_satoshi
            (663 * fi.feerate_per_kw / 1000) (703 * fi.feerate_per_kw / 1000) hs)
          * fi.feerate_per_kw < 2 ^ 64) :
    (ln_fee_calc E fi hs).1.commit
      = (E.LN_FEE_COMMIT_BASE + 172 * surviving_htlcs fi.dust_limit_satoshi
            (663 * fi.feerate_per_kw / 1000) (703 * fi.feerate_per_kw / 1000) hs)
          * fi.feerate_per_kw / 1000 := by
  obtain ⟨hsu, hto, hle⟩ := htlc_fees_of_feerate hf
  simp only [ln_fee_calc]
  rw [ln_fee_calc_loop_eq _ _ _ _ (u64_lt _) (by norm_num)
        (by simp only [hto]; omega) (by simp only [hsu]; omega)]
  simp only [hto, hsu, M_FEE_COMMIT_HTLC, u64_add_left, u64_mul_left]
  rw [u64_of_lt hw]

/-- C4 at feerate 253 and dust limit 546 with one surviving and one trimmed HTLC: the
commit fee is `(724 + 172) * 253 / 1000 = 226`. -/
theorem ln_fee_calc_commit_fee_witness :
    ((feeinfo_in 253 546).feerate_per_kw < 2 ^ 32
      ∧ (feeinfo_in 253 546).dust_limit_satoshi
          + 703 * (feeinfo_in 253 546).feerate_per_kw / 1000 < 2 ^ 64
      ∧ (env0.LN_FEE_COMMIT_BASE + 172 * surviving_htlcs 546 167 177
            [offered_htlc 1000000, received_htlc 600000]) * 253 < 2 ^ 64)
    ∧ (ln_fee_calc env0 (feeinfo_in 253 546)
        [offered_htlc 1000000, received_htlc 600000]).1.commit = 226 :=
  ⟨⟨by decide, by decide, by decide⟩,
    (ln_fee_calc_commit_fee env0 (feeinfo_in 253 546)
      [offered_htlc 1000000, received_htlc 600000] (by decide) (by decide)
      (by decide)).trans (by decide)⟩

/-- C5, as the code has it. `ln_fee_calc` returns one number, the commit fee it stored in
the fee info plus the sum of `amount_sat` over the trimmed HTLCs, in `uint64_t`
arithmetic. -/
theorem ln_fee_calc_returns_sum (E : Env) (fi : ln_feeinfo_t) (hs : List ln_htlcinfo_t)
    (hf : fi.feerate_per_kw < 2 ^ 32)
    (hd : fi.dust_limit_satoshi + 703 * fi.feerate_per_kw / 1000 < 2 ^ 64) :
    (ln_fee_calc E fi hs).2
      = u64 ((ln_fee_calc E fi hs).1.commit
          + trimmed_dust_sum fi.dust_limit_satoshi
              (663 * fi.feerate_per_kw / 1000) (703 * fi.feerate_per_kw / 1000) hs) := by
  obtain ⟨hsu, hto, hle⟩ := htlc_fees_of_feerate hf
  simp only [ln_fee_calc]
  rw [ln_fee_calc_loop_eq _ _ _ _ (u64_lt _) (by norm_num)
        (by simp only [hto]; omega) (by simp only [hsu]; omega)]
  simp only [hto, hsu, Nat.zero_add]
  rw [Nat.add_comm, u64_add_left, Nat.add_comm]

/-- C5 at feerate 253 and dust limit 546 with one surviving and one trimmed HTLC: the
returned number is `226 + 600`. -/
theorem ln_fee_calc_returns_sum_witness :
    ((feeinfo_in 253 546).feerate_per_kw < 2 ^ 32
      ∧ (feeinfo_in 253 546).dust_limit_satoshi
          + 703 * (feeinfo_in 253 546).feerate_per_kw / 1000 < 2 ^ 64)
    ∧ (ln_fee_calc env0 (feeinfo_in 253 546)
        [offered_htlc 1000000, received_htlc 600000]).2 = 826 :=
  ⟨⟨by decide, by decide⟩,
    (ln_fee_calc_returns_sum env0 (feeinfo_in 253 546)
      [offered_htlc 1000000, received_htlc 600000] (by decide) (by decide)).trans (by decide)⟩

/-- C5, the claim refuted. The returned number is not a pair: a feerate of 0 with one
trimmed HTLC of 183 satoshi and a feerate of 253 with no HTLC both return 183, the first
with commit fee 0 and dust 183, the second with commit fee 183 and dust 0, so no reading of
the returned number gives the commit fee and the dust sum as separate components. -/
theorem ln_fee_calc_return_not_pair :
    (ln_fee_calc env0 (feeinfo_in 0 546) [offered_htlc 183000]).2 = 183
    ∧ (ln_fee_calc env0 (feeinfo_in 253 546) []).2 = 183
    ∧ ((ln_fee_calc env0 (feeinfo_in 0 546) [offered_htlc 183000]).1.commit,
        trimmed_dust_sum 546 0 0 [offered_htlc 183000]) = (0, 183)
    ∧ ((ln_fee_calc env0 (feeinfo_in 253 546) []).1.commit,
        trimmed_dust_sum 546 167 177 []) = (183, 0)
    ∧ ¬ ∃ unpair : Nat → Nat × Nat,
        unpair (ln_fee_calc env0 (feeinfo_in 0 546) [offered_htlc 183000]).2
          = ((ln_fee_calc env0 (feeinfo_in 0 546) [offered_htlc 183000]).1.commit,
              trimmed_dust_sum 546 0 0 [offered_htlc 183000])
        ∧ unpair (ln_fee_calc env0 (feeinfo_in 253 546) []).2
          = ((ln_fee_calc env0 (feeinfo_in 253 546) []).1.commit,
              trimmed_dust_sum 546 167 177 []) := by
  have r1 : (ln_fee_calc env0 (feeinfo_in 0 546) [offered_htlc 183000]).2 = 183 := by decide
  have r2 : (ln_fee_calc env0 (feeinfo_in 253 546) []).2 = 183 := by decide
  have p1 : ((ln_fee_calc env0 (feeinfo_in 0 546) [offered_htlc 183000]).1.commit,
      trimmed_dust_sum 546 0 0 [offered_htlc 183000]) = (0, 183) := by decide
  have p2 : ((ln_fee_calc env0 (feeinfo_in 253 546) []).1.commit,
      trimmed_dust_sum 546 167 177 []) = (183, 0) := by decide
  refine ⟨r1, r2, p1, p2, ?_⟩
  rintro ⟨unpair, h1, h2⟩
  rw [r1, p1] at h1
  rw [r2, p2] at h2
  have h := h1.symm.trans h2
  exact absurd h (by decide)

/-! ## The outputs of the commitment transaction -/

theorem modify_length_append_singleton {α : Type} (f : α → α) (l : List α) (x : α) :
    (l ++ [x]).modify f ((l ++ [x]).length - 1) = l ++ [f x] := by
  have e : (l ++ [x]).length - 1 = l.length := by simp
  rw [e]
  induction l with
  | nil => simp
  | cons a t ih => simp [List.modify_succ_cons, ih]

theorem add_vout_p2wsh_set_opt (E : Env) (tx : ucoin_tx_t) (value : Nat) (wscript : Bytes)
    (tag : Nat) :
    vout_set_opt (ucoin_sw_add_vout_p2wsh E tx value wscript)
        ((ucoin_sw_add_vout_p2wsh E tx value wscript).vout.length - 1) tag
      = { tx with vout := tx.vout ++ [p2wsh_vout E value wscript tag] } := by
  simp only [vout_set_opt, ucoin_sw_add_vout_p2wsh, modify_length_append_singleton, p2wsh_vout]

theorem add_vout_p2wpkh_set_opt (E : Env) (tx : ucoin_tx_t) (value : Nat) (pubkey : Bytes)
    (tag : Nat) :
    vout_set_opt (ucoin_sw_add_vout_p2wpkh_pub E tx value pubkey)
        ((ucoin_sw_add_vout_p2wpkh_pub E tx value pubkey).vout.length - 1) tag
      = { tx with vout := tx.vout ++ [p2wpkh_vout E value pubkey tag] } := by
  simp only [vout_set_opt, ucoin_sw_add_vout_p2wpkh_pub, modify_length_append_singleton,
    p2wpkh_vout]

/-- The HTLC loop appends outputs and touches nothing else: entered at index `lp`, it adds
one tagged P2WSH output for each HTLC at or above the threshold the code computes. -/
theorem ln_create_commit_tx_htlcs_eq (E : Env) (fi : ln_feeinfo_t) (hs : List ln_htlcinfo_t)
    (lp : Nat) (tx : ucoin_tx_t) :
    ln_create_commit_tx_htlcs E fi hs lp tx
      = { tx with vout := tx.vout ++ htlc_outputs_from E fi hs lp } := by
  induction hs generalizing lp tx with
  | nil => simp [ln_create_commit_tx_htlcs, htlc_outputs_from]
  | cons h rest ih =>
    unfold ln_create_commit_tx_htlcs
    by_cases hge : LN_MSAT2SATOSHI h.amount_msat
        ≥ u64 (fi.dust_limit_satoshi + ln_create_commit_tx_htlc_fee fi h)
    · simp only [hge, if_true, add_vout_p2wsh_set_opt, ih, htlc_outputs_from, List.enumFrom_cons,
        List.filter_cons, decide_True, List.map_cons, List.append_assoc, List.singleton_append]
    · simp only [hge, if_false, ih, htlc_outputs_from, List.enumFrom_cons, List.filter_cons,
        decide_False, Bool.false_eq_true]

/-- For directed HTLCs and thresholds that do not wrap, the threshold test of the HTLC
loop is the survival test of the specification. -/
theorem htlc_threshold_iff_survives (fi : ln_feeinfo_t) (h : ln_htlcinfo_t)
    (hty : h.type = LN_HTLCTYPE_OFFERED ∨ h.type = LN_HTLCTYPE_RECEIVED)
    (hto : fi.dust_limit_satoshi + fi.htlc_timeout < 2 ^ 64)
    (hsu : fi.dust_limit_satoshi + fi.htlc_success < 2 ^ 64) :
    decide (LN_MSAT2SATOSHI h.amount_msat
        ≥ u64 (fi.dust_limit_satoshi + ln_create_commit_tx_htlc_fee fi h))
      = survives fi.dust_limit_satoshi fi.htlc_timeout fi.htlc_success h := by
  rcases hty with hty | hty
  · simp only [ln_create_commit_tx_htlc_fee, survives, hty, u64_of_lt hto, ge_iff_le]
  · simp only [ln_create_commit_tx_htlc_fee, survives, hty, u64_of_lt hsu, ge_iff_le]

theorem ln_create_commit_tx_htlcs_directed (E : Env) (fi : ln_feeinfo_t)
    (hs : List ln_htlcinfo_t) (tx : ucoin_tx_t) (hdir : htlcs_directed hs)
    (hto : fi.dust_limit_satoshi + fi.htlc_timeout < 2 ^ 64)
    (hsu : fi.dust_limit_satoshi + fi.htlc_success < 2 ^ 64) :
    ln_create_commit_tx_htlcs E fi hs 0 tx
      = { tx with vout := tx.vout
            ++ htlc_outputs E fi.dust_limit_satoshi fi.htlc_timeout fi.htlc_success hs } := by
  rw [ln_create_commit_tx_htlcs_eq, htlc_outputs, htlc_outputs_from, List.enum]
  congr 3
  apply List.filter_congr
  intro p hp
  have hmem : p.2 ∈ hs := List.snd_mem_of_mem_enumFrom hp
  exact htlc_threshold_iff_survives fi p.2 (hdir p.2 hmem) hto hsu

theorem ln_create_commit_tx_remote_eq (E : Env) (tx : ucoin_tx_t) (pCmt : ln_tx_cmt_t)
    (Local : Bool) (hr : cmt_in_range pCmt) :
    ln_create_commit_tx_remote E tx pCmt Local
      = { tx with vout := tx.vout ++ to_remote_outputs E pCmt Local } := by
  obtain ⟨h1, h2, h3⟩ := hr
  have hfee : pCmt.p_feeinfo.dust_limit_satoshi + fee_remote pCmt Local < 2 ^ 64 := by
    unfold fee_remote; split <;> omega
  unfold ln_create_commit_tx_remote to_remote_outputs
  rw [u64_of_lt hfee]
  by_cases hge : pCmt.remote.satoshi ≥ pCmt.p_feeinfo.dust_limit_satoshi + fee_remote pCmt Local
  · have hle : pCmt.p_feeinfo.dust_limit_satoshi + fee_remote pCmt Local ≤ pCmt.remote.satoshi :=
      hge
    simp only [hge, hle, if_true, add_vout_p2wpkh_set_opt]
    rw [u64_sub_of_le h1 (by omega)]
  · have hle : ¬ pCmt.p_feeinfo.dust_limit_satoshi + fee_remote pCmt Local
        ≤ pCmt.remote.satoshi := hge
    simp only [hge, hle, if_false, List.append_nil]

theorem ln_create_commit_tx_local_eq (E : Env) (tx : ucoin_tx_t) (pCmt : ln_tx_cmt_t)
    (Local : Bool) (hr : cmt_in_range pCmt) :
    ln_create_commit_tx_local E tx pCmt Local
      = { tx with vout := tx.vout ++ to_local_outputs E pCmt Local } := by
  obtain ⟨h1, h2, h3⟩ := hr
  have hfee : pCmt.p_feeinfo.dust_limit_satoshi + fee_local pCmt Local < 2 ^ 64 := by
    unfold fee_local; split <;> omega
  unfold ln_create_commit_tx_local to_local_outputs
  rw [u64_of_lt hfee]
  by_cases hge : pCmt.local_.satoshi ≥ pCmt.p_feeinfo.dust_limit_satoshi + fee_local pCmt Local
  · have hle : pCmt.p_feeinfo.dust_limit_satoshi + fee_local pCmt Local ≤ pCmt.local_.satoshi :=
      hge
    simp only [hge, hle, if_true, add_vout_p2wsh_set_opt]
    rw [u64_sub_of_le h2 (by omega)]
  · have hle : ¬ pCmt.p_feeinfo.dust_limit_satoshi + fee_local pCmt Local
        ≤ pCmt.local_.satoshi := hge
    simp only [hge, hle, if_false, List.append_nil]

/-- The output part of `ln_create_commit_tx` appends the to-remote output, the to-local
output and the outputs of the HTLC loop, in this order, and touches nothing else. -/
theorem ln_create_commit_tx_outputs_eq (E : Env) (tx : ucoin_tx_t) (pCmt : ln_tx_cmt_t)
    (Local : Bool) (hr : cmt_in_range pCmt) :
    ln_create_commit_tx_outputs E tx pCmt Local
      = { tx with vout := tx.vout ++ (to_remote_outputs E pCmt Local
            ++ to_local_outputs E pCmt Local
            ++ htlc_outputs_from E pCmt.p_feeinfo pCmt.pp_htlcinfo 0) } := by
  unfold ln_create_commit_tx_outputs
  rw [ln_create_commit_tx_remote_eq E tx pCmt Local hr, ln_create_commit_tx_local_eq E _ pCmt Local hr,
    ln_create_commit_tx_htlcs_eq]
  simp only [List.append_assoc]

/-- The outputs of the finished transaction are the BIP-69 sort of the appended ones. -/
theorem ln_create_commit_tx_vout (E : Env) (tx : ucoin_tx_t) (pCmt : ln_tx_cmt_t)
    (Local : Bool) :
    (ln_create_commit_tx E tx pCmt Local).1.vout
      = (ln_create_commit_tx_outputs E tx pCmt Local).vout.insertionSort
          (fun a b => vout_le a b = true) := by
  simp only [ln_create_commit_tx, ucoin_util_sort_bip69, ln_create_commit_tx_input,
    vin_set_sequence, ucoin_tx_add_vin]

/-- C1. Starting from an empty transaction, for a commit context in the `uint64_t` range,
the outputs `ln_create_commit_tx` appends are first the to-remote P2WPKH output, exactly
when `remote.satoshi >= dust_limit_satoshi + fee_remote`, of value
`remote.satoshi - fee_remote` and tagged to-remote, then the to-local P2WSH output, exactly
when `local.satoshi >= dust_limit_satoshi + fee_local`, of value `local.satoshi - fee_local`
and tagged to-local, then what the HTLC loop adds; `(fee_local, fee_remote)` is
`(commit, 0)` when `Local` and `(0, commit)` otherwise; the finished transaction holds
these outputs BIP-69 sorted. -/
theorem ln_create_commit_tx_balance_outputs (E : Env) (pCmt : ln_tx_cmt_t) (Local : Bool)
    (hr : cmt_in_range pCmt) :
    (ln_create_commit_tx_outputs E ucoin_tx_empty pCmt Local).vout
      = (if pCmt.p_feeinfo.dust_limit_satoshi + fee_remote pCmt Local ≤ pCmt.remote.satoshi
          then [p2wpkh_vout E (pCmt.remote.satoshi - fee_remote pCmt Local) pCmt.remote.pubkey
                  E.VOUT_OPT_TOREMOTE]
          else [])
        ++ (if pCmt.p_feeinfo.dust_limit_satoshi + fee_local pCmt Local ≤ pCmt.local_.satoshi
          then [p2wsh_vout E (pCmt.local_.satoshi - fee_local pCmt Local) pCmt.local_.p_script
                  E.VOUT_OPT_TOLOCAL]
          else [])
        ++ (ln_create_commit_tx_htlcs E pCmt.p_feeinfo pCmt.pp_htlcinfo 0 ucoin_tx_empty).vout
    ∧ (fee_local pCmt Local, fee_remote pCmt Local)
        = (if Local then (pCmt.p_feeinfo.commit, 0) else (0, pCmt.p_feeinfo.commit))
    ∧ (ln_create_commit_tx E ucoin_tx_empty pCmt Local).1.vout
        = (ln_create_commit_tx_outputs E ucoin_tx_empty pCmt Local).vout.insertionSort
            (fun a b => vout_le a b = true) := by
  refine ⟨?_, ?_, ln_create_commit_tx_vout E ucoin_tx_empty pCmt Local⟩
  · rw [ln_create_commit_tx_outputs_eq E _ pCmt Local hr, ln_create_commit_tx_htlcs_eq]
    simp only [ucoin_tx_empty, List.nil_append, to_remote_outputs, to_local_outputs]
  · cases Local <;> simp [fee_local, fee_remote]

/-- C1 at scenario S3, local view: both outputs are appended, to-remote first. -/
theorem ln_create_commit_tx_balance_outputs_witness :
    cmt_in_range cmt_s3
    ∧ (ln_create_commit_tx_outputs env0 ucoin_tx_empty cmt_s3 true).vout.map
        (fun o => (o.value, o.opt)) = [(300000, 0xff), (499774, 0xfe), (1000, 0)] := by
  have hr : cmt_in_range cmt_s3 := by decide
  refine ⟨hr, ?_⟩
  rw [(ln_create_commit_tx_balance_outputs env0 cmt_s3 true hr).1]
  decide

/-- C2, as the code has it. For a commit context and HTLC thresholds in the `uint64_t`
range and HTLCs that are offered or received, the outputs `ln_create_commit_tx` appends after the two balance
outputs are, in list order, one P2WSH output of value `amount_sat` on the HTLC's witness
script for exactly the surviving HTLCs (offered: `amount_sat >= dust_limit + htlc_timeout`;
received: `amount_sat >= dust_limit + htlc_success`); and when the fee info is the one
`ln_fee_calc` fills at feerate 253 and dust limit 546, both balance outputs exist and the
list is a single offered HTLC of 1000 satoshi, the HTLC survives (`1000 >= 546 + 167`) and
the commitment has exactly three outputs. -/
theorem ln_create_commit_tx_htlc_outputs (E : Env) (pCmt : ln_tx_cmt_t) (Local : Bool)
    (hr : cmt_in_range pCmt) (hh : htlc_fees_in_range pCmt.p_feeinfo)
    (hdir : htlcs_directed pCmt.pp_htlcinfo) :
    (ln_create_commit_tx_outputs E ucoin_tx_empty pCmt Local).vout
      = to_remote_outputs E pCmt Local ++ to_local_outputs E pCmt Local
        ++ htlc_outputs E pCmt.p_feeinfo.dust_limit_satoshi pCmt.p_feeinfo.htlc_timeout
            pCmt.p_feeinfo.htlc_success pCmt.pp_htlcinfo
    ∧ (pCmt.p_feeinfo = (ln_fee_calc E (feeinfo_in 253 546) pCmt.pp_htlcinfo).1 →
       to_remote_outputs E pCmt Local ≠ [] → to_local_outputs E pCmt Local ≠ [] →
       (∃ h, pCmt.pp_htlcinfo = [h] ∧ h.type = LN_HTLCTYPE_OFFERED
          ∧ LN_MSAT2SATOSHI h.amount_msat = 1000) →
       (ln_create_commit_tx E ucoin_tx_empty pCmt Local).1.vout.length = 3) := by
  have hout : (ln_create_commit_tx_outputs E ucoin_tx_empty pCmt Local).vout
      = to_remote_outputs E pCmt Local ++ to_local_outputs E pCmt Local
        ++ htlc_outputs E pCmt.p_feeinfo.dust_limit_satoshi pCmt.p_feeinfo.htlc_timeout
            pCmt.p_feeinfo.htlc_success pCmt.pp_htlcinfo := by
    unfold ln_create_commit_tx_outputs
    rw [ln_create_commit_tx_remote_eq E _ pCmt Local hr,
      ln_create_commit_tx_local_eq E _ pCmt Local hr,
      ln_create_commit_tx_htlcs_directed E _ _ _ hdir hh.1 hh.2]
    simp only [ucoin_tx_empty, List.nil_append]
  refine ⟨hout, ?_⟩
  intro hfee hrem hloc hex
  obtain ⟨h, hlist, hty, hamt⟩ := hex
  rw [ln_create_commit_tx_vout, List.length_insertionSort, hout, hlist]
  have e1 : (to_remote_outputs E pCmt Local).length = 1 := by
    unfold to_remote_outputs at hrem ⊢
    split <;> simp_all
  have e2 : (to_local_outputs E pCmt Local).length = 1 := by
    unfold to_local_outputs at hloc ⊢
    split <;> simp_all
  have e3 : survives pCmt.p_feeinfo.dust_limit_satoshi pCmt.p_feeinfo.htlc_timeout
      pCmt.p_feeinfo.htlc_success h = true := by
    have t : pCmt.p_feeinfo.htlc_timeout = 167 := by
      rw [hfee]; simp only [ln_fee_calc, feeinfo_in]; decide
    have d : pCmt.p_feeinfo.dust_limit_satoshi = 546 := by
      rw [hfee]; simp only [ln_fee_calc, feeinfo_in]
    simp only [survives, hty, hamt, t, d]
    decide
  simp only [List.length_append, e1, e2, htlc_outputs, List.enum, List.enumFrom_cons,
    List.enumFrom_nil, List.filter_cons, e3, if_true, List.filter_nil, List.map_cons,
    List.map_nil, List.length_cons, List.length_nil]

/-- C2 at scenario S3: the context is in range, its HTLC is offered, and the finished
commitment has three outputs. -/
theorem ln_create_commit_tx_htlc_outputs_witness :
    (cmt_in_range cmt_s3 ∧ htlc_fees_in_range cmt_s3.p_feeinfo
      ∧ htlcs_directed cmt_s3.pp_htlcinfo)
    ∧ (ln_create_commit_tx env0 ucoin_tx_empty cmt_s3 true).1.vout.length = 3 := by
  have hr : cmt_in_range cmt_s3 := by decide
  have hh : htlc_fees_in_range cmt_s3.p_feeinfo := by decide
  have hdir : htlcs_directed cmt_s3.pp_htlcinfo := by decide
  exact ⟨⟨hr, hh, hdir⟩, (ln_create_commit_tx_htlc_outputs env0 cmt_s3 true hr hh hdir).2 rfl
    (by decide) (by decide) ⟨offered_htlc 1000000, rfl, rfl, by decide⟩⟩

/-- C2, the claim refuted at scenario S3. With dust limit 546 and feerate 253 the
HTLC-timeout fee is 167, an offered HTLC of 1000 satoshi is not below 546 + 167 = 713, and
the commitment built by `ln_create_commit_tx` has three outputs, not two: the HTLC output
of 1000 satoshi, the to-remote and the to-local output. -/
theorem ln_create_commit_tx_s3_three_outputs :
    cmt_s3.p_feeinfo.feerate_per_kw = 253 ∧ cmt_s3.p_feeinfo.dust_limit_satoshi = 546
    ∧ cmt_s3.p_feeinfo.htlc_timeout = 167
    ∧ cmt_s3.pp_htlcinfo.map (fun h => (h.type, LN_MSAT2SATOSHI h.amount_msat))
        = [(LN_HTLCTYPE_OFFERED, 1000)]
    ∧ (ln_create_commit_tx env0 ucoin_tx_empty cmt_s3 true).1.vout.map
        (fun o => (o.value, o.opt)) = [(1000, 0), (300000, 0xff), (499774, 0xfe)]
    ∧ (ln_create_commit_tx env0 ucoin_tx_empty cmt_s3 true).1.vout.length ≠ 2 := by
  decide

/-- At a 32-bit feerate with thresholds that do not wrap, `ln_fee_calc` trims a directed
HTLC exactly when the specification calls it trimmed. -/
theorem fee_calc_trims_iff (E : Env) (f d : Nat) (h : ln_htlcinfo_t)
    (hty : h.type = LN_HTLCTYPE_OFFERED ∨ h.type = LN_HTLCTYPE_RECEIVED)
    (hf : f < 2 ^ 32) (hd : d + 703 * f / 1000 < 2 ^ 64) :
    fee_calc_trims E f d h ↔ trimmed d (663 * f / 1000) (703 * f / 1000) h = true := by
  obtain ⟨hsu, hto, hle⟩ := htlc_fees_of_feerate hf
  have w1 : u64 (d + 663 * f / 1000) = d + 663 * f / 1000 := u64_of_lt (by omega)
  have w2 : u64 (d + 703 * f / 1000) = d + 703 * f / 1000 := u64_of_lt hd
  have hb := u64_lt E.LN_FEE_COMMIT_BASE
  have hne : u64 (u64 E.LN_FEE_COMMIT_BASE + M_FEE_COMMIT_HTLC) ≠ u64 E.LN_FEE_COMMIT_BASE := by
    generalize u64 E.LN_FEE_COMMIT_BASE = b at hb
    unfold u64 M_FEE_COMMIT_HTLC
    omega
  unfold fee_calc_trims
  rcases hty with hty | hty
  · simp only [ln_fee_calc, feeinfo_in, ln_fee_calc_loop, hty, hto, hsu, w1, trimmed]
    by_cases hge : LN_MSAT2SATOSHI h.amount_msat ≥ d + 663 * f / 1000
    · have hlt : ¬ LN_MSAT2SATOSHI h.amount_msat < d + 663 * f / 1000 := by omega
      simp [hge, hlt, hne]
    · have hlt : LN_MSAT2SATOSHI h.amount_msat < d + 663 * f / 1000 := by omega
      simp [hge, hlt]
  · simp only [ln_fee_calc, feeinfo_in, ln_fee_calc_loop, hty, hto, hsu, w2, trimmed]
    by_cases hge : LN_MSAT2SATOSHI h.amount_msat ≥ d + 703 * f / 1000
    · have hlt : ¬ LN_MSAT2SATOSHI h.amount_msat < d + 703 * f / 1000 := by omega
      simp [hge, hlt, hne]
    · have hlt : LN_MSAT2SATOSHI h.amount_msat < d + 703 * f / 1000 := by omega
      simp [hge, hlt]

/-- At a 32-bit feerate with thresholds that do not wrap, `ln_create_commit_tx` leaves a
directed HTLC without output exactly when the specification calls it trimmed. -/
theorem commit_tx_trims_iff (E : Env) (f d : Nat) (h : ln_htlcinfo_t)
    (hty : h.type = LN_HTLCTYPE_OFFERED ∨ h.type = LN_HTLCTYPE_RECEIVED)
    (hf : f < 2 ^ 32) (hd : d + 703 * f / 1000 < 2 ^ 64) :
    commit_tx_trims E f d h ↔ trimmed d (663 * f / 1000) (703 * f / 1000) h = true := by
  obtain ⟨hsu, hto, hle⟩ := htlc_fees_of_feerate hf
  have e1 : (ln_fee_calc E (feeinfo_in f d) [h]).1.dust_limit_satoshi = d := by
    simp only [ln_fee_calc, feeinfo_in]
  have e2 : (ln_fee_calc E (feeinfo_in f d) [h]).1.htlc_timeout = 663 * f / 1000 := by
    simp only [ln_fee_calc, feeinfo_in, hto]
  have e3 : (ln_fee_calc E (feeinfo_in f d) [h]).1.htlc_success = 703 * f / 1000 := by
    simp only [ln_fee_calc, feeinfo_in, hsu]
  have key := (htlc_threshold_iff_survives (ln_fee_calc E (feeinfo_in f d) [h]).1 h hty
    (by rw [e1, e2]; omega) (by rw [e1, e3]; exact hd)).trans
      (show survives _ _ _ h = survives d (663 * f / 1000) (703 * f / 1000) h by
        rw [e1, e2, e3])
  unfold commit_tx_trims
  rw [ln_create_commit_tx_htlcs_eq]
  simp only [htlc_outputs_from, ucoin_tx_empty, List.nil_append, List.enumFrom_cons,
    List.enumFrom_nil, List.filter_cons, List.filter_nil, key]
  rcases hty with hty | hty
  · simp only [survives, trimmed, hty]
    by_cases hge : d + 663 * f / 1000 ≤ LN_MSAT2SATOSHI h.amount_msat
    · have hlt : ¬ LN_MSAT2SATOSHI h.amount_msat < d + 663 * f / 1000 := by omega
      simp [hge, hlt]
    · have hlt : LN_MSAT2SATOSHI h.amount_msat < d + 663 * f / 1000 := by omega
      simp [hge, hlt]
  · simp only [survives, trimmed, hty]
    by_cases hge : d + 703 * f / 1000 ≤ LN_MSAT2SATOSHI h.amount_msat
    · have hlt : ¬ LN_MSAT2SATOSHI h.amount_msat < d + 703 * f / 1000 := by omega
      simp [hge, hlt]
    · have hlt : LN_MSAT2SATOSHI h.amount_msat < d + 703 * f / 1000 := by omega
      simp [hge, hlt]

/-- Raising the feerate keeps a trimmed HTLC trimmed, in the words of the specification. -/
theorem trimmed_mono (d f1 f2 : Nat) (h : ln_htlcinfo_t) (hle : f1 ≤ f2)
    (ht : trimmed d (663 * f1 / 1000) (703 * f1 / 1000) h = true) :
    trimmed d (663 * f2 / 1000) (703 * f2 / 1000) h = true := by
  have a : 663 * f1 / 1000 ≤ 663 * f2 / 1000 := by omega
  have b : 703 * f1 / 1000 ≤ 703 * f2 / 1000 := by omega
  unfold trimmed at ht ⊢
  cases hty : h.type <;> simp only [hty, decide_eq_true_eq] at ht ⊢
  · exact absurd ht (by simp)
  · omega
  · omega

/-- C7, as the code has it. Dust monotonicity: for feerates `f1 <= f2` that fit their
`uint32_t` field, every dust limit `d` whose sum with the HTLC fee at `f2` stays below
2^64, and every offered or received HTLC, if `ln_fee_calc` trims the HTLC at feerate `f1`,
then `ln_create_commit_tx` gives it no output at `f1`, and at feerate `f2` `ln_fee_calc`
trims it too and `ln_create_commit_tx` gives it no output. -/
theorem dust_monotonicity (E : Env) (f1 f2 d : Nat) (h : ln_htlcinfo_t)
    (hty : h.type = LN_HTLCTYPE_OFFERED ∨ h.type = LN_HTLCTYPE_RECEIVED)
    (hle : f1 ≤ f2) (hf : f2 < 2 ^ 32) (hd : d + 703 * f2 / 1000 < 2 ^ 64)
    (htrim : fee_calc_trims E f1 d h) :
    commit_tx_trims E f1 d h ∧ fee_calc_trims E f2 d h ∧ commit_tx_trims E f2 d h := by
  have hf1 : f1 < 2 ^ 32 := by omega
  have hd1 : d + 703 * f1 / 1000 < 2 ^ 64 := by
    have : 703 * f1 / 1000 ≤ 703 * f2 / 1000 := by omega
    omega
  have t1 := (fee_calc_trims_iff E f1 d h hty hf1 hd1).1 htrim
  have t2 := trimmed_mono d f1 f2 h hle t1
  exact ⟨(commit_tx_trims_iff E f1 d h hty hf1 hd1).2 t1,
    (fee_calc_trims_iff E f2 d h hty hf hd).2 t2,
    (commit_tx_trims_iff E f2 d h hty hf hd).2 t2⟩

/-- C7 at dust limit 546: an offered HTLC of 600 satoshi, trimmed at feerate 253
(`600 < 546 + 167`), stays trimmed at feerate 1000. -/
theorem dust_monotonicity_witness :
    (253 ≤ 1000 ∧ 1000 < 2 ^ 32 ∧ 546 + 703 * 1000 / 1000 < 2 ^ 64
      ∧ fee_calc_trims env0 253 546 (offered_htlc 600000))
    ∧ (commit_tx_trims env0 253 546 (offered_htlc 600000)
      ∧ fee_calc_trims env0 1000 546 (offered_htlc 600000)
      ∧ commit_tx_trims env0 1000 546 (offered_htlc 600000)) := by
  have ht : fee_calc_trims env0 253 546 (offered_htlc 600000) := by decide
  exact ⟨⟨by decide, by decide, by decide, ht⟩,
    dust_monotonicity env0 253 1000 546 (offered_htlc 600000) (Or.inl rfl) (by decide)
      (by decide) (by decide) ht⟩

set_option maxRecDepth 100000 in
/-- C7, counterexample. At the dust limit `2^64 - 100` an offered HTLC of 1000 satoshi is
trimmed at feerate 0, where the threshold is the dust limit, by `ln_fee_calc` and by
`ln_create_commit_tx`; at feerate 253 the `uint64_t` sum `d + 167` wraps around to 67, and
the HTLC is not trimmed by `ln_fee_calc` and gets an output in `ln_create_commit_tx`. -/
theorem dust_monotonicity_fails_on_wrap :
    fee_calc_trims env0 0 18446744073709551516 (offered_htlc 1000000)
    ∧ commit_tx_trims env0 0 18446744073709551516 (offered_htlc 1000000)
    ∧ ¬ fee_calc_trims env0 253 18446744073709551516 (offered_htlc 1000000)
    ∧ ¬ commit_tx_trims env0 253 18446744073709551516 (offered_htlc 1000000)
    ∧ (ln_fee_calc env0 (feeinfo_in 253 18446744073709551516) [offered_htlc 1000000]).1.commit
        = (724 + 172) * 253 / 1000
    ∧ 18446744073709551516 = 2 ^ 64 - 100 := by
  refine ⟨by decide, by decide, by decide, by decide, by decide, by decide⟩

/-! ## The obscured commitment number -/

theorem ln_create_commit_tx_outputs_vin (E : Env) (tx : ucoin_tx_t) (pCmt : ln_tx_cmt_t)
    (Local : Bool) :
    (ln_create_commit_tx_outputs E tx pCmt Local).vin = tx.vin
      ∧ (ln_create_commit_tx_outputs E tx pCmt Local).locktime = tx.locktime := by
  unfold ln_create_commit_tx_outputs
  rw [ln_create_commit_tx_htlcs_eq]
  unfold ln_create_commit_tx_local ln_create_commit_tx_remote
  constructor <;> (simp only []; split <;> split <;>
    simp [vout_set_opt, ucoin_sw_add_vout_p2wsh, ucoin_sw_add_vout_p2wpkh_pub])

theorem LN_SEQUENCE_eq {x : Nat} (hx : x < 2 ^ 48) :
    LN_SEQUENCE x = 2 ^ 31 + x / 2 ^ 24 ∧ LN_SEQUENCE x = 0x80000000 ||| (x >>> 24) := by
  have hq : x >>> 24 < 2 ^ 24 := by rw [Nat.shiftRight_eq_div_pow]; omega
  have hm : (x >>> 24) &&& 0xffffff = x >>> 24 := by
    have := Nat.and_pow_two_sub_one_eq_mod (x >>> 24) 24
    norm_num at this
    rw [this]; omega
  have hor : 0x80000000 ||| (x >>> 24) = 2 ^ 31 + x >>> 24 := by
    have := Nat.mul_add_lt_is_or (show x >>> 24 < 2 ^ 31 by omega) 1
    norm_num at this ⊢
    exact this.symm
  unfold LN_SEQUENCE
  rw [hm, hor, Nat.shiftRight_eq_div_pow]
  constructor <;> omega

theorem LN_LOCKTIME_eq (x : Nat) :
    LN_LOCKTIME x = 2 ^ 29 + x % 2 ^ 24 ∧ LN_LOCKTIME x = 0x20000000 ||| (x &&& 0xffffff) := by
  have hm : x &&& 0xffffff = x % 2 ^ 24 := by
    have := Nat.and_pow_two_sub_one_eq_mod x 24
    norm_num at this ⊢
    exact this
  have hor : 0x20000000 ||| (x % 2 ^ 24) = 2 ^ 29 + x % 2 ^ 24 := by
    have := Nat.mul_add_lt_is_or (show x % 2 ^ 24 < 2 ^ 29 by omega) 1
    norm_num at this ⊢
    exact this.symm
  unfold LN_LOCKTIME
  rw [hm, hor]
  constructor <;> omega

/-- What `ln_create_commit_tx` leaves as inputs and lock time when it starts from an empty
transaction. -/
theorem ln_create_commit_tx_vin (E : Env) (pCmt : ln_tx_cmt_t) (Local : Bool) :
    (ln_create_commit_tx E ucoin_tx_empty pCmt Local).1.vin
      = [{ txid := pCmt.fund.txid, index := pCmt.fund.txid_index,
           sequence := LN_SEQUENCE pCmt.obscured, witness := [] }]
    ∧ (ln_create_commit_tx E ucoin_tx_empty pCmt Local).1.locktime
      = LN_LOCKTIME pCmt.obscured := by
  have hv : (ln_create_commit_tx_outputs E ucoin_tx_empty pCmt Local).vin = [] :=
    (ln_create_commit_tx_outputs_vin E ucoin_tx_empty pCmt Local).1
  simp only [ln_create_commit_tx, ucoin_util_sort_bip69, ln_create_commit_tx_input,
    vin_set_sequence, ucoin_tx_add_vin, hv]
  simp

/-- C8. For every obscured commitment number `x` below `2 ^ 48`, the transaction
`ln_create_commit_tx` builds from an empty one has exactly one input, the funding outpoint,
with sequence `0x80000000 | (x >> 24)`, and lock time `0x20000000 | (x & 0xFFFFFF)`. -/
theorem ln_create_commit_tx_obscured (E : Env) (pCmt : ln_tx_cmt_t) (Local : Bool)
    (hx : pCmt.obscured < 2 ^ 48) :
    (ln_create_commit_tx E ucoin_tx_empty pCmt Local).1.vin
      = [{ txid := pCmt.fund.txid, index := pCmt.fund.txid_index,
           sequence := 0x80000000 ||| (pCmt.obscured >>> 24), witness := [] }]
    ∧ (ln_create_commit_tx E ucoin_tx_empty pCmt Local).1.locktime
      = 0x20000000 ||| (pCmt.obscured &&& 0xFFFFFF) := by
  obtain ⟨h1, h2⟩ := ln_create_commit_tx_vin E pCmt Local
  rw [h1, h2, (LN_SEQUENCE_eq hx).2, (LN_LOCKTIME_eq pCmt.obscured).2]
  exact ⟨rfl, rfl⟩

/-- C8 at scenario S3, obscured number 42: sequence `0x80000000`, lock time
`0x2000002a`. -/
theorem ln_create_commit_tx_obscured_witness :
    cmt_s3.obscured < 2 ^ 48
    ∧ (ln_create_commit_tx env0 ucoin_tx_empty cmt_s3 true).1.vin
      = [{ txid := fund0.txid, index := 0, sequence := 0x80000000, witness := [] }]
    ∧ (ln_create_commit_tx env0 ucoin_tx_empty cmt_s3 true).1.locktime = 0x2000002a :=
  ⟨by decide, (ln_create_commit_tx_obscured env0 cmt_s3 true (by decide)).1.trans (by decide),
    (ln_create_commit_tx_obscured env0 cmt_s3 true (by decide)).2.trans (by decide)⟩

/-- The 48-bit number is recovered from the sequence and the lock time written for it. -/
theorem obscured_split_join {x : Nat} (hx : x < 2 ^ 48) :
    ((LN_SEQUENCE x &&& 0xffffff) <<< 24) ||| (LN_LOCKTIME x &&& 0xffffff) = x := by
  have m1 : LN_SEQUENCE x &&& 0xffffff = x / 2 ^ 24 := by
    have := Nat.and_pow_two_sub_one_eq_mod (LN_SEQUENCE x) 24
    norm_num at this ⊢
    rw [this, (LN_SEQUENCE_eq hx).1]
    omega
  have m2 : LN_LOCKTIME x &&& 0xffffff = x % 2 ^ 24 := by
    have := Nat.and_pow_two_sub_one_eq_mod (LN_LOCKTIME x) 24
    norm_num at this ⊢
    rw [this, (LN_LOCKTIME_eq x).1]
    omega
  rw [m1, m2, Nat.shiftLeft_eq, Nat.mul_comm,
    ← Nat.mul_add_lt_is_or (show x % 2 ^ 24 < 2 ^ 24 by omega)]
  omega

/-- C9. Obscured-number round trip: for `obs` and a commitment number `N` below `2 ^ 48`,
decoding with `obs` the sequence of the input and the lock time that
`ln_create_commit_tx` writes for the obscured number `obs XOR N` yields `N`. -/
theorem obscured_round_trip (E : Env) (pCmt : ln_tx_cmt_t) (Local : Bool) (obs N : Nat)
    (hobs : obs < 2 ^ 48) (hN : N < 2 ^ 48) (hx : pCmt.obscured = obs ^^^ N) :
    (ln_create_commit_tx E ucoin_tx_empty pCmt Local).1.vin.map
        (fun v => obscured_decode v.sequence
          (ln_create_commit_tx E ucoin_tx_empty pCmt Local).1.locktime obs)
      = [N] := by
  obtain ⟨h1, h2⟩ := ln_create_commit_tx_vin E pCmt Local
  have hlt : obs ^^^ N < 2 ^ 48 := Nat.xor_lt_two_pow hobs hN
  rw [h1, h2, hx]
  simp only [List.map_cons, List.map_nil, obscured_decode, obscured_split_join hlt]
  rw [Nat.xor_comm obs N, Nat.xor_assoc, Nat.xor_self, Nat.xor_zero]

/-- C9 at scenario S3: the obscured number 42 is `obs XOR N` for `obs = 0x2b` and `N = 1`,
and decoding gives back 1. -/
theorem obscured_round_trip_witness :
    (0x2b < 2 ^ 48 ∧ 1 < 2 ^ 48 ∧ cmt_s3.obscured = 0x2b ^^^ 1)
    ∧ (ln_create_commit_tx env0 ucoin_tx_empty cmt_s3 true).1.vin.map
        (fun v => obscured_decode v.sequence
          (ln_create_commit_tx env0 ucoin_tx_empty cmt_s3 true).1.locktime 0x2b)
      = [1] :=
  ⟨⟨by decide, by decide, by decide⟩,
    obscured_round_trip env0 cmt_s3 true 0x2b 1 (by decide) (by decide) (by decide)⟩

/-! ## `ln_calc_obscured_txnum` -/

theorem obscured_step {obs b : Nat} (ho : obs < 2 ^ 56) (hb : b < 256) :
    u64 (obs <<< 8) ||| b = obs * 256 + b := by
  have e : u64 (obs <<< 8) = 2 ^ 8 * obs := by
    rw [Nat.shiftLeft_eq]; unfold u64; omega
  rw [e, ← Nat.mul_add_lt_is_or (show b < 2 ^ 8 by omega)]
  omega

theorem ln_calc_obscured_txnum_loop_eq (base : Bytes) (idxs : List Nat) (obs : Nat)
    (h : (obs + 1) * 256 ^ idxs.length ≤ 2 ^ 64) :
    ln_calc_obscured_txnum_loop base idxs obs
      = (idxs.map (fun lp => base.getD (32 - M_OBSCURED_TX_LEN + lp) 0)).foldl
          (fun acc b => acc * 256 + b.val) obs := by
  induction idxs generalizing obs with
  | nil => simp [ln_calc_obscured_txnum_loop]
  | cons lp rest ih =>
    simp only [List.length_cons, pow_succ] at h
    have hp : 0 < 256 ^ rest.length := Nat.pow_pos (by norm_num)
    have ho : obs < 2 ^ 56 := by
      by_contra hc
      have : (2 ^ 56 + 1) * (256 ^ rest.length * 256) ≤ (obs + 1) * (256 ^ rest.length * 256) :=
        Nat.mul_le_mul_right _ (by omega)
      have : (2 ^ 56 + 1) * (1 * 256) ≤ (2 ^ 56 + 1) * (256 ^ rest.length * 256) :=
        Nat.mul_le_mul_left _ (Nat.mul_le_mul_right _ hp)
      omega
    have hb := (base.getD (32 - M_OBSCURED_TX_LEN + lp) 0).isLt
    simp only [ln_calc_obscured_txnum_loop, List.map_cons, List.foldl_cons]
    rw [obscured_step ho hb]
    apply ih
    calc (obs * 256 + (base.getD (32 - M_OBSCURED_TX_LEN + lp) 0).val + 1) * 256 ^ rest.length
        ≤ ((obs + 1) * 256) * 256 ^ rest.length := Nat.mul_le_mul_right _ (by omega)
      _ = (obs + 1) * (256 ^ rest.length * 256) := by ring
      _ ≤ 2 ^ 64 := h

theorem be_fold_lt (bs : Bytes) (acc : Nat) :
    bs.foldl (fun acc b => acc * 256 + b.val) acc < (acc + 1) * 256 ^ bs.length := by
  induction bs generalizing acc with
  | nil => simp
  | cons b rest ih =>
    simp only [List.foldl_cons, List.length_cons, pow_succ]
    calc rest.foldl (fun acc b => acc * 256 + b.val) (acc * 256 + b.val)
        < (acc * 256 + b.val + 1) * 256 ^ rest.length := ih _
      _ ≤ ((acc + 1) * 256) * 256 ^ rest.length :=
          Nat.mul_le_mul_right _ (by have := b.isLt; omega)
      _ = (acc + 1) * (256 ^ rest.length * 256) := by ring

theorem last_six_of_digest (base : Bytes) (hl : base.length = 32) :
    (List.range M_OBSCURED_TX_LEN).map (fun lp => base.getD (32 - M_OBSCURED_TX_LEN + lp) 0)
      = base.drop 26 := by
  apply List.ext_getElem
  · simp [M_OBSCURED_TX_LEN, hl]
  · intro i h1 h2
    simp only [List.length_map, List.length_range, M_OBSCURED_TX_LEN] at h1
    simp only [List.getElem_map, List.getElem_range, List.getElem_drop, M_OBSCURED_TX_LEN]
    rw [List.getD_eq_getElem _ _ (by omega)]

/-- C10. For all 33-byte base points `L` and `R`, `ln_calc_obscured_txnum L R` is the
big-endian integer formed by the bytes 26..31, the last six, of `SHA256(L || R)`, and it is
below `2 ^ 48`. -/
theorem ln_calc_obscured_txnum_eq (E : Env) (L R : Bytes)
    (hL : L.length = 33) (hR : R.length = 33) :
    ln_calc_obscured_txnum E L R = be_value ((E.sha256 (L ++ R)).drop 26)
    ∧ ((E.sha256 (L ++ R)).drop 26).length = 6
    ∧ ln_calc_obscured_txnum E L R < 2 ^ 48 := by
  have tL : L.take UCOIN_SZ_PUBKEY = L := List.take_of_length_le (by simp [UCOIN_SZ_PUBKEY, hL])
  have tR : R.take UCOIN_SZ_PUBKEY = R := List.take_of_length_le (by simp [UCOIN_SZ_PUBKEY, hR])
  have hlen := E.sha256_length (L ++ R)
  have h6 : ((E.sha256 (L ++ R)).drop 26).length = 6 := by simp [hlen]
  have e : ln_calc_obscured_txnum E L R = be_value ((E.sha256 (L ++ R)).drop 26) := by
    unfold ln_calc_obscured_txnum be_value
    simp only [tL, tR]
    rw [ln_calc_obscured_txnum_loop_eq _ _ _ (by simp [M_OBSCURED_TX_LEN]),
      last_six_of_digest _ hlen]
  refine ⟨e, h6, ?_⟩
  rw [e]
  have := be_fold_lt ((E.sha256 (L ++ R)).drop 26) 0
  rw [h6] at this
  unfold be_value
  omega

/-- C10 on two 33-byte strings: the stand-in digest of `env0` keeps the first 32 bytes of
the message, so the six bytes are bytes 26..31 of the local base point. -/
theorem ln_calc_obscured_txnum_eq_witness :
    ((List.range 33).map (fun i => (Fin.ofNat i : Byte))).length = 33
    ∧ (List.replicate 33 (7 : Byte)).length = 33
    ∧ ln_calc_obscured_txnum env0 ((List.range 33).map (fun i => (Fin.ofNat i : Byte)))
        (List.replicate 33 7) = 0x1a1b1c1d1e1f := by
  refine ⟨by decide, by decide, ?_⟩
  rw [(ln_calc_obscured_txnum_eq env0 _ _ (by decide) (by decide)).1]
  decide

/-! ## The witness scripts -/

theorem hash160_length (E : Env) (msg : Bytes) : (E.hash160 msg).length = 20 := by
  rw [E.hash160_eq]; exact E.ripemd160_length _

theorem take_of_length_eq {α : Type} {l : List α} {n : Nat} (h : l.length = n) :
    l.take n = l :=
  List.take_of_length_le (by omega)

/-- C12. For all 33-byte keys and every delay, `ln_create_script_local` writes exactly the
bytes `OP_IF` (0x63), 0x21, the revocation key, `OP_ELSE` (0x67), the script push of the
delay, `OP_CSV` (0xb2), `OP_DROP` (0x75), 0x21, the local delayed key, `OP_ENDIF` (0x68),
`OP_CHECKSIG` (0xac); the script length is 74 plus the length of the delay push. -/
theorem ln_create_script_local_bytes (E : Env) (pLocalRevoKey pLocalDelayedKey : Bytes)
    (LocalDelay : Nat)
    (hrevo : pLocalRevoKey.length = 33) (hdelayed : pLocalDelayedKey.length = 33) :
    ln_create_script_local E pLocalRevoKey pLocalDelayedKey LocalDelay
      = [0x63, 0x21] ++ pLocalRevoKey ++ [0x67] ++ E.push_value LocalDelay
          ++ [0xb2, 0x75, 0x21] ++ pLocalDelayedKey ++ [0x68, 0xac]
    ∧ (ln_create_script_local E pLocalRevoKey pLocalDelayedKey LocalDelay).length
      = 74 + (E.push_value LocalDelay).length := by
  have e : ln_create_script_local E pLocalRevoKey pLocalDelayedKey LocalDelay
      = [0x63, 0x21] ++ pLocalRevoKey ++ [0x67] ++ E.push_value LocalDelay
          ++ [0xb2, 0x75, 0x21] ++ pLocalDelayedKey ++ [0x68, 0xac] := by
    simp only [ln_create_script_local, ucoin_push_data, ucoin_push_value, UCOIN_SZ_PUBKEY,
      take_of_length_eq hrevo, take_of_length_eq hdelayed, OP_IF, OP_SZ_PUBKEY, OP_ELSE,
      OP_CSV, OP_DROP, OP_ENDIF, OP_CHECKSIG]
    simp
  refine ⟨e, ?_⟩
  rw [e]
  simp only [List.length_append, List.length_cons, List.length_nil, hrevo, hdelayed]
  omega

/-- C12 for two 33-byte keys and a delay of 144 blocks: the script has 74 + 5 bytes with
the five-byte push of the stand-in environment. -/
theorem ln_create_script_local_bytes_witness :
    ((List.replicate 33 (0x02 : Byte)).length = 33
      ∧ (List.replicate 33 (0x03 : Byte)).length = 33)
    ∧ (ln_create_script_local env0 (List.replicate 33 0x02) (List.replicate 33 0x03)
        144).length = 79 :=
  ⟨⟨by decide, by decide⟩,
    (ln_create_script_local_bytes env0 (List.replicate 33 0x02) (List.replicate 33 0x03) 144
      (by decide) (by decide)).2.trans (by decide)⟩

theorem create_script_offered_bytes (E : Env)
    (pLocalKey pLocalRevoKey img pRemoteKey : Bytes)
    (hl : pLocalKey.length = 33) (hr : pLocalRevoKey.length = 33)
    (hi : img.length = 20) (hm : pRemoteKey.length = 33) :
    create_script_offered E pLocalKey pLocalRevoKey img pRemoteKey
      = [OP_DUP, OP_HASH160, 0x14] ++ E.hash160 pLocalRevoKey
          ++ [OP_EQUAL, OP_IF, OP_CHECKSIG, OP_ELSE, 0x21] ++ pRemoteKey
          ++ [OP_SWAP, OP_SIZE, 0x01, 0x20, OP_EQUAL, OP_NOTIF, OP_DROP, OP_2, OP_SWAP, 0x21]
          ++ pLocalKey
          ++ [OP_2, OP_CHECKMULTISIG, OP_ELSE, OP_HASH160, 0x14] ++ img
          ++ [OP_EQUALVERIFY, OP_CHECKSIG, OP_ENDIF, OP_ENDIF] := by
  simp only [create_script_offered, ucoin_push_data, UCOIN_SZ_PUBKEY, UCOIN_SZ_HASH160,
    take_of_length_eq hl, take_of_length_eq hr, take_of_length_eq hi, take_of_length_eq hm,
    take_of_length_eq (hash160_length E pLocalRevoKey), OP_SZ20, OP_SZ_PUBKEY, OP_SZ1, OP_SZ32]
  simp

theorem create_script_received_bytes (E : Env)
    (pLocalKey pLocalRevoKey pRemoteKey img : Bytes) (RemoteExpiry : Nat)
    (hl : pLocalKey.length = 33) (hr : pLocalRevoKey.length = 33)
    (hm : pRemoteKey.length = 33) (hi : img.length = 20) :
    create_script_received E pLocalKey pLocalRevoKey pRemoteKey img RemoteExpiry
      = [OP_DUP, OP_HASH160, 0x14] ++ E.hash160 pLocalRevoKey
          ++ [OP_EQUAL, OP_IF, OP_CHECKSIG, OP_ELSE, 0x21] ++ pRemoteKey
          ++ [OP_SWAP, OP_SIZE, 0x01, 0x20, OP_EQUAL, OP_IF, OP_HASH160, 0x14] ++ img
          ++ [OP_EQUALVERIFY, OP_2, OP_SWAP, 0x21] ++ pLocalKey
          ++ [OP_2, OP_CHECKMULTISIG, OP_ELSE, OP_DROP] ++ E.push_value RemoteExpiry
          ++ [OP_CLTV, OP_DROP, OP_CHECKSIG, OP_ENDIF, OP_ENDIF] := by
  simp only [create_script_received, ucoin_push_data, ucoin_push_value, UCOIN_SZ_PUBKEY,
    UCOIN_SZ_HASH160, take_of_length_eq hl, take_of_length_eq hr, take_of_length_eq hi,
    take_of_length_eq hm, take_of_length_eq (hash160_length E pLocalRevoKey), OP_SZ20,
    OP_SZ_PUBKEY, OP_SZ1, OP_SZ32]
  simp

theorem ln_create_htlcinfo_getElem? (E : Env) (hs : List ln_htlcinfo_t)
    (pLocalKey pLocalRevoKey pRemoteKey : Bytes) (i : Nat) :
    (ln_create_htlcinfo E hs pLocalKey pLocalRevoKey pRemoteKey)[i]?
      = (hs[i]?).map (ln_create_htlcinfo_one E pLocalKey pLocalRevoKey pRemoteKey) := by
  simp [ln_create_htlcinfo, List.getElem?_map]

/-- C13. For 33-byte keys and every HTLC list, `ln_create_htlcinfo` sets the script of each
offered HTLC with a 32-byte payment hash to the BOLT-3 offered-HTLC script
`OP_DUP OP_HASH160 <HASH160(revocation key)> OP_EQUAL OP_IF OP_CHECKSIG OP_ELSE
<remote key> OP_SWAP OP_SIZE 32 OP_EQUAL OP_NOTIF OP_DROP 2 OP_SWAP <local key> 2
OP_CHECKMULTISIG OP_ELSE OP_HASH160 <RIPEMD160(payment_hash)> OP_EQUALVERIFY OP_CHECKSIG
OP_ENDIF OP_ENDIF`, which has exactly 133 bytes; the 20-byte image is RIPEMD160 of the
payment hash, which is HASH160 of the preimage when the payment hash is SHA-256 of the
preimage. -/
theorem ln_create_htlcinfo_offered (E : Env) (hs : List ln_htlcinfo_t)
    (pLocalKey pLocalRevoKey pRemoteKey : Bytes) (i : Nat) (h : ln_htlcinfo_t)
    (hl : pLocalKey.length = 33) (hr : pLocalRevoKey.length = 33)
    (hm : pRemoteKey.length = 33)
    (hi : hs[i]? = some h) (hty : h.type = LN_HTLCTYPE_OFFERED)
    (hph : h.preimage_hash.length = 32) :
    ((ln_create_htlcinfo E hs pLocalKey pLocalRevoKey pRemoteKey)[i]?).map (fun x => x.script)
      = some ([OP_DUP, OP_HASH160, 0x14] ++ E.hash160 pLocalRevoKey
          ++ [OP_EQUAL, OP_IF, OP_CHECKSIG, OP_ELSE, 0x21] ++ pRemoteKey
          ++ [OP_SWAP, OP_SIZE, 0x01, 0x20, OP_EQUAL, OP_NOTIF, OP_DROP, OP_2, OP_SWAP, 0x21]
          ++ pLocalKey
          ++ [OP_2, OP_CHECKMULTISIG, OP_ELSE, OP_HASH160, 0x14]
          ++ E.ripemd160 h.preimage_hash
          ++ [OP_EQUALVERIFY, OP_CHECKSIG, OP_ENDIF, OP_ENDIF])
    ∧ ((ln_create_htlcinfo E hs pLocalKey pLocalRevoKey pRemoteKey)[i]?).map
        (fun x => x.script.length) = some 133
    ∧ (E.ripemd160 h.preimage_hash).length = 20
    ∧ (∀ preimage, h.preimage_hash = E.sha256 preimage →
        E.ripemd160 h.preimage_hash = E.hash160 preimage) := by
  have hone : (ln_create_htlcinfo_one E pLocalKey pLocalRevoKey pRemoteKey h).script
      = create_script_offered E pLocalKey pLocalRevoKey (E.ripemd160 h.preimage_hash)
          pRemoteKey := by
    simp only [ln_create_htlcinfo_one, hty, UCOIN_SZ_SHA256, take_of_length_eq hph]
  have hb := create_script_offered_bytes E pLocalKey pLocalRevoKey
    (E.ripemd160 h.preimage_hash) pRemoteKey hl hr (E.ripemd160_length _) hm
  refine ⟨?_, ?_, E.ripemd160_length _, ?_⟩
  · rw [ln_create_htlcinfo_getElem?, hi]
    simp only [Option.map_some', hone, hb]
  · rw [ln_create_htlcinfo_getElem?, hi]
    simp only [Option.map_some', hone, hb, List.length_append, List.length_cons,
      List.length_nil, hl, hm, hash160_length, E.ripemd160_length]
  · intro preimage hp
    rw [hp, E.hash160_eq]

/-- C13 for an offered HTLC at position 1 of a two-HTLC list: its script gets 133 bytes. -/
theorem ln_create_htlcinfo_offered_witness :
    ((key33 0x02).length = 33 ∧ (key33 0x03).length = 33 ∧ (key33 0x04).length = 33
      ∧ [received_htlc_hashed, offered_htlc_hashed][1]? = some offered_htlc_hashed
      ∧ offered_htlc_hashed.type = LN_HTLCTYPE_OFFERED
      ∧ offered_htlc_hashed.preimage_hash.length = 32)
    ∧ ((ln_create_htlcinfo env0 [received_htlc_hashed, offered_htlc_hashed] (key33 0x02)
          (key33 0x03) (key33 0x04))[1]?).map (fun x => x.script.length) = some 133 :=
  ⟨⟨by decide, by decide, by decide, by decide, by decide, by decide⟩,
    (ln_create_htlcinfo_offered env0 [received_htlc_hashed, offered_htlc_hashed] (key33 0x02)
      (key33 0x03) (key33 0x04) 1 offered_htlc_hashed (by decide) (by decide) (by decide)
      (by decide) (by decide) (by decide)).2.1⟩

/-- C14. For 33-byte keys and every HTLC list, `ln_create_htlcinfo` sets the script of each
received HTLC with expiry `E` and a 32-byte payment hash to the BOLT-3 received-HTLC script
`OP_DUP OP_HASH160 <HASH160(revocation key)> OP_EQUAL OP_IF OP_CHECKSIG OP_ELSE
<remote key> OP_SWAP OP_SIZE 32 OP_EQUAL OP_IF OP_HASH160 <RIPEMD160(payment_hash)>
OP_EQUALVERIFY 2 OP_SWAP <local key> 2 OP_CHECKMULTISIG OP_ELSE OP_DROP <E>
OP_CHECKLOCKTIMEVERIFY OP_DROP OP_CHECKSIG OP_ENDIF OP_ENDIF`, of length 135 plus the
length of the push of `E`; the push of the expiry stands once, on the branch after the
second `OP_ELSE`. -/
theorem ln_create_htlcinfo_received (E : Env) (hs : List ln_htlcinfo_t)
    (pLocalKey pLocalRevoKey pRemoteKey : Bytes) (i : Nat) (h : ln_htlcinfo_t)
    (hl : pLocalKey.length = 33) (hr : pLocalRevoKey.length = 33)
    (hm : pRemoteKey.length = 33)
    (hi : hs[i]? = some h) (hty : h.type = LN_HTLCTYPE_RECEIVED)
    (hph : h.preimage_hash.length = 32) :
    ((ln_create_htlcinfo E hs pLocalKey pLocalRevoKey pRemoteKey)[i]?).map (fun x => x.script)
      = some ([OP_DUP, OP_HASH160, 0x14] ++ E.hash160 pLocalRevoKey
          ++ [OP_EQUAL, OP_IF, OP_CHECKSIG, OP_ELSE, 0x21] ++ pRemoteKey
          ++ [OP_SWAP, OP_SIZE, 0x01, 0x20, OP_EQUAL, OP_IF, OP_HASH160, 0x14]
          ++ E.ripemd160 h.preimage_hash
          ++ [OP_EQUALVERIFY, OP_2, OP_SWAP, 0x21] ++ pLocalKey
          ++ [OP_2, OP_CHECKMULTISIG, OP_ELSE, OP_DROP] ++ E.push_value h.expiry
          ++ [OP_CLTV, OP_DROP, OP_CHECKSIG, OP_ENDIF, OP_ENDIF])
    ∧ ((ln_create_htlcinfo E hs pLocalKey pLocalRevoKey pRemoteKey)[i]?).map
        (fun x => x.script.length) = some (135 + (E.push_value h.expiry).length) := by
  have hone : (ln_create_htlcinfo_one E pLocalKey pLocalRevoKey pRemoteKey h).script
      = create_script_received E pLocalKey pLocalRevoKey pRemoteKey
          (E.ripemd160 h.preimage_hash) h.expiry := by
    simp only [ln_create_htlcinfo_one, hty, UCOIN_SZ_SHA256, take_of_length_eq hph]
  have hb := create_script_received_bytes E pLocalKey pLocalRevoKey pRemoteKey
    (E.ripemd160 h.preimage_hash) h.expiry hl hr hm (E.ripemd160_length _)
  refine ⟨?_, ?_⟩
  · rw [ln_create_htlcinfo_getElem?, hi]
    simp only [Option.map_some', hone, hb]
  · rw [ln_create_htlcinfo_getElem?, hi]
    simp only [Option.map_some', hone, hb, List.length_append, List.length_cons,
      List.length_nil, hl, hm, hash160_length, E.ripemd160_length, Option.some.injEq]
    omega

/-- C14 for a received HTLC at position 0 of a two-HTLC list: its script gets 135 + 5
bytes with the five-byte push of the stand-in environment. -/
theorem ln_create_htlcinfo_received_witness :
    ((key33 0x02).length = 33 ∧ (key33 0x03).length = 33 ∧ (key33 0x04).length = 33
      ∧ [received_htlc_hashed, offered_htlc_hashed][0]? = some received_htlc_hashed
      ∧ received_htlc_hashed.type = LN_HTLCTYPE_RECEIVED
      ∧ received_htlc_hashed.preimage_hash.length = 32)
    ∧ ((ln_create_htlcinfo env0 [received_htlc_hashed, offered_htlc_hashed] (key33 0x02)
          (key33 0x03) (key33 0x04))[0]?).map (fun x => x.script.length) = some 140 :=
  ⟨⟨by decide, by decide, by decide, by decide, by decide, by decide⟩,
    (ln_create_htlcinfo_received env0 [received_htlc_hashed, offered_htlc_hashed] (key33 0x02)
      (key33 0x03) (key33 0x04) 0 received_htlc_hashed (by decide) (by decide) (by decide)
      (by decide) (by decide) (by decide)).2.trans (by decide)⟩

/-! ## `ln_check_scriptpkh` -/

theorem getD_beq_iff (s : Bytes) (i : Nat) (v : Byte) (hi : i < s.length) :
    (s.getD i 0 == v) = true ↔ s[i]? = some v := by
  rw [List.getD_eq_getElem _ _ hi, List.getElem?_eq_getElem hi]
  simp

/-- C19. For every byte string `s`, `ln_check_scriptpkh s` is true exactly when `s` has 25
bytes with `s[0..2] = OP_DUP, OP_HASH160, 20` and `s[23..24] = OP_EQUALVERIFY,
OP_CHECKSIG` (P2PKH), or 23 bytes with `s[0..1] = OP_HASH160, 20` and `s[22] = OP_EQUAL`
(P2SH), or 22 bytes with `s[0..1] = OP_0, 20` (P2WPKH), or 34 bytes with
`s[0..1] = OP_0, 32` (P2WSH); every other length is rejected. -/
theorem ln_check_scriptpkh_iff (s : Bytes) :
    ln_check_scriptpkh s = true ↔
      (s.length = 25 ∧ s[0]? = some OP_DUP ∧ s[1]? = some OP_HASH160 ∧ s[2]? = some 20
        ∧ s[23]? = some OP_EQUALVERIFY ∧ s[24]? = some OP_CHECKSIG)
      ∨ (s.length = 23 ∧ s[0]? = some OP_HASH160 ∧ s[1]? = some 20 ∧ s[22]? = some OP_EQUAL)
      ∨ (s.length = 22 ∧ s[0]? = some OP_0 ∧ s[1]? = some 20)
      ∨ (s.length = 34 ∧ s[0]? = some OP_0 ∧ s[1]? = some 32) := by
  have e20 : (Fin.ofNat UCOIN_SZ_HASH160 : Byte) = 20 := by decide
  have e32 : (Fin.ofNat UCOIN_SZ_HASH256 : Byte) = 32 := by decide
  unfold ln_check_scriptpkh
  simp only [e20, e32]
  split
  · rename_i hlen
    simp only [Bool.and_eq_true, getD_beq_iff s _ _ (show 0 < s.length by omega),
      getD_beq_iff s _ _ (show 1 < s.length by omega),
      getD_beq_iff s _ _ (show 2 < s.length by omega),
      getD_beq_iff s _ _ (show 23 < s.length by omega),
      getD_beq_iff s _ _ (show 24 < s.length by omega), hlen]
    simp only [and_assoc, true_and, Nat.reduceEqDiff, false_and, or_false]
  · rename_i hlen
    simp only [Bool.and_eq_true, getD_beq_iff s _ _ (show 0 < s.length by omega),
      getD_beq_iff s _ _ (show 1 < s.length by omega),
      getD_beq_iff s _ _ (show 22 < s.length by omega), hlen]
    simp only [and_assoc, true_and, Nat.reduceEqDiff, false_and, or_false,
      false_or]
  · rename_i hlen
    simp only [Bool.and_eq_true, getD_beq_iff s _ _ (show 0 < s.length by omega),
      getD_beq_iff s _ _ (show 1 < s.length by omega), hlen]
    simp only [true_and, Nat.reduceEqDiff, false_and, or_false, false_or]
  · rename_i hlen
    simp only [Bool.and_eq_true, getD_beq_iff s _ _ (show 0 < s.length by omega),
      getD_beq_iff s _ _ (show 1 < s.length by omega), hlen]
    simp only [true_and, Nat.reduceEqDiff, false_and, false_or]
  · rename_i h25 h23 h22 h34
    simp only [Bool.false_eq_true, false_iff, not_or, not_and]
    exact ⟨fun h => absurd h h25, fun h => absurd h h23, fun h => absurd h h22,
      fun h => absurd h h34⟩

/-! ## The second-stage transactions -/

/-- C15. Starting from an empty transaction, `ln_create_htlc_tx` returns true with a
transaction of exactly one input, the given txid and index with sequence 0, and exactly one
P2WSH output of the given value and script, with lock time 0 when the type is received
(HTLC-success) and lock time `CltvExpiry` when the type is offered (HTLC-timeout). -/
theorem ln_create_htlc_tx_from_empty (E : Env) (Value : Nat) (pScript pTxid : Bytes)
    (CltvExpiry Index : Nat) :
    ln_create_htlc_tx E ucoin_tx_empty Value pScript pTxid (E.htlctype LN_HTLCTYPE_RECEIVED)
        CltvExpiry Index
      = some (true,
          { vin := [{ txid := pTxid, index := Index, sequence := 0, witness := [] }],
            vout := [p2wsh_vout E Value pScript (E.htlctype LN_HTLCTYPE_RECEIVED)],
            locktime := 0 })
    ∧ ln_create_htlc_tx E ucoin_tx_empty Value pScript pTxid (E.htlctype LN_HTLCTYPE_OFFERED)
        CltvExpiry Index
      = some (true,
          { vin := [{ txid := pTxid, index := Index, sequence := 0, witness := [] }],
            vout := [p2wsh_vout E Value pScript (E.htlctype LN_HTLCTYPE_OFFERED)],
            locktime := CltvExpiry }) := by
  have hne : E.htlctype LN_HTLCTYPE_OFFERED ≠ E.htlctype LN_HTLCTYPE_RECEIVED := by
    intro h
    exact absurd (E.htlctype_inj h) (by decide)
  constructor
  · simp [ln_create_htlc_tx, ucoin_sw_add_vout_p2wsh, vout_set_opt, vout0_opt, ucoin_tx_empty,
      ucoin_tx_add_vin, vin_set_sequence, p2wsh_vout]
  · simp [ln_create_htlc_tx, ucoin_sw_add_vout_p2wsh, vout_set_opt, vout0_opt, ucoin_tx_empty,
      ucoin_tx_add_vin, vin_set_sequence, p2wsh_vout, hne]

theorem set_vin_p2wsh_single (tx : ucoin_tx_t) (pWits : List Bytes) (h : tx.vin.length = 1) :
    ∃ tx1, ucoin_sw_set_vin_p2wsh tx 0 pWits = some tx1
      ∧ tx1.vin.map (fun v => v.witness) = [pWits] ∧ tx1.vout = tx.vout
      ∧ tx1.locktime = tx.locktime := by
  obtain ⟨vin, vout, locktime⟩ := tx
  match vin, h with
  | [v], _ =>
    exact ⟨⟨[⟨v.txid, v.index, v.sequence, pWits⟩], vout, locktime⟩,
      by simp [ucoin_sw_set_vin_p2wsh], by simp, rfl, rfl⟩

theorem ln_sign_htlc_tx_preimage_vin (E : Env) (pTx : ucoin_tx_t) (pPreImage : Option Bytes) :
    (ln_sign_htlc_tx_preimage E pTx pPreImage).2.vin = pTx.vin := by
  unfold ln_sign_htlc_tx_preimage
  cases pPreImage with
  | none => rfl
  | some p => simp only []; split <;> rfl

/-- C16. For the sign types HTLC-timeout and HTLC-success on a transaction with exactly one
input and one output, whenever `ln_sign_htlc_tx` returns true the witness of input 0 is
exactly five items in this order: empty, the remote signature, the local signature (the
buffer `pLocalSig` as the signing call leaves it, the fresh signature when signing
succeeded), the 32-byte preimage if one is given and empty otherwise, the witness script;
a transaction that does not have exactly one input and one output is rejected with false
and left as it is. -/
theorem ln_sign_htlc_tx_witness_stack (E : Env) (pTx : ucoin_tx_t) (pLocalSig : Bytes)
    (Value : Nat) (pKeys : ucoin_util_keys_t) (pRemoteSig : Bytes)
    (pPreImage : Option Bytes) (pWitScript : Bytes) (Type_ : htlcsign_t)
    (hpre : ∀ p, pPreImage = some p → p.length = 32) :
    (pTx.vin.length = 1 → pTx.vout.length = 1 →
      Type_ = HTLCSIGN_TIMEOUT ∨ Type_ = HTLCSIGN_SUCCESS →
      ∀ tx1 sig,
        ln_sign_htlc_tx E pTx pLocalSig Value pKeys pRemoteSig pPreImage pWitScript Type_
          = some (true, tx1, sig) →
        tx1.vin.map (fun v => v.witness)
            = [[[], pRemoteSig, sig, pPreImage.getD [], pWitScript]]
          ∧ (∀ s, E.sign_p2wsh_2 (E.sign_p2wsh_1 pTx 0 Value pWitScript) pKeys = some s →
              sig = s))
    ∧ (¬ (pTx.vin.length = 1 ∧ pTx.vout.length = 1) →
        ln_sign_htlc_tx E pTx pLocalSig Value pKeys pRemoteSig pPreImage pWitScript Type_
          = some (false, pTx, pLocalSig)) := by
  constructor
  · intro hin hout hty tx1 sig hres
    have hitem : (ln_sign_htlc_tx_preimage E pTx pPreImage).1 = pPreImage.getD [] := by
      unfold ln_sign_htlc_tx_preimage
      cases hp : pPreImage with
      | none => rfl
      | some p => simp [LN_SZ_PREIMAGE, take_of_length_eq (hpre p hp)]
    have hg : ¬ (pTx.vin.length ≠ 1 ∨ pTx.vout.length ≠ 1) := by simp [hin, hout]
    have hv1 : (ln_sign_htlc_tx_preimage E pTx pPreImage).2.vin.length = 1 := by
      rw [ln_sign_htlc_tx_preimage_vin]; exact hin
    obtain ⟨tx2, h2, hw, _, _⟩ := set_vin_p2wsh_single (ln_sign_htlc_tx_preimage E pTx pPreImage).2
      [[], pRemoteSig,
        (ucoin_util_sign_p2wsh_2 E pLocalSig (E.sign_p2wsh_1 pTx 0 Value pWitScript) pKeys).2,
        (ln_sign_htlc_tx_preimage E pTx pPreImage).1, pWitScript] hv1
    have hres2 : ln_sign_htlc_tx E pTx pLocalSig Value pKeys pRemoteSig pPreImage pWitScript
        Type_ = some (true, tx2,
          (ucoin_util_sign_p2wsh_2 E pLocalSig (E.sign_p2wsh_1 pTx 0 Value pWitScript)
            pKeys).2) := by
      rcases hty with hty | hty <;> simp only [ln_sign_htlc_tx, hg, if_false, hty, h2]
    rw [hres2] at hres
    simp only [Option.some.injEq, Prod.mk.injEq, true_and] at hres
    obtain ⟨rfl, rfl⟩ := hres
    refine ⟨by rw [hw, hitem], ?_⟩
    intro s hs
    simp only [ucoin_util_sign_p2wsh_2, hs]
  · intro hno
    have hg : pTx.vin.length ≠ 1 ∨ pTx.vout.length ≠ 1 := by
      by_contra hc
      simp only [not_or, not_not] at hc
      exact hno hc
    simp only [ln_sign_htlc_tx, hg, if_true]

/-- C16 on an HTLC-success transaction with a 32-byte preimage: the function returns true
and the witness has the five items. -/
theorem ln_sign_htlc_tx_witness_stack_witness :
    ((∀ p, some (List.replicate 32 (0x77 : Byte)) = some p → p.length = 32)
      ∧ htlc_success_tx.vin.length = 1 ∧ htlc_success_tx.vout.length = 1
      ∧ (ln_sign_htlc_tx env0 htlc_success_tx [] 1000 keys0 [0x30, 0x45]
          (some (List.replicate 32 0x77)) [0x63, 0x68] HTLCSIGN_SUCCESS).map (fun r => r.1)
        = some true)
    ∧ ∃ tx1 sig,
        ln_sign_htlc_tx env0 htlc_success_tx [] 1000 keys0 [0x30, 0x45]
          (some (List.replicate 32 0x77)) [0x63, 0x68] HTLCSIGN_SUCCESS = some (true, tx1, sig)
        ∧ tx1.vin.map (fun v => v.witness)
          = [[[], [0x30, 0x45], sig, List.replicate 32 0x77, [0x63, 0x68]]] := by
  have hpre : ∀ p, some (List.replicate 32 (0x77 : Byte)) = some p → p.length = 32 := by
    intro p hp
    cases hp
    decide
  refine ⟨⟨hpre, by decide, by decide, by decide⟩, ?_⟩
  cases hres : ln_sign_htlc_tx env0 htlc_success_tx [] 1000 keys0 [0x30, 0x45]
      (some (List.replicate 32 0x77)) [0x63, 0x68] HTLCSIGN_SUCCESS with
  | none => exact absurd hres (by decide)
  | some r =>
    obtain ⟨ret, tx1, sig⟩ := r
    have hret : ret = true := by
      have h : (ln_sign_htlc_tx env0 htlc_success_tx [] 1000 keys0 [0x30, 0x45]
          (some (List.replicate 32 0x77)) [0x63, 0x68] HTLCSIGN_SUCCESS).map (fun r => r.1)
          = some true := by decide
      rw [hres] at h
      simpa using h
    subst hret
    exact ⟨tx1, sig, rfl,
      ((ln_sign_htlc_tx_witness_stack env0 htlc_success_tx [] 1000 keys0 [0x30, 0x45]
        (some (List.replicate 32 0x77)) [0x63, 0x68] HTLCSIGN_SUCCESS hpre).1 (by decide)
        (by decide) (Or.inr rfl) tx1 sig hres).1⟩

/-- C17. For the second-stage to-local spend, `ln_create_tolocal_tx`, started on an empty
transaction, yields one output of the given value and scriptPubKey and a single input whose
sequence is the given `to_self_delay`; on a transaction with exactly one input and one
output, `ln_sign_tolocal_tx` with a signature `sig` produced returns true and sets the
witness of input 0 to `[sig, empty selector, witness script]`; it returns false and leaves
the transaction, and with it the witness, as it was when the transaction does not have
exactly one input and one output or when signing fails. -/
theorem ln_tolocal_tx_sequence_and_witness (E : Env) (pTx : ucoin_tx_t) (pDelayedSig : Bytes)
    (Value : Nat) (pKeys : ucoin_util_keys_t) (pWitScript pScriptPk pTxid : Bytes)
    (LockTime Index : Nat) :
    ln_create_tolocal_tx ucoin_tx_empty Value pScriptPk LockTime pTxid Index
      = (true,
          { vin := [{ txid := pTxid, index := Index, sequence := LockTime, witness := [] }],
            vout := [{ value := Value, script := pScriptPk, opt := 0 }],
            locktime := 0 })
    ∧ (pTx.vin.length = 1 → pTx.vout.length = 1 →
        ∀ sig, E.sign_p2wsh_2 (E.sign_p2wsh_1 pTx 0 Value pWitScript) pKeys = some sig →
          ∃ tx1, ln_sign_tolocal_tx E pTx pDelayedSig Value pKeys pWitScript = (true, tx1, sig)
            ∧ tx1.vin.map (fun v => v.witness) = [[sig, [], pWitScript]]
            ∧ tx1.vout = pTx.vout ∧ tx1.locktime = pTx.locktime)
    ∧ (¬ (pTx.vin.length = 1 ∧ pTx.vout.length = 1) →
        ln_sign_tolocal_tx E pTx pDelayedSig Value pKeys pWitScript
          = (false, pTx, pDelayedSig))
    ∧ (E.sign_p2wsh_2 (E.sign_p2wsh_1 pTx 0 Value pWitScript) pKeys = none →
        ln_sign_tolocal_tx E pTx pDelayedSig Value pKeys pWitScript
          = (false, pTx, pDelayedSig)) := by
  refine ⟨?_, ?_, ?_, ?_⟩
  · simp [ln_create_tolocal_tx, ucoin_tx_add_vout, vout_set_script, ucoin_tx_add_vin,
      vin_set_sequence, ucoin_tx_empty]
  · intro hin hout sig hsig
    have hg : ¬ (pTx.vin.length ≠ 1 ∨ pTx.vout.length ≠ 1) := by simp [hin, hout]
    obtain ⟨tx1, h1, hw, hvo, hlt⟩ := set_vin_p2wsh_single pTx [sig, [], pWitScript] hin
    exact ⟨tx1, by simp only [ln_sign_tolocal_tx, hg, if_false, ucoin_util_sign_p2wsh_2, hsig,
      if_true, h1], hw, hvo, hlt⟩
  · intro hno
    have hg : pTx.vin.length ≠ 1 ∨ pTx.vout.length ≠ 1 := by
      by_contra hc
      simp only [not_or, not_not] at hc
      exact hno hc
    simp only [ln_sign_tolocal_tx, hg, if_true]
  · intro hsig
    by_cases hg : pTx.vin.length ≠ 1 ∨ pTx.vout.length ≠ 1
    · simp only [ln_sign_tolocal_tx, hg, if_true]
    · simp [ln_sign_tolocal_tx, hg, ucoin_util_sign_p2wsh_2, hsig]

/-- C17 on a one-input, one-output transaction: signing with the example keys succeeds and
the witness becomes the three items; with the failing keys the function returns false and
the transaction is unchanged. -/
theorem ln_tolocal_tx_sequence_and_witness_witness :
    (htlc_success_tx.vin.length = 1 ∧ htlc_success_tx.vout.length = 1
      ∧ env0.sign_p2wsh_2 (env0.sign_p2wsh_1 htlc_success_tx 0 800 [0x63, 0x68]) keys0
          = some (0x01 :: 0x63 :: 0x68 :: List.replicate 30 0)
      ∧ env0.sign_p2wsh_2 (env0.sign_p2wsh_1 htlc_success_tx 0 800 [0x63, 0x68]) keys_bad
          = none)
    ∧ (∃ tx1, ln_sign_tolocal_tx env0 htlc_success_tx [] 800 keys0 [0x63, 0x68]
          = (true, tx1, 0x01 :: 0x63 :: 0x68 :: List.replicate 30 0)
        ∧ tx1.vin.map (fun v => v.witness)
          = [[0x01 :: 0x63 :: 0x68 :: List.replicate 30 0, [], [0x63, 0x68]]]
        ∧ tx1.vout = htlc_success_tx.vout ∧ tx1.locktime = htlc_success_tx.locktime)
    ∧ ln_sign_tolocal_tx env0 htlc_success_tx [] 800 keys_bad [0x63, 0x68]
        = (false, htlc_success_tx, []) :=
  ⟨⟨by decide, by decide, by decide, by decide⟩,
    (ln_tolocal_tx_sequence_and_witness env0 htlc_success_tx [] 800 keys0 [0x63, 0x68] [] []
      0 0).2.1 (by decide) (by decide) _ (by decide),
    (ln_tolocal_tx_sequence_and_witness env0 htlc_success_tx [] 800 keys_bad [0x63, 0x68] [] []
      0 0).2.2.2 (by decide)⟩

/-- C18, the code at a failing input. On a one-input, one-output transaction with a local
public key and a local signature that verifies and neither remote public key nor remote
signature, `ln_verify_htlc_tx` does not skip the remote pair and return true: it calls
`ucoin_tx_verify` on the two null pointers, which has no result. With both pairs provided
and verifying, it returns true. -/
theorem ln_verify_htlc_tx_remote_not_skipped :
    htlc_success_tx.vin.length = 1 ∧ htlc_success_tx.vout.length = 1
    ∧ env0.tx_verify (0x01 :: 0x63 :: 0x68 :: List.replicate 30 0)
        (env0.sign_p2wsh_1 htlc_success_tx 0 800 [0x63, 0x68]) keys0.pub = true
    ∧ ln_verify_htlc_tx env0 htlc_success_tx 800 (some keys0.pub) none
        (some (0x01 :: 0x63 :: 0x68 :: List.replicate 30 0)) none [0x63, 0x68] = none
    ∧ ln_verify_htlc_tx env0 htlc_success_tx 800 (some keys0.pub) none
        (some (0x01 :: 0x63 :: 0x68 :: List.replicate 30 0)) none [0x63, 0x68] ≠ some true
    ∧ ln_verify_htlc_tx env0 htlc_success_tx 800 (some keys0.pub) (some keys0.pub)
        (some (0x01 :: 0x63 :: 0x68 :: List.replicate 30 0))
        (some (0x01 :: 0x63 :: 0x68 :: List.replicate 30 0)) [0x63, 0x68] = some true := by
  decide

/-! ## BIP-69 order and the tags of the outputs -/

theorem bytes_le_total (a b : Bytes) : bytes_le a b = true ∨ bytes_le b a = true := by
  induction a generalizing b with
  | nil => left; simp [bytes_le]
  | cons x xs ih =>
    cases b with
    | nil => right; simp [bytes_le]
    | cons y ys =>
      simp only [bytes_le, Bool.or_eq_true, Bool.and_eq_true, decide_eq_true_eq, beq_iff_eq]
      rcases Nat.lt_trichotomy x.val y.val with h | h | h
      · exact Or.inl (Or.inl h)
      · rcases ih ys with h2 | h2
        · exact Or.inl (Or.inr ⟨h, h2⟩)
        · exact Or.inr (Or.inr ⟨h.symm, h2⟩)
      · exact Or.inr (Or.inl h)

theorem bytes_le_trans {a b c : Bytes} (h1 : bytes_le a b = true) (h2 : bytes_le b c = true) :
    bytes_le a c = true := by
  induction a generalizing b c with
  | nil => simp [bytes_le]
  | cons x xs ih =>
    cases b with
    | nil => simp [bytes_le] at h1
    | cons y ys =>
      cases c with
      | nil => simp [bytes_le] at h2
      | cons z zs =>
        simp only [bytes_le, Bool.or_eq_true, Bool.and_eq_true, decide_eq_true_eq,
          beq_iff_eq] at h1 h2 ⊢
        rcases h1 with h1 | ⟨h1, h1r⟩
        · rcases h2 with h2 | ⟨h2, _⟩
          · exact Or.inl (by omega)
          · exact Or.inl (by omega)
        · rcases h2 with h2 | ⟨h2, h2r⟩
          · exact Or.inl (by omega)
          · exact Or.inr ⟨by omega, ih h1r h2r⟩

theorem vout_le_total (a b : ucoin_vout_t) : vout_le a b = true ∨ vout_le b a = true := by
  simp only [vout_le, Bool.or_eq_true, Bool.and_eq_true, decide_eq_true_eq, beq_iff_eq]
  rcases Nat.lt_trichotomy a.value b.value with h | h | h
  · exact Or.inl (Or.inl h)
  · rcases bytes_le_total a.script b.script with h2 | h2
    · exact Or.inl (Or.inr ⟨h, h2⟩)
    · exact Or.inr (Or.inr ⟨h.symm, h2⟩)
  · exact Or.inr (Or.inl h)

theorem vout_le_trans {a b c : ucoin_vout_t} (h1 : vout_le a b = true)
    (h2 : vout_le b c = true) : vout_le a c = true := by
  simp only [vout_le, Bool.or_eq_true, Bool.and_eq_true, decide_eq_true_eq,
    beq_iff_eq] at h1 h2 ⊢
  rcases h1 with h1 | ⟨h1, h1r⟩
  · rcases h2 with h2 | ⟨h2, _⟩
    · exact Or.inl (by omega)
    · exact Or.inl (by omega)
  · rcases h2 with h2 | ⟨h2, h2r⟩
    · exact Or.inl (by omega)
    · exact Or.inr ⟨by omega, bytes_le_trans h1r h2r⟩

/-- The BIP-69 sort leaves the outputs sorted. -/
theorem sort_bip69_sorted (l : List ucoin_vout_t) :
    (l.insertionSort (fun a b => vout_le a b = true)).Sorted
      (fun a b => vout_le a b = true) := by
  haveI : IsTotal ucoin_vout_t (fun a b => vout_le a b = true) := ⟨vout_le_total⟩
  haveI : IsTrans ucoin_vout_t (fun a b => vout_le a b = true) :=
    ⟨fun _ _ _ h1 h2 => vout_le_trans h1 h2⟩
  exact List.sorted_insertionSort _ l

/-- The tags of the outputs the HTLC loop adds are low bytes of list positions, in order. -/
theorem htlc_outputs_from_tags (E : Env) (fi : ln_feeinfo_t) (hs : List ln_htlcinfo_t) :
    ((htlc_outputs_from E fi hs 0).map (fun o => o.opt)).Sublist
      ((List.range hs.length).map (fun i => i % 256)) := by
  have e : (List.range hs.length).map (fun i => i % 256)
      = (hs.enumFrom 0).map (fun p => p.1 % 256) := by
    rw [List.range_eq_range', ← List.enumFrom_map_fst 0 hs, List.map_map]
    rfl
  rw [e]
  simp only [htlc_outputs_from, List.map_map]
  exact (List.filter_sublist _).map _

/-- The tags of the outputs as created are taken, in order, from the to-remote tag, the
to-local tag and the low bytes of the list positions. -/
theorem ln_create_commit_tx_outputs_tags (E : Env) (pCmt : ln_tx_cmt_t) (Local : Bool) :
    ((ln_create_commit_tx_outputs E ucoin_tx_empty pCmt Local).vout.map (fun o => o.opt)).Sublist
      (creation_tags E pCmt.pp_htlcinfo.length) := by
  unfold ln_create_commit_tx_outputs creation_tags
  rw [ln_create_commit_tx_htlcs_eq]
  simp only [List.map_append]
  have hR : ((ln_create_commit_tx_remote E ucoin_tx_empty pCmt Local).vout.map
      (fun o => o.opt)).Sublist [E.VOUT_OPT_TOREMOTE]
      ∧ (ln_create_commit_tx_remote E ucoin_tx_empty pCmt Local).vout.length ≤ 1 := by
    unfold ln_create_commit_tx_remote
    split
    · simp [add_vout_p2wpkh_set_opt, ucoin_tx_empty, p2wpkh_vout]
    · simp [ucoin_tx_empty]
  have hL : ((ln_create_commit_tx_local E (ln_create_commit_tx_remote E ucoin_tx_empty pCmt
      Local) pCmt Local).vout.map (fun o => o.opt)).Sublist
      ([E.VOUT_OPT_TOREMOTE] ++ [E.VOUT_OPT_TOLOCAL]) := by
    unfold ln_create_commit_tx_local
    split
    · simp only [add_vout_p2wsh_set_opt, List.map_append, List.map_cons, List.map_nil,
        p2wsh_vout]
      exact hR.1.append (List.Sublist.refl _)
    · exact hR.1.trans (List.sublist_append_left _ _)
  exact (hL.append (htlc_outputs_from_tags E pCmt.p_feeinfo pCmt.pp_htlcinfo))

theorem creation_tags_nodup (E : Env) (n : Nat) (hn : n ≤ 256)
    (hne : E.VOUT_OPT_TOLOCAL ≠ E.VOUT_OPT_TOREMOTE)
    (hl : n ≤ E.VOUT_OPT_TOLOCAL) (hr : n ≤ E.VOUT_OPT_TOREMOTE) :
    (creation_tags E n).Nodup := by
  have hmem : ∀ t, t ∈ (List.range n).map (fun i => i % 256) → t < n := by
    intro t ht
    rw [List.mem_map] at ht
    obtain ⟨i, hi, rfl⟩ := ht
    rw [List.mem_range] at hi
    omega
  have hnd : ((List.range n).map (fun i => i % 256)).Nodup := by
    apply List.Nodup.map_on _ (List.nodup_range n)
    intro x hx y hy hxy
    rw [List.mem_range] at hx hy
    omega
  unfold creation_tags
  rw [List.nodup_cons, List.nodup_cons]
  refine ⟨?_, ?_, hnd⟩
  · intro hin
    rw [List.mem_cons] at hin
    rcases hin with h | h
    · exact hne h.symm
    · have := hmem _ h
      omega
  · intro hin
    have := hmem _ hin
    omega

/-- C11, as the code has it. After `ln_create_commit_tx` on an empty transaction the
outputs are in BIP-69 order (ascending value, ties by scriptPubKey bytes) and are a
rearrangement of the outputs as created, so each still carries its tag; an output is the
to-remote output with the to-remote tag, the to-local output with the to-local tag, or the
output of the HTLC at a list position `i` with the tag `i mod 256`; and when the list has
at most 256 HTLCs, the to-local and to-remote tags differ and no list position reaches
either of them, no two outputs carry the same tag. -/
theorem ln_create_commit_tx_bip69_tags (E : Env) (pCmt : ln_tx_cmt_t) (Local : Bool)
    (hr : cmt_in_range pCmt) :
    ((ln_create_commit_tx E ucoin_tx_empty pCmt Local).1.vout).Sorted
        (fun a b => vout_le a b = true)
    ∧ ((ln_create_commit_tx E ucoin_tx_empty pCmt Local).1.vout).Perm
        (ln_create_commit_tx_outputs E ucoin_tx_empty pCmt Local).vout
    ∧ (∀ o ∈ (ln_create_commit_tx E ucoin_tx_empty pCmt Local).1.vout,
        o = p2wpkh_vout E (pCmt.remote.satoshi - fee_remote pCmt Local) pCmt.remote.pubkey
              E.VOUT_OPT_TOREMOTE
        ∨ o = p2wsh_vout E (pCmt.local_.satoshi - fee_local pCmt Local) pCmt.local_.p_script
              E.VOUT_OPT_TOLOCAL
        ∨ ∃ i h, pCmt.pp_htlcinfo[i]? = some h
            ∧ o = p2wsh_vout E (LN_MSAT2SATOSHI h.amount_msat) h.script (i % 256))
    ∧ (pCmt.pp_htlcinfo.length ≤ 256 → E.VOUT_OPT_TOLOCAL ≠ E.VOUT_OPT_TOREMOTE →
        pCmt.pp_htlcinfo.length ≤ E.VOUT_OPT_TOLOCAL →
        pCmt.pp_htlcinfo.length ≤ E.VOUT_OPT_TOREMOTE →
        ((ln_create_commit_tx E ucoin_tx_empty pCmt Local).1.vout.map
          (fun o => o.opt)).Nodup) := by
  have hperm : ((ln_create_commit_tx E ucoin_tx_empty pCmt Local).1.vout).Perm
      (ln_create_commit_tx_outputs E ucoin_tx_empty pCmt Local).vout := by
    rw [ln_create_commit_tx_vout]
    exact List.perm_insertionSort _ _
  refine ⟨?_, hperm, ?_, ?_⟩
  · rw [ln_create_commit_tx_vout]
    exact sort_bip69_sorted _
  · intro o ho
    rw [hperm.mem_iff, ln_create_commit_tx_outputs_eq E _ pCmt Local hr] at ho
    simp only [ucoin_tx_empty, List.nil_append, List.mem_append] at ho
    rcases ho with (ho | ho) | ho
    · left
      unfold to_remote_outputs at ho
      split at ho
      · exact List.mem_singleton.1 ho
      · simp at ho
    · right; left
      unfold to_local_outputs at ho
      split at ho
      · exact List.mem_singleton.1 ho
      · simp at ho
    · right; right
      unfold htlc_outputs_from at ho
      rw [List.mem_map] at ho
      obtain ⟨p, hp, rfl⟩ := ho
      rw [List.mem_filter] at hp
      obtain ⟨i, h⟩ := p
      have hm := List.mem_enumFrom hp.1
      refine ⟨i, h, ?_, rfl⟩
      rw [List.getElem?_eq_getElem (by omega)]
      simp only [Nat.sub_zero] at hm
      exact congrArg some hm.2.2.symm
  · intro hn hne hl hrr
    exact ((hperm.map _).nodup_iff).2
      ((ln_create_commit_tx_outputs_tags E pCmt Local).nodup
        (creation_tags_nodup E _ hn hne hl hrr))

/-- C11 at scenario S3: the context is in range, the list has one HTLC and the tags 0xff,
0xfe and 0 are free of clashes; the three outputs are sorted by value and carry different
tags. -/
theorem ln_create_commit_tx_bip69_tags_witness :
    (cmt_in_range cmt_s3 ∧ cmt_s3.pp_htlcinfo.length ≤ 256
      ∧ env0.VOUT_OPT_TOLOCAL ≠ env0.VOUT_OPT_TOREMOTE
      ∧ cmt_s3.pp_htlcinfo.length ≤ env0.VOUT_OPT_TOLOCAL
      ∧ cmt_s3.pp_htlcinfo.length ≤ env0.VOUT_OPT_TOREMOTE)
    ∧ (ln_create_commit_tx env0 ucoin_tx_empty cmt_s3 true).1.vout.map
        (fun o => (o.value, o.opt)) = [(1000, 0), (300000, 0xff), (499774, 0xfe)]
    ∧ ((ln_create_commit_tx env0 ucoin_tx_empty cmt_s3 true).1.vout.map
        (fun o => o.opt)).Nodup :=
  ⟨⟨by decide, by decide, by decide, by decide, by decide⟩, by decide,
    (ln_create_commit_tx_bip69_tags env0 cmt_s3 true (by decide)).2.2.2 (by decide) (by decide)
      (by decide) (by decide)⟩

set_option maxRecDepth 100000 in
/-- C11, the claim refuted. With 257 HTLCs above the dust threshold the outputs of the
HTLCs at list positions 0 and 256 both carry the tag 0, the low byte of their position:
two outputs of the finished commitment transaction carry the same tag, and the tag of the
second is not its position. -/
theorem ln_create_commit_tx_tag_clash :
    cmt_in_range cmt_257 ∧ cmt_257.pp_htlcinfo.length = 257
    ∧ ((ln_create_commit_tx env0 ucoin_tx_empty cmt_257 true).1.vout.map
        (fun o => o.opt)).count 0 = 2
    ∧ ((ln_create_commit_tx env0 ucoin_tx_empty cmt_257 true).1.vout.map
        (fun o => o.opt)).count 256 = 0
    ∧ ¬ ((ln_create_commit_tx env0 ucoin_tx_empty cmt_257 true).1.vout.map
        (fun o => o.opt)).Nodup := by
  have hr : cmt_in_range cmt_257 := by decide
  have hperm : ((ln_create_commit_tx env0 ucoin_tx_empty cmt_257 true).1.vout.map
      (fun o => o.opt)).Perm
      ((ln_create_commit_tx_outputs env0 ucoin_tx_empty cmt_257 true).vout.map
        (fun o => o.opt)) := by
    rw [ln_create_commit_tx_vout]
    exact (List.perm_insertionSort _ _).map _
  have h0 : ((ln_create_commit_tx_outputs env0 ucoin_tx_empty cmt_257 true).vout.map
      (fun o => o.opt)).count 0 = 2 := by
    rw [ln_create_commit_tx_outputs_eq env0 _ cmt_257 true hr]
    decide
  have h256 : ((ln_create_commit_tx_outputs env0 ucoin_tx_empty cmt_257 true).vout.map
      (fun o => o.opt)).count 256 = 0 := by
    rw [ln_create_commit_tx_outputs_eq env0 _ cmt_257 true hr]
    decide
  refine ⟨hr, by decide, ?_, ?_, ?_⟩
  · rw [hperm.count_eq]; exact h0
  · rw [hperm.count_eq]; exact h256
  · intro hnd
    have := List.nodup_iff_count_le_one.1 hnd 0
    rw [hperm.count_eq, h0] at this
    omega

/-! ## Signing failures in `ln_sign_htlc_tx` -/

/-- C28, as the code has it. With keys for which signing fails, `ucoin_util_sign_p2wsh_2`
returns `false` and leaves the signature buffer `[0xee]` as it was, yet `ln_sign_htlc_tx`
returns `true` for each of the three sign types: the flag of the signing step is
overwritten by the flag of `ucoin_sw_set_vin_p2wsh`, and the witness carries the stale
buffer in the place of the local signature. The sibling `ln_sign_tolocal_tx` returns
`false` on the same keys. -/
theorem ln_sign_htlc_tx_true_after_failed_signing :
    (ucoin_util_sign_p2wsh_2 env0 [0xee]
        (env0.sign_p2wsh_1 htlc_success_tx 0 800 [0x63]) keys_bad) = (false, [0xee])
    ∧ (ln_sign_htlc_tx env0 htlc_success_tx [0xee] 800 keys_bad [0x30] none [0x63]
          HTLCSIGN_TIMEOUT).map (fun r => (r.1, r.2.1.vin.map (fun v => v.witness)))
        = some (true, [[[], [0x30], [0xee], [], [0x63]]])
    ∧ (ln_sign_htlc_tx env0 htlc_success_tx [0xee] 800 keys_bad [0x30]
          (some (List.replicate 32 0x07)) [0x63]
          HTLCSIGN_SUCCESS).map (fun r => (r.1, r.2.1.vin.map (fun v => v.witness)))
        = some (true, [[[], [0x30], [0xee], List.replicate 32 0x07, [0x63]]])
    ∧ (ln_sign_htlc_tx env0 htlc_success_tx [0xee] 800 keys_bad [0x30]
          (some (List.replicate 32 0x07)) [0x63]
          HTLCSIGN_OF_PREIMG).map (fun r => (r.1, r.2.1.vin.map (fun v => v.witness)))
        = some (true, [[[0xee], List.replicate 32 0x07, [0x63]]])
    ∧ (ln_sign_tolocal_tx env0 htlc_success_tx [0xee] 800 keys_bad [0x63]).1 = false := by
  refine ⟨by decide, by decide, by decide, by decide, by decide⟩

/-! ## The fee calculator against the HTLC loop of the commitment transaction -/

/-- C27, as the code has it. With `r_field_count` 1 and one well-formed hint,
`routepay_param` succeeds and the table holds the hint. With `r_field_count` 2 and two
well-formed hints it does not succeed: the second round of the loop takes its entry from
`ppRField[1]`, which lies outside of the caller's pointer `p_rfield`, instead of entry 1 of
the table allocated for the two hints; and so `cmd_routepay` has no defined answer. -/
theorem routepay_param_second_hint_outside :
    (routepay_param w0 (some (params_routepay_hints 1 [hint_json 7])) 0
        (routepay_args_init w0)).toOption.map (fun r => (r.1, r.2.addnum, r.2.p_rfield))
      = some (true, 1, some [{ node_id := peer_a.node_id, short_channel_id := 7
                               fee_base_msat := 1000, fee_prop_millionths := 10
                               cltv_expiry_delta := 144 }])
    ∧ (routepay_param w0 (some (params_routepay_hints 2 [hint_json 7, hint_json 8])) 0
        (routepay_args_init w0)).toOption.map (fun r => r.1) = none
    ∧ routepay_param_hints w0 (some (cJSON_Array [hint_json 7, hint_json 8])) 2 0 []
      = .error (rpc_fault.pointer_outside 1)
    ∧ rpc_answer (cmd_routepay w0 s0 (some (params_routepay_hints 2 [hint_json 7, hint_json 8])))
      = none := by
  refine ⟨?_, ?_, ?_, ?_⟩
  · rfl
  · rfl
  · rfl
  · rfl

/-! ## Bounds of the tables the requests are parsed into -/

/-- C30, as the code has it. In the example world the hop table has 21 entries. A `PAY`
request with `hop_num` 0 and no hop is not rejected with `RPCERR_PARSE`: the parsing loop
does not run, the peer is looked up with the unwritten hop entry 1, and the answer is
`RPCERR_NOCONN`. A request with `hop_num` 22 and 22 well-formed hops is not rejected
either: the parsing loop stores into entry 21, outside of the table. A request with
`hop_num` 2 and two hops is submitted. -/
theorem cmd_pay_hop_num_unchecked :
    rpc_answer (cmd_pay w_peer s0 (some (params_pay 0))) = some (none, w_peer.RPCERR_NOCONN)
    ∧ w_peer.RPCERR_NOCONN ≠ w_peer.RPCERR_PARSE
    ∧ (cmd_pay w_peer s0 (some (params_pay 22))).toOption.isNone = true
    ∧ cmd_pay_hops w_peer 500000 (cJSON_GetArrayItem (some (params_pay 22)) 2) 22 0 []
        = .error (rpc_fault.store_outside_table 21)
    ∧ (cmd_pay w_peer s0 (some (params_pay 2))).toOption.map (fun r => r.error_code) = some 0
    := by
  refine ⟨?_, by decide, ?_, ?_, ?_⟩
  · rfl
  · rfl
  · rfl
  · rfl

/-! ## Parse errors of the RPC handlers -/

theorem strcpy_of_fits (size : Nat) (params : Option cJSON) (i : Nat) (str : String)
    (hf : string_fits size params i = true)
    (hi : cJSON_GetArrayItem params i = some (cJSON_String str)) :
    strcpy size str = .ok str := by
  simp only [string_fits, hi, decide_eq_true_eq] at hf
  simp [strcpy, hf]

/-- C22, as the code has it. With a live connection to the peer and no HTLC on its
channel, a well-formed `close` request starts the cooperative close. With the same live
connection and one HTLC on the channel it does not: the branch that the comments and the
debug text of `cmd_close` describe as the case of a peer that is not connected is taken,
the only call is the force close, and the answer is `"unilateral close"`. -/
theorem cmd_close_force_with_live_connection :
    search_connected_lnapp_node w_peer peer_a.node_id = some peer_a
    ∧ w_peer.ln_htlc_num peer_a = 0
    ∧ (cmd_close w_peer s0 (some params_peer_a)).toOption.map (fun r => r.st.log)
        = some [rpc_effect.lnapp_close_channel peer_a.node_id]
    ∧ rpc_answer (cmd_close w_peer s0 (some params_peer_a))
        = some (some (cJSON_String "Progressing"), 0)
    ∧ search_connected_lnapp_node { w_peer with ln_htlc_num := fun _ => 1 } peer_a.node_id
        = some peer_a
    ∧ json_connect { w_peer with ln_htlc_num := fun _ => 1 } (some params_peer_a) 0
        = .ok (some (3, { node_id := peer_a.node_id, ipaddr := "127.0.0.1", port := 9735 }))
    ∧ (cmd_close { w_peer with ln_htlc_num := fun _ => 1 } s0
          (some params_peer_a)).toOption.map (fun r => r.st.log)
        = some [rpc_effect.lnapp_close_channel_force peer_a.node_id]
    ∧ rpc_answer (cmd_close { w_peer with ln_htlc_num := fun _ => 1 } s0 (some params_peer_a))
        = some (some (cJSON_String "unilateral close"), 0) :=
  ⟨rfl, rfl, rfl, rfl, rfl, rfl, rfl, rfl⟩

/-! ## The payment driver `cmd_routepay` -/

theorem search_connected_eq (W : World) (node_id : Bytes) :
    search_connected_lnapp_node W node_id = connected_peer W node_id := by
  unfold search_connected_lnapp_node connected_peer
  cases W.p2p_cli_search_node node_id <;> rfl

/-- The submission adds at most the call of `lnapp_payment` to the log and changes nothing
else; its flag says whether the payment was submitted. -/
theorem cmd_routepay_submit_eq (W : World) (s : rpc_state) (payhash : Bytes)
    (rt : ln_routing_result_t) :
    ∃ calls, (calls = [] ∨ calls = [rpc_effect.lnapp_payment payhash rt.hop_num])
      ∧ (cmd_routepay_submit W s payhash rt).2 = { s with log := s.log ++ calls }
      ∧ (cmd_routepay_submit W s payhash rt).1 = payment_submitted W payhash rt := by
  unfold cmd_routepay_submit payment_submitted
  rw [search_connected_eq]
  cases connected_peer W (rt.hop_datain 1).pubkey with
  | none => exact ⟨[], Or.inl rfl, by simp, rfl⟩
  | some ac =>
    by_cases hi : W.lnapp_is_inited ac = true
    · exact ⟨_, Or.inr rfl, by simp [hi, rpc_log], by simp [hi]⟩
    · exact ⟨[], Or.inl rfl, by simp [hi], by simp [hi]⟩

/-- The sending part of `cmd_routepay` when the payment is submitted or the request text
of the retry fits the buffer. -/
theorem cmd_routepay_send_st (W : World) (s : rpc_state) (p : cJSON) (payhash : Bytes)
    (sh se : String) (amt : Nat) (rt : ln_routing_result_t)
    (hfit : payment_submitted W payhash rt = true ∨ retry_fits W p = true) :
    ∃ calls r, (calls = [] ∨ calls = [rpc_effect.lnapp_payment payhash rt.hop_num])
      ∧ cmd_routepay_send W s p payhash sh se amt rt = .ok r
      ∧ r.st
        = { annoskip_tmp :=
              if payment_submitted W payhash rt then s.annoskip_tmp
              else if (rt.hop_datain 0).short_channel_id ∈ s.annoskip_tmp then s.annoskip_tmp
              else s.annoskip_tmp ++ [(rt.hop_datain 0).short_channel_id]
            annoskip_invoice :=
              s.annoskip_invoice.filter (fun q => q.1 ≠ payhash)
                ++ [(payhash, W.cJSON_PrintUnformatted p)]
            mPayTryCount := s.mPayTryCount + 1
            mLastPayErr := s.mLastPayErr
            log := s.log ++ calls
              ++ (if s.mPayTryCount = 0 then
                    [rpc_effect.event_payment sh se W.ln_node_total_msat amt] else [])
              ++ (if payment_submitted W payhash rt then []
                  else [rpc_effect.misc_sendjson (retry_text W p)]) }
      ∧ rpc_code r = (some (cJSON_String "start payment"), 0) := by
  obtain ⟨calls, hcalls, hst, hflag⟩ := cmd_routepay_submit_eq W
    (ln_db_annoskip_invoice_save s (W.cJSON_PrintUnformatted p) payhash) payhash rt
  refine ⟨calls, rpc_result (cJSON_String "start payment")
    { annoskip_tmp :=
        if payment_submitted W payhash rt then s.annoskip_tmp
        else if (rt.hop_datain 0).short_channel_id ∈ s.annoskip_tmp then s.annoskip_tmp
        else s.annoskip_tmp ++ [(rt.hop_datain 0).short_channel_id]
      annoskip_invoice :=
        s.annoskip_invoice.filter (fun q => q.1 ≠ payhash)
          ++ [(payhash, W.cJSON_PrintUnformatted p)]
      mPayTryCount := s.mPayTryCount + 1
      mLastPayErr := s.mLastPayErr
      log := s.log ++ calls
        ++ (if s.mPayTryCount = 0 then
              [rpc_effect.event_payment sh se W.ln_node_total_msat amt] else [])
        ++ (if payment_submitted W payhash rt then []
            else [rpc_effect.misc_sendjson (retry_text W p)]) }, hcalls, ?_, rfl, rfl⟩
  unfold cmd_routepay_send
  simp only [hst, hflag]
  by_cases hsub : payment_submitted W payhash rt = true
  · by_cases hc : s.mPayTryCount = 0
    · simp [hsub, hc, ln_db_annoskip_invoice_save, rpc_log, rpc_result]
    · simp [hsub, hc, ln_db_annoskip_invoice_save, rpc_log, rpc_result]
  · have hfit' : retry_fits W p = true := by
      rcases hfit with h | h
      · exact absurd h hsub
      · exact h
    simp only [retry_fits, decide_eq_true_eq] at hfit'
    by_cases hc : s.mPayTryCount = 0
    · simp [hsub, hc, ln_db_annoskip_invoice_save, rpc_log, rpc_result, ln_db_annoskip_save,
        retry_text, cmd_json_pay_retry, hfit']
    · simp [hsub, hc, ln_db_annoskip_invoice_save, rpc_log, rpc_result, ln_db_annoskip_save,
        retry_text, cmd_json_pay_retry, hfit']

/-- The sending part of `cmd_routepay` when the payment is not submitted and the request
text of the retry does not fit the buffer. -/
theorem cmd_routepay_send_fault (W : World) (s : rpc_state) (p : cJSON) (payhash : Bytes)
    (sh se : String) (amt : Nat) (rt : ln_routing_result_t)
    (hsub : payment_submitted W payhash rt = false) (hfit : retry_fits W p = false) :
    cmd_routepay_send W s p payhash sh se amt rt
      = .error (rpc_fault.copy_outside_buffer 8192) := by
  obtain ⟨calls, hcalls, hst, hflag⟩ := cmd_routepay_submit_eq W
    (ln_db_annoskip_invoice_save s (W.cJSON_PrintUnformatted p) payhash) payhash rt
  simp only [retry_fits, decide_eq_false_iff_not] at hfit
  unfold cmd_routepay_send
  simp only [hst, hflag, hsub, Bool.not_false, if_true, cmd_json_pay_retry, hfit, if_false]

theorem cmd_routepay_send_ok (W : World) (s : rpc_state) (p : cJSON) (payhash : Bytes)
    (sh se : String) (amt : Nat) (rt : ln_routing_result_t) (r : rpc_ret)
    (hr : cmd_routepay_send W s p payhash sh se amt rt = .ok r) :
    payment_submitted W payhash rt = true ∨ retry_fits W p = true := by
  by_cases hsub : payment_submitted W payhash rt = true
  · exact Or.inl hsub
  · by_cases hfit : retry_fits W p = true
    · exact Or.inr hfit
    · rw [cmd_routepay_send_fault W s p payhash sh se amt rt (by simpa using hsub)
        (by simpa using hfit)] at hr
      exact absurd hr (by simp)
/-- A request that gets as far as the routing oracle is answered according to the outcome
of the oracle on the temporary skip set of the incoming state. -/
theorem cmd_routepay_of_parsed (W : World) (s : rpc_state) (p : cJSON) (a : routepay_args)
    (payhash node_payee : Bytes)
    (h : routepay_parsed W (some p) = some (a, payhash, node_payee)) :
    cmd_routepay W s (some p)
      = (match (routepay_oracle W s.annoskip_tmp a node_payee).1 with
          | LNROUTE_NONE =>
            cmd_routepay_send W (rpc_log s (rpc_effect.ln_routing_calculate s.annoskip_tmp)) p
              payhash (a.str_payhash.getD "") (a.str_payee.getD "") a.amount_msat
              (routepay_oracle W s.annoskip_tmp a node_payee).2
          | LNROUTE_NOTFOUND =>
            .ok (rpc_error W.LNERR_ROUTE_NOTFOUND
              (cmd_routepay_fail W (rpc_log s (rpc_effect.ln_routing_calculate s.annoskip_tmp))
                payhash a.str_payhash))
          | LNROUTE_TOOMANYHOP =>
            .ok (rpc_error W.LNERR_ROUTE_TOOMANYHOP
              (cmd_routepay_fail W (rpc_log s (rpc_effect.ln_routing_calculate s.annoskip_tmp))
                payhash a.str_payhash))
          | LNROUTE_OTHER =>
            .ok (rpc_error W.LNERR_ROUTE_ERROR
              (cmd_routepay_fail W (rpc_log s (rpc_effect.ln_routing_calculate s.annoskip_tmp))
                payhash a.str_payhash))) := by
  unfold routepay_parsed at h
  by_cases h3 : 0 ≤ W.btcprc_getblockcount
  · simp only [h3, if_true] at h
    unfold routepay_decoded at h
    cases hp : routepay_param W (some p) 0 (routepay_args_init W) with
    | error f => simp [hp] at h
    | ok r =>
      obtain ⟨ret, a1⟩ := r
      cases ret with
      | false => simp [hp] at h
      | true =>
        simp only [hp] at h
        split at h
        · rename_i hc
          simp only [Bool.and_eq_true] at hc
          obtain ⟨h1, h2⟩ := hc
          injection h with h
          injection h with ha hrest
          injection hrest with hph hpe
          subst ha
          subst hph
          subst hpe
          have h3' : ¬ W.btcprc_getblockcount < 0 := by omega
          simp only [cmd_routepay, hp, h1, h2, h3', Bool.not_true, Bool.false_eq_true,
            if_false]
          rfl
        · exact absurd h (by simp)
  · simp only [h3, if_false] at h
    exact absurd h (by simp)

/-- A request that does not get as far as the routing oracle faults, or is answered with
the parse error after the failure block has run on the incoming state, or, when only the
block count is not known, is answered with the parse error on the incoming state. -/
theorem cmd_routepay_of_not_parsed (W : World) (s : rpc_state) (params : Option cJSON)
    (h : routepay_parsed W params = none) :
    (∃ f, cmd_routepay W s params = .error f)
    ∨ (∃ payhash str_payhash, cmd_routepay W s params
        = .ok (rpc_parse_error W (cmd_routepay_fail W s payhash str_payhash)))
    ∨ cmd_routepay W s params = .ok (rpc_parse_error W s) := by
  cases params with
  | none => exact Or.inr (Or.inl ⟨_, _, rfl⟩)
  | some p =>
    unfold routepay_parsed routepay_decoded at h
    cases hp : routepay_param W (some p) 0 (routepay_args_init W) with
    | error f => exact Or.inl ⟨f, by simp [cmd_routepay, hp]⟩
    | ok r =>
      obtain ⟨ret, a1⟩ := r
      cases ret with
      | false =>
        exact Or.inr (Or.inl ⟨W.uninit, a1.str_payhash, by simp only [cmd_routepay, hp]⟩)
      | true =>
        simp only [hp] at h
        right
        by_cases h1 : (W.misc_str2bin LN_SZ_HASH (a1.str_payhash.getD "")).1 = true
        · by_cases h2 : (W.misc_str2bin UCOIN_SZ_PUBKEY (a1.str_payee.getD "")).1 = true
          · by_cases h3 : W.btcprc_getblockcount < 0
            · right
              simp only [cmd_routepay, hp, h1, h2, h3, Bool.not_true, Bool.false_eq_true,
                if_false, if_true]
            · have h3' : 0 ≤ W.btcprc_getblockcount := by omega
              simp [h1, h2, h3'] at h
          · left
            refine ⟨(W.misc_str2bin LN_SZ_HASH (a1.str_payhash.getD "")).2, a1.str_payhash, ?_⟩
            simp only [cmd_routepay, hp, h1, h2, Bool.not_true, Bool.false_eq_true, if_false,
              Bool.not_eq_true, Bool.not_false, if_true]
        · left
          refine ⟨(W.misc_str2bin LN_SZ_HASH (a1.str_payhash.getD "")).2, a1.str_payhash, ?_⟩
          simp only [cmd_routepay, hp, h1, Bool.not_eq_true, Bool.not_false, if_true]

theorem routepay_handler_eq (first : Bool) (W : World) (s : rpc_state)
    (params : Option cJSON) :
    routepay_handler first W s params = cmd_routepay W (routepay_entry first s) params := by
  cases first <;> rfl

theorem routepay_entry_log (first : Bool) (s : rpc_state) :
    (routepay_entry first s).log = s.log := by
  cases first <;> rfl

theorem new_calls_of_log (s : rpc_state) (r : rpc_ret) (calls : List rpc_effect)
    (h : r.st.log = s.log ++ calls) : new_calls s r = calls := by
  unfold new_calls
  rw [h, List.drop_left]

theorem invoice_load_del (s : rpc_state) (payhash : Bytes) (tmp : List Nat) (n : Nat)
    (e : String) (l : List rpc_effect) :
    ln_db_annoskip_invoice_load
      { annoskip_tmp := tmp
        annoskip_invoice := s.annoskip_invoice.filter (fun q => q.1 ≠ payhash)
        mPayTryCount := n, mLastPayErr := e, log := l } payhash = none := by
  unfold ln_db_annoskip_invoice_load
  simp only [Option.map_eq_none', List.find?_eq_none, List.mem_filter]
  intro x hx
  simpa using hx.2

/-- What a request `routepay_cont` leaves when it does not fault: the parse error, on the
incoming state or after the failure block; or, after the routing oracle was asked on the
incoming skip set, the failure block with the route error or the sending part. -/
theorem cmd_routepay_shape (W : World) (s : rpc_state) (params : Option cJSON) (r : rpc_ret)
    (hr : cmd_routepay W s params = .ok r) :
    (routepay_parsed W params = none
      ∧ ((∃ payhash str_payhash,
            r = rpc_parse_error W (cmd_routepay_fail W s payhash str_payhash))
          ∨ r = rpc_parse_error W s))
    ∨ ∃ p a payhash node_payee, params = some p
      ∧ routepay_parsed W params = some (a, payhash, node_payee)
      ∧ (((routepay_oracle W s.annoskip_tmp a node_payee).1 ≠ LNROUTE_NONE
          ∧ r = rpc_error
              (route_error_code W (routepay_oracle W s.annoskip_tmp a node_payee).1)
              (cmd_routepay_fail W (rpc_log s (rpc_effect.ln_routing_calculate s.annoskip_tmp))
                payhash a.str_payhash))
        ∨ ((routepay_oracle W s.annoskip_tmp a node_payee).1 = LNROUTE_NONE
          ∧ cmd_routepay_send W
              (rpc_log s (rpc_effect.ln_routing_calculate s.annoskip_tmp)) p payhash
              (a.str_payhash.getD "") (a.str_payee.getD "") a.amount_msat
              (routepay_oracle W s.annoskip_tmp a node_payee).2 = .ok r)) := by
  cases hparsed : routepay_parsed W params with
  | none =>
    left
    refine ⟨rfl, ?_⟩
    rcases cmd_routepay_of_not_parsed W s params hparsed with
      ⟨f, hf⟩ | ⟨payhash, sh, hok⟩ | hok
    · rw [hf] at hr; exact absurd hr (by simp)
    · rw [hok] at hr
      injection hr with hr
      exact Or.inl ⟨payhash, sh, hr.symm⟩
    · rw [hok] at hr
      injection hr with hr
      exact Or.inr hr.symm
  | some v =>
    obtain ⟨a, payhash, node_payee⟩ := v
    right
    cases params with
    | none => simp [routepay_parsed, routepay_decoded] at hparsed
    | some p =>
      refine ⟨p, a, payhash, node_payee, rfl, rfl, ?_⟩
      rw [cmd_routepay_of_parsed W s p a payhash node_payee hparsed] at hr
      cases hroute : (routepay_oracle W s.annoskip_tmp a node_payee).1 with
      | LNROUTE_NONE => right; rw [hroute] at hr; exact ⟨rfl, hr⟩
      | LNROUTE_NOTFOUND =>
        left; rw [hroute] at hr; injection hr with hr; exact ⟨by simp, hr.symm⟩
      | LNROUTE_TOOMANYHOP =>
        left; rw [hroute] at hr; injection hr with hr; exact ⟨by simp, hr.symm⟩
      | LNROUTE_OTHER =>
        left; rw [hroute] at hr; injection hr with hr; exact ⟨by simp, hr.symm⟩
/-- The calls and the try counter a request `routepay_cont` leaves when it does not fault,
by the ways it can end. -/
theorem cmd_routepay_calls (W : World) (s : rpc_state) (params : Option cJSON) (r : rpc_ret)
    (hr : cmd_routepay W s params = .ok r) :
    (routepay_parsed W params = none
      ∧ r.st.mPayTryCount = s.mPayTryCount
      ∧ ((∃ str_payhash,
            new_calls s r = [rpc_effect.event_payment_fail str_payhash s.mPayTryCount])
          ∨ new_calls s r = []))
    ∨ ∃ a payhash node_payee, routepay_parsed W params = some (a, payhash, node_payee)
      ∧ (((routepay_oracle W s.annoskip_tmp a node_payee).1 ≠ LNROUTE_NONE
          ∧ r.st.mPayTryCount = s.mPayTryCount
          ∧ new_calls s r = [rpc_effect.ln_routing_calculate s.annoskip_tmp,
              rpc_effect.event_payment_fail a.str_payhash s.mPayTryCount])
        ∨ ((routepay_oracle W s.annoskip_tmp a node_payee).1 = LNROUTE_NONE
          ∧ r.st.mPayTryCount = s.mPayTryCount + 1
          ∧ ∃ calls sent, (∀ e ∈ calls ++ sent, is_event_payment e = false)
            ∧ (∀ e ∈ calls ++ sent, routes_on_other s.annoskip_tmp e = false)
            ∧ new_calls s r = rpc_effect.ln_routing_calculate s.annoskip_tmp :: calls
                ++ (if s.mPayTryCount = 0 then
                      [rpc_effect.event_payment (a.str_payhash.getD "") (a.str_payee.getD "")
                        W.ln_node_total_msat a.amount_msat]
                    else [])
                ++ sent)) := by
  rcases cmd_routepay_shape W s params r hr with ⟨hnone, hcase⟩
    | ⟨p, a, payhash, node_payee, -, hsome, hcase⟩
  · left
    rcases hcase with ⟨payhash, sh, hrr⟩ | hrr
    · refine ⟨hnone, by rw [hrr]; rfl, Or.inl ⟨sh, ?_⟩⟩
      apply new_calls_of_log
      rw [hrr]
      simp [rpc_parse_error, cmd_routepay_fail, rpc_log, ln_db_annoskip_drop,
        ln_db_annoskip_invoice_del]
    · refine ⟨hnone, by rw [hrr]; rfl, Or.inr ?_⟩
      apply new_calls_of_log
      rw [hrr]
      simp [rpc_parse_error]
  · right
    refine ⟨a, payhash, node_payee, hsome, ?_⟩
    rcases hcase with ⟨hne, hrr⟩ | ⟨heq, hrr⟩
    · left
      refine ⟨hne, by rw [hrr]; rfl, ?_⟩
      apply new_calls_of_log
      rw [hrr]
      simp [rpc_error, cmd_routepay_fail, rpc_log, ln_db_annoskip_drop,
        ln_db_annoskip_invoice_del]
    · right
      have hfit := cmd_routepay_send_ok W _ p payhash _ _ _ _ r hrr
      obtain ⟨calls, r1, hcalls, hok, hst, -⟩ := cmd_routepay_send_st W
        (rpc_log s (rpc_effect.ln_routing_calculate s.annoskip_tmp)) p payhash
        (a.str_payhash.getD "") (a.str_payee.getD "") a.amount_msat
        (routepay_oracle W s.annoskip_tmp a node_payee).2 hfit
      rw [hok] at hrr
      injection hrr with hrr
      subst hrr
      refine ⟨heq, by rw [hst]; rfl, calls,
        (if payment_submitted W payhash (routepay_oracle W s.annoskip_tmp a node_payee).2 then []
          else [rpc_effect.misc_sendjson (retry_text W p)]), ?_, ?_, ?_⟩
      · intro e he
        rcases List.mem_append.1 he with he | he
        · rcases hcalls with hc | hc
          · rw [hc] at he; simp at he
          · rw [hc] at he; simp at he; rw [he]; rfl
        · split at he
          · simp at he
          · simp at he; rw [he]; rfl
      · intro e he
        rcases List.mem_append.1 he with he | he
        · rcases hcalls with hc | hc
          · rw [hc] at he; simp at he
          · rw [hc] at he; simp at he; rw [he]; rfl
        · split at he
          · simp at he
          · simp at he; rw [he]; rfl
      · apply new_calls_of_log
        rw [hst]
        simp [rpc_log, List.append_assoc]

/-- The event `payment` and the retry among the calls of a request `routepay_cont` that
does not fault: with the try counter above 0 on entry no event is recorded; with the try
counter 0 the event is recorded exactly when the request gets as far as the oracle and
the oracle finds a route; and a request that sends a retry leaves the counter above 0. -/
theorem cmd_routepay_events (W : World) (s : rpc_state) (params : Option cJSON) (r : rpc_ret)
    (hr : cmd_routepay W s params = .ok r) :
    (s.mPayTryCount ≠ 0 → (new_calls s r).any is_event_payment = false)
    ∧ (s.mPayTryCount = 0 →
        ((new_calls s r).any is_event_payment = true ↔
          ∃ a payhash node_payee, routepay_parsed W params = some (a, payhash, node_payee)
            ∧ (routepay_oracle W s.annoskip_tmp a node_payee).1 = LNROUTE_NONE))
    ∧ ((new_calls s r).any is_sendjson = true → 1 ≤ r.st.mPayTryCount) := by
  rcases cmd_routepay_calls W s params r hr with
    ⟨hnone, hcnt, hcalls⟩ | ⟨a, payhash, node_payee, hsome, hcase⟩
  · have hev : (new_calls s r).any is_event_payment = false := by
      rcases hcalls with ⟨sh, hc⟩ | hc <;> rw [hc] <;> simp [is_event_payment]
    have hsj : (new_calls s r).any is_sendjson = false := by
      rcases hcalls with ⟨sh, hc⟩ | hc <;> rw [hc] <;> simp [is_sendjson]
    refine ⟨fun _ => hev, fun _ => ?_, fun h => ?_⟩
    · rw [hev]
      constructor
      · intro h; exact absurd h (by simp)
      · rintro ⟨a, ph, np, h, -⟩; rw [hnone] at h; exact absurd h (by simp)
    · rw [hsj] at h; exact absurd h (by simp)
  · rcases hcase with ⟨hne, hcnt, hcalls⟩ | ⟨heq, hcnt, calls, sent, hev, -, hcalls⟩
    · have hev : (new_calls s r).any is_event_payment = false := by
        rw [hcalls]; simp [is_event_payment]
      have hsj : (new_calls s r).any is_sendjson = false := by
        rw [hcalls]; simp [is_sendjson]
      refine ⟨fun _ => hev, fun _ => ?_, fun h => ?_⟩
      · rw [hev]
        constructor
        · intro h; exact absurd h (by simp)
        · rintro ⟨a', ph, np, h, hroute⟩
          rw [hsome] at h
          injection h with h
          injection h with ha h
          injection h with hph hnp
          subst ha; subst hnp
          exact absurd hroute hne
      · rw [hsj] at h; exact absurd h (by simp)
    · have hcalls' : ∀ e ∈ calls, is_event_payment e = false :=
        fun e he => hev e (List.mem_append_left _ he)
      have hsent' : ∀ e ∈ sent, is_event_payment e = false :=
        fun e he => hev e (List.mem_append_right _ he)
      have hA : calls.any is_event_payment = false := by
        rw [List.any_eq_false]; intro e he; simp [hcalls' e he]
      have hB : sent.any is_event_payment = false := by
        rw [List.any_eq_false]; intro e he; simp [hsent' e he]
      refine ⟨fun hc => ?_, fun hc => ?_, fun _ => by omega⟩
      · rw [hcalls]
        simp [hc, List.any_append, hA, hB, is_event_payment]
      · rw [hcalls]
        constructor
        · intro _; exact ⟨a, payhash, node_payee, hsome, heq⟩
        · intro _
          simp [hc, List.any_append, is_event_payment]
/-- C25. When a request `routepay` (`first`) or `routepay_cont` gets as far as the routing
oracle and `ln_routing_calculate`, asked on the temporary skip set in force for the route
from the own node to the payee with the final CLTV, the amount and the hints of the
request, reports `NOT_FOUND`, `TOO_MANY_HOPS` or another error, the handler returns no
result with the code `LNERR_ROUTE_NOTFOUND`, `LNERR_ROUTE_TOOMANYHOP` or
`LNERR_ROUTE_ERROR`; after the query of the oracle its only call records the event
`payment fail`, so nothing is sent for a retry; the saved invoice of the payment hash is
deleted, the temporary skip set is empty and `mLastPayErr` holds the date with the text
`payment fail`. -/
theorem cmd_routepay_route_failure (first : Bool) (W : World) (s : rpc_state) (p : cJSON)
    (a : routepay_args) (payhash node_payee : Bytes) (rerr : lnerr_route_t)
    (rt_ret : ln_routing_result_t)
    (hp : routepay_parsed W (some p) = some (a, payhash, node_payee))
    (hq : W.ln_routing_calculate (routepay_entry first s).annoskip_tmp W.ln_node_getid
        node_payee ((W.btcprc_getblockcount.toNat + a.min_final_cltv_expiry) % 2 ^ 32)
        a.amount_msat a.addnum a.p_rfield = (rerr, rt_ret))
    (hne : rerr ≠ LNROUTE_NONE) :
    ∃ r, routepay_handler first W s (some p) = .ok r
      ∧ r.result = none
      ∧ r.error_code
        = (match rerr with
          | LNROUTE_NOTFOUND => W.LNERR_ROUTE_NOTFOUND
          | LNROUTE_TOOMANYHOP => W.LNERR_ROUTE_TOOMANYHOP
          | _ => W.LNERR_ROUTE_ERROR)
      ∧ new_calls s r
        = [rpc_effect.ln_routing_calculate (routepay_entry first s).annoskip_tmp,
            rpc_effect.event_payment_fail a.str_payhash (routepay_entry first s).mPayTryCount]
      ∧ (new_calls s r).any is_sendjson = false
      ∧ ln_db_annoskip_invoice_load r.st payhash = none
      ∧ r.st.annoskip_tmp = []
      ∧ r.st.mLastPayErr = "[" ++ W.misc_datetime ++ "]payment fail" := by
  have hroute : (routepay_oracle W (routepay_entry first s).annoskip_tmp a node_payee).1
      = rerr := by
    unfold routepay_oracle
    rw [hq]
  rw [routepay_handler_eq, cmd_routepay_of_parsed W _ p a payhash node_payee hp, hroute]
  have hlog : ∀ code, new_calls s (rpc_error code (cmd_routepay_fail W
      (rpc_log (routepay_entry first s)
        (rpc_effect.ln_routing_calculate (routepay_entry first s).annoskip_tmp))
      payhash a.str_payhash))
      = [rpc_effect.ln_routing_calculate (routepay_entry first s).annoskip_tmp,
          rpc_effect.event_payment_fail a.str_payhash (routepay_entry first s).mPayTryCount] := by
    intro code
    apply new_calls_of_log
    simp [rpc_error, cmd_routepay_fail, rpc_log, ln_db_annoskip_drop,
      ln_db_annoskip_invoice_del, routepay_entry_log]
  have hload : ∀ code, ln_db_annoskip_invoice_load (rpc_error code (cmd_routepay_fail W
      (rpc_log (routepay_entry first s)
        (rpc_effect.ln_routing_calculate (routepay_entry first s).annoskip_tmp))
      payhash a.str_payhash)).st payhash = none := by
    intro code
    exact invoice_load_del _ payhash _ _ _ _
  cases rerr with
  | LNROUTE_NONE => exact absurd rfl hne
  | LNROUTE_NOTFOUND =>
    exact ⟨_, rfl, rfl, rfl, hlog _, by rw [hlog]; rfl, hload _, rfl, rfl⟩
  | LNROUTE_TOOMANYHOP =>
    exact ⟨_, rfl, rfl, rfl, hlog _, by rw [hlog]; rfl, hload _, rfl, rfl⟩
  | LNROUTE_OTHER =>
    exact ⟨_, rfl, rfl, rfl, hlog _, by rw [hlog]; rfl, hload _, rfl, rfl⟩

set_option maxRecDepth 100000 in
theorem cmd_routepay_route_failure_witness :
    (routepay_parsed w_notfound (some params_routepay)
        = some (args_routepay, payhash_c, payee_b)
      ∧ ∃ r, routepay_handler false w_notfound s0 (some params_routepay) = .ok r
        ∧ r.result = none ∧ r.error_code = w_notfound.LNERR_ROUTE_NOTFOUND
        ∧ r.st.annoskip_tmp = [])
    ∧ (routepay_parsed w_toomanyhop (some params_routepay)
        = some (args_routepay, payhash_c, payee_b)
      ∧ ∃ r, routepay_handler true w_toomanyhop s0 (some params_routepay) = .ok r
        ∧ r.result = none ∧ r.error_code = w_toomanyhop.LNERR_ROUTE_TOOMANYHOP
        ∧ r.st.annoskip_tmp = []) :=
  ⟨⟨rfl,
      match cmd_routepay_route_failure false w_notfound s0 params_routepay args_routepay
        payhash_c payee_b LNROUTE_NOTFOUND (route0 0) rfl rfl (by decide) with
      | ⟨r, h1, h2, h3, _, _, _, h7, _⟩ => ⟨r, h1, h2, h3.trans rfl, h7⟩⟩,
    ⟨rfl,
      match cmd_routepay_route_failure true w_toomanyhop s0 params_routepay args_routepay
        payhash_c payee_b LNROUTE_TOOMANYHOP (route0 0) rfl rfl (by decide) with
      | ⟨r, h1, h2, h3, _, _, _, h7, _⟩ => ⟨r, h1, h2, h3.trans rfl, h7⟩⟩⟩
/-- The retries of a payment record no event `payment` when every retry is entered with
the try counter above 0, which a try that has sent the retry leaves. -/
theorem payment_retries_no_event (params : Option cJSON) :
    ∀ (rest : List World) (s : rpc_state) (prev : List rpc_effect)
      (later : List (List rpc_effect)),
      (prev.any is_sendjson = true → 1 ≤ s.mPayTryCount) →
      payment_retries params rest s prev = .ok later →
      ∀ calls ∈ later, calls.any is_event_payment = false := by
  intro rest
  induction rest with
  | nil =>
    intro s prev later _ h calls hc
    simp only [payment_retries] at h
    injection h with h
    subst h
    simp at hc
  | cons W rest ih =>
    intro s prev later hcnt h calls hc
    simp only [payment_retries] at h
    by_cases hp : prev.any is_sendjson = true
    · simp only [hp, if_true] at h
      cases hr : cmd_routepay W s params with
      | error f => simp [hr] at h
      | ok r =>
        simp only [hr] at h
        obtain ⟨hev, -, hsj⟩ := cmd_routepay_events W s params r hr
        cases hl : payment_retries params rest r.st (new_calls s r) with
        | error f => simp [hl] at h
        | ok later1 =>
          simp only [hl] at h
          injection h with h
          subst h
          rcases List.mem_cons.1 hc with hc | hc
          · subst hc
            exact hev (by have := hcnt hp; omega)
          · exact ih r.st (new_calls s r) later1 hsj hl calls hc
    · simp only [hp, if_false] at h
      injection h with h
      subst h
      simp at hc

/-- C26, as the code has it. In a payment that `routepay` starts and that no other request
interrupts, where each retry runs when the try before it has sent `routepay_cont`: the
first try records the structured event `payment` exactly when its request gets as far as
the routing oracle and the oracle finds a route on the empty skip set, whatever the
submission to `lnapp_payment` gives, and no later try records it. A first try whose
routing succeeds does return, with the event among its calls, when the payment is
submitted or the request text of the retry fits the buffer. -/
theorem cmd_routepay_payment_event (W : World) (rest : List World) (s : rpc_state)
    (params : Option cJSON) :
    (∀ tries, payment_tries params W rest s = .ok tries →
      ∃ first later, tries = first :: later
        ∧ (first.any is_event_payment = true ↔
            ∃ a payhash node_payee,
              routepay_parsed W params = some (a, payhash, node_payee)
              ∧ (W.ln_routing_calculate [] W.ln_node_getid node_payee
                  ((W.btcprc_getblockcount.toNat + a.min_final_cltv_expiry) % 2 ^ 32)
                  a.amount_msat a.addnum a.p_rfield).1 = LNROUTE_NONE)
        ∧ ∀ calls ∈ later, calls.any is_event_payment = false)
    ∧ (∀ p a payhash node_payee, params = some p →
      routepay_parsed W params = some (a, payhash, node_payee) →
      (W.ln_routing_calculate [] W.ln_node_getid node_payee
        ((W.btcprc_getblockcount.toNat + a.min_final_cltv_expiry) % 2 ^ 32)
        a.amount_msat a.addnum a.p_rfield).1 = LNROUTE_NONE →
      payment_submitted W payhash
          (W.ln_routing_calculate [] W.ln_node_getid node_payee
            ((W.btcprc_getblockcount.toNat + a.min_final_cltv_expiry) % 2 ^ 32)
            a.amount_msat a.addnum a.p_rfield).2 = true
        ∨ retry_fits W p = true →
      ∃ r, cmd_routepay_first W s params = .ok r
        ∧ (new_calls s r).any is_event_payment = true) := by
  constructor
  · intro tries h
    unfold payment_tries at h
    cases hr : cmd_routepay_first W s params with
    | error f => simp [hr] at h
    | ok r =>
      simp only [hr] at h
      cases hl : payment_retries params rest r.st (new_calls s r) with
      | error f => simp [hl] at h
      | ok later =>
        simp only [hl] at h
        injection h with h
        subst h
        have hr' : cmd_routepay W (routepay_entry true s) params = .ok r := hr
        obtain ⟨-, hev, hsj⟩ := cmd_routepay_events W (routepay_entry true s) params r hr'
        have hnc : new_calls s r = new_calls (routepay_entry true s) r := by
          unfold new_calls; rw [routepay_entry_log]
        refine ⟨new_calls s r, later, rfl, ?_, ?_⟩
        · rw [hnc]
          exact hev rfl
        · exact payment_retries_no_event params rest r.st (new_calls s r) later
            (by rw [hnc]; exact hsj) hl
  · intro p a payhash node_payee hp hparsed hroute hfit
    subst hp
    have hroute' : (routepay_oracle W (routepay_entry true s).annoskip_tmp a node_payee).1
        = LNROUTE_NONE := hroute
    have heq := cmd_routepay_of_parsed W (routepay_entry true s) p a payhash node_payee hparsed
    rw [hroute'] at heq
    obtain ⟨calls, r, -, hok, -, -⟩ := cmd_routepay_send_st W
      (rpc_log (routepay_entry true s)
        (rpc_effect.ln_routing_calculate (routepay_entry true s).annoskip_tmp)) p payhash
      (a.str_payhash.getD "") (a.str_payee.getD "") a.amount_msat
      (routepay_oracle W (routepay_entry true s).annoskip_tmp a node_payee).2 hfit
    have hr' : cmd_routepay W (routepay_entry true s) (some p) = .ok r := heq.trans hok
    refine ⟨r, hr', ?_⟩
    obtain ⟨-, hev, -⟩ := cmd_routepay_events W (routepay_entry true s) (some p) r hr'
    have hnc : new_calls s r = new_calls (routepay_entry true s) r := by
      unfold new_calls; rw [routepay_entry_log]
    rw [hnc]
    exact (hev rfl).2 ⟨a, payhash, node_payee, hparsed, hroute'⟩

set_option maxRecDepth 100000 in
theorem cmd_routepay_payment_event_witness :
    payment_tries (some params_routepay) w0 [w_peer] s0 = .ok tries_routepay
    ∧ ∃ first later, tries_routepay = first :: later
        ∧ ∀ calls ∈ later, calls.any is_event_payment = false :=
  ⟨rfl,
    match (cmd_routepay_payment_event w0 [w_peer] s0 (some params_routepay)).1
      tries_routepay rfl with
    | ⟨first, later, h1, _, h3⟩ => ⟨first, later, h1, h3⟩⟩

set_option maxRecDepth 100000 in
/-- C26, counterexample. In the example world no peer is connected: the request
`routepay` finds a route and cannot submit the payment, yet it records the event
`payment` (and sends `routepay_cont`). The retry runs with the peer connected and its
submission succeeds, and it records no event `payment`. -/
theorem cmd_routepay_event_without_submission :
    payment_submitted w0 payhash_c (route0 0) = false
    ∧ payment_submitted w_peer payhash_c (route0 1) = true
    ∧ payment_tries (some params_routepay) w0 [w_peer] s0
        = .ok [[rpc_effect.ln_routing_calculate [],
                rpc_effect.event_payment (hash_hex 'c') (node_hex 'b') 5000000 1000,
                rpc_effect.misc_sendjson (retry_head ++ print0 params_routepay ++ retry_tail)],
               [rpc_effect.ln_routing_calculate [100], rpc_effect.lnapp_payment payhash_c 2]]
    ∧ w0.ln_routing_calculate [] w0.ln_node_getid payee_b 500009 1000 0 none
        = (LNROUTE_NONE, route0 0)
    ∧ w_peer.ln_routing_calculate [100] w_peer.ln_node_getid payee_b 500009 1000 0 none
        = (LNROUTE_NONE, route0 1) :=
  ⟨rfl, rfl, rfl, rfl, rfl⟩

/-- C23. The handler of `routepay` is the handler of `routepay_cont` run on the state with
the temporary skip set emptied and the try counter set to 0, on the same parameters. The
handler of `routepay_cont` itself asks the routing oracle on no other skip set than the
incoming one, its first call being that query whenever the request gets as far as the
oracle, and it never lowers the try counter; the handler of `routepay` accordingly asks on
the empty skip set and leaves the counter at 0 or 1. -/
theorem cmd_routepay_first_resets (W : World) (s : rpc_state) (params : Option cJSON) :
    cmd_routepay_first W s params
      = cmd_routepay W { s with annoskip_tmp := [], mPayTryCount := 0 } params
    ∧ (∀ r, cmd_routepay W s params = .ok r →
        (new_calls s r).any (routes_on_other s.annoskip_tmp) = false
        ∧ (routepay_parsed W params ≠ none →
            (new_calls s r).head? = some (rpc_effect.ln_routing_calculate s.annoskip_tmp))
        ∧ s.mPayTryCount ≤ r.st.mPayTryCount)
    ∧ (∀ r, cmd_routepay_first W s params = .ok r →
        (new_calls s r).any (routes_on_other []) = false
        ∧ (routepay_parsed W params ≠ none →
            (new_calls s r).head? = some (rpc_effect.ln_routing_calculate []))
        ∧ r.st.mPayTryCount ≤ 1) := by
  have hcont : ∀ (s : rpc_state) (r : rpc_ret), cmd_routepay W s params = .ok r →
      (new_calls s r).any (routes_on_other s.annoskip_tmp) = false
      ∧ (routepay_parsed W params ≠ none →
          (new_calls s r).head? = some (rpc_effect.ln_routing_calculate s.annoskip_tmp))
      ∧ s.mPayTryCount ≤ r.st.mPayTryCount
      ∧ r.st.mPayTryCount ≤ s.mPayTryCount + 1 := by
    intro s r hr
    rcases cmd_routepay_calls W s params r hr with
      ⟨hnone, hcnt, hcalls⟩ | ⟨a, payhash, node_payee, hsome, hcase⟩
    · refine ⟨?_, fun h => absurd hnone h, by omega, by omega⟩
      rcases hcalls with ⟨sh, hc⟩ | hc <;> rw [hc] <;> simp [routes_on_other]
    · rcases hcase with ⟨hne, hcnt, hcalls⟩ | ⟨heq, hcnt, calls, sent, -, hro, hcalls⟩
      · refine ⟨?_, fun _ => by rw [hcalls]; rfl, by omega, by omega⟩
        rw [hcalls]; simp [routes_on_other]
      · refine ⟨?_, fun _ => by rw [hcalls]; rfl, by omega, by omega⟩
        rw [hcalls]
        have hA : calls.any (routes_on_other s.annoskip_tmp) = false := by
          rw [List.any_eq_false]
          intro e he; simp [hro e (List.mem_append_left _ he)]
        have hB : sent.any (routes_on_other s.annoskip_tmp) = false := by
          rw [List.any_eq_false]
          intro e he; simp [hro e (List.mem_append_right _ he)]
        by_cases hc : s.mPayTryCount = 0
        · simp [hc, List.any_append, hA, hB, routes_on_other]
        · simp [hc, List.any_append, hA, hB, routes_on_other]
  refine ⟨rfl, fun r hr => ⟨(hcont s r hr).1, (hcont s r hr).2.1, (hcont s r hr).2.2.1⟩, ?_⟩
  intro r hr
  have h := hcont { s with annoskip_tmp := [], mPayTryCount := 0 } r hr
  exact ⟨h.1, h.2.1, h.2.2.2⟩

set_option maxRecDepth 100000 in
theorem cmd_routepay_first_resets_witness :
    cmd_routepay w0 s0 (some params_routepay) = .ok ret_first_try
    ∧ (new_calls s0 ret_first_try).head? = some (rpc_effect.ln_routing_calculate [])
    ∧ s0.mPayTryCount ≤ ret_first_try.st.mPayTryCount :=
  ⟨rfl,
    ((cmd_routepay_first_resets w0 s0 (some params_routepay)).2.1 ret_first_try rfl).2.1
      (fun h => Option.noConfusion
        (h.symm.trans (rfl : routepay_parsed w0 (some params_routepay)
          = some (args_routepay, payhash_c, payee_b)))),
    ((cmd_routepay_first_resets w0 s0 (some params_routepay)).2.1 ret_first_try rfl).2.2⟩

end Ptarmigan
